import Mathlib

/-!
# The `log` line formatter and filter engine

A shallow embedding of `src/log.c` / `src/log.h` (a fixed-buffer logger derived
from EasyLogger) and machine-checked statements about it.

Modelling conventions.

* A byte is a `Nat`.  A C string (`const char *`) is a `List Nat`: the bytes
  stored from the pointer onwards; the string ends at the first `0` byte, or
  at the end of the list, where the terminator is implied (`cstr`).
* Memory that is written through a pointer is a function `Nat → Nat` from
  offsets to bytes (`Mem`).  For the line buffer `log_buf` the offsets
  `0 .. LOG_LINE_BUF_SIZE - 1` are the array itself and every offset from
  `LOG_LINE_BUF_SIZE` on lies behind it, so that a store outside the array is
  visible in the model.
* The global `g_log`, the buffer `log_buf` and the calls made to the port layer
  (mutex, console sink, file sink) form the explicit state `Sys`; every
  operation maps a `Sys` to a `Sys` and appends its port calls to `Sys.trace`.
* `Sys` also holds the state of the mutex `output_lock`, which `log_port_init` creates
  with default attributes, so it is not recursive: `mutex_held`, and `blocked_at`, which
  the first `pthread_mutex_lock` on the locked mutex sets.  A single thread never returns
  from that call.  A state with `blocked_at = some n` stands for such a thread: only the
  first `n` port calls of its trace happen (`performed`), and the rest of the state is what
  the code would do if the lock were granted.  That a call returns is stated as: `blocked_at`
  is still `none` after it; the lemmas `noWait_*` show it for `log_output`,
  `log_get_filter_tag_lvl`, `log_set_filter_tag_lvl` and `log_hexdump` called with the mutex
  free.  In the thread model `Threads` the holder of the mutex is `World.owner`, and a
  thread that waits makes no step.
* The rotating file sink has a state of its own, `Sink.file_t`: the file fields
  of `g_log`, the semaphore id, the file system as a map from path names to
  contents, and the calls made on the C library.  In `Sys` a call of
  `log_file_write` is only recorded with its line; in `Sink` the function is
  embedded with what it does to the files.
* `log.h` defines `LOG_OUTPUT_ENABLE`, `LOG_COLOR_ENABLE` and `LOG_FILE_ENABLE`
  and leaves `LOG_ASSERT_ENABLE` undefined; the embedding follows the branches
  of the preprocessor conditionals selected by these definitions.
-/

set_option autoImplicit false

namespace Log

/-! ## Constants of `log.h` and `log.c` -/

abbrev LOG_LINE_BUF_SIZE : Nat := 1024
abbrev LOG_LINE_NUM_MAX_LEN : Nat := 5
abbrev LOG_FILTER_TAG_MAX_LEN : Nat := 16
abbrev LOG_FILTER_KW_MAX_LEN : Nat := 16
abbrev LOG_FILTER_TAG_LVL_MAX_NUM : Nat := 5

abbrev LOG_LVL_ASSERT : Nat := 0
abbrev LOG_LVL_ERROR : Nat := 1
abbrev LOG_LVL_WARN : Nat := 2
abbrev LOG_LVL_INFO : Nat := 3
abbrev LOG_LVL_DEBUG : Nat := 4
abbrev LOG_LVL_VERBOSE : Nat := 5
abbrev LOG_LVL_MAX : Nat := 6

abbrev LOG_FILTER_LVL_SILENT : Nat := LOG_LVL_ASSERT
abbrev LOG_FILTER_LVL_ALL : Nat := LOG_LVL_VERBOSE

abbrev LOG_FMT_LVL : Nat := 1
abbrev LOG_FMT_TAG : Nat := 2
abbrev LOG_FMT_TIME : Nat := 4
abbrev LOG_FMT_P_INFO : Nat := 8
abbrev LOG_FMT_T_INFO : Nat := 16
abbrev LOG_FMT_DIR : Nat := 32
abbrev LOG_FMT_FUNC : Nat := 64
abbrev LOG_FMT_LINE : Nat := 128
abbrev LOG_FMT_ALL : Nat :=
  LOG_FMT_LVL ||| LOG_FMT_TAG ||| LOG_FMT_TIME ||| LOG_FMT_P_INFO ||| LOG_FMT_T_INFO |||
    LOG_FMT_DIR ||| LOG_FMT_FUNC ||| LOG_FMT_LINE

/-- The bytes of a string literal of the source. -/
def str (s : String) : List Nat := s.toList.map Char.toNat

/-- The macro `LOG_NEWLINE_SIGN`, a single line feed. -/
def LOG_NEWLINE_SIGN : List Nat := [10]
/-- The macro `CSI_START`: ESC and an opening square bracket. -/
def CSI_START : List Nat := [27, 91]
/-- The macro `CSI_END`: ESC, an opening square bracket, 0 and m; `sizeof(CSI_END) - 1` is 4. -/
def CSI_END : List Nat := [27, 91, 48, 109]

/-- The table `level_output_info`. -/
def level_output_info : Nat → List Nat
  | 0 => str "A/"
  | 1 => str "E/"
  | 2 => str "W/"
  | 3 => str "I/"
  | 4 => str "D/"
  | 5 => str "V/"
  | _ => []

/-- The table `color_output_info`: `LOG_COLOR_ASSERT` is `F_MAGENTA B_NULL S_NORMAL`,
that is 35; followed by 22m, and so on for the other levels. -/
def color_output_info : Nat → List Nat
  | 0 => str "35;22m"
  | 1 => str "31;22m"
  | 2 => str "33;22m"
  | 3 => str "36;22m"
  | 4 => str "32;22m"
  | 5 => str "34;22m"
  | _ => []

/-! ## The C library functions the logger calls -/

/-- Memory written through a pointer: offset to byte. -/
abbrev Mem := Nat → Nat

/-- The characters of the C string stored in `s`: everything before the first
`0` byte. -/
def cstr (s : List Nat) : List Nat := s.takeWhile (fun c => c != 0)

/-- The C function `strlen`. -/
def strlen (s : List Nat) : Nat := (cstr s).length

/-- The `n` bytes of memory starting at offset `0`. -/
def mem_read (mem : Mem) (n : Nat) : List Nat := (List.range n).map mem

/-- Store the bytes `l` at offsets `dst`, `dst + 1`, ... -/
def mem_write (mem : Mem) (dst : Nat) : List Nat → Mem
  | [] => mem
  | c :: l => mem_write (Function.update mem dst c) (dst + 1) l

/-- The C function `strncmp(a, b, n)`: the comparison stops at the first difference, at a
terminator, or after `n` characters. -/
def strncmp : List Nat → List Nat → Nat → Int
  | _, _, 0 => 0
  | a, b, n + 1 =>
    let c1 := a.headD 0
    let c2 := b.headD 0
    if c1 ≠ c2 then (c1 : Int) - (c2 : Int)
    else if c1 = 0 then 0
    else strncmp a.tail b.tail n

/-- The C function `strncpy(dst, src, n)` on a character array `dst`: exactly `n` bytes are
written, the characters of `src` and then `0` bytes. -/
def strncpy (dst src : List Nat) (n : Nat) : List Nat :=
  (cstr src ++ List.replicate n 0).take n ++ dst.drop n

/-- The C function `memset(dst, c, n)` on a character array `dst`. -/
def memset (dst : List Nat) (c n : Nat) : List Nat :=
  List.replicate n c ++ dst.drop n

/-- Offset of the first occurrence of `needle` in the characters `hay`. -/
def strstr_at (needle : List Nat) : List Nat → Option Nat
  | [] => if needle = [] then some 0 else none
  | c :: hay =>
    if needle.isPrefixOf (c :: hay) then some 0
    else (strstr_at needle hay).map (fun k => k + 1)

/-- The C function `strstr(haystack, needle)`: `none` is the NULL result, `some k` a pointer
to offset `k` of the haystack. -/
def strstr (haystack needle : List Nat) : Option Nat :=
  strstr_at (cstr needle) (cstr haystack)

/-- The C function `vsnprintf(mem + dst, size, format, args)`, where `msg` is the text that
`format` and `args` produce: at most `size - 1` bytes of it are stored,
followed by a terminator; nothing is stored when `size` is `0`.  The result is
the length of the whole text. -/
def vsnprintf (mem : Mem) (dst size : Nat) (msg : List Nat) : Mem × Nat :=
  if size = 0 then (mem, msg.length)
  else
    let out := msg.take (size - 1)
    (Function.update (mem_write mem dst out) (dst + out.length) 0, msg.length)

/-- Upper-case hexadecimal digits of `n`, as `%X` prints them. -/
def hex_digits (n : Nat) : List Nat :=
  (Nat.toDigits 16 n).map (fun c => c.toUpper.toNat)

/-- The conversion `%04X` of an `int` argument: the value is read as a 32-bit
unsigned number and padded with zeros to four digits. -/
def fmt_04X (v : Int) : List Nat :=
  let d := hex_digits (v % 2 ^ 32).toNat
  List.replicate (4 - d.length) 48 ++ d

/-- The conversion `%02X` of a byte. -/
def fmt_02X (v : Nat) : List Nat :=
  let d := hex_digits v
  List.replicate (2 - d.length) 48 ++ d

/-- The conversion `%ld`. -/
def fmt_ld (v : Int) : List Nat :=
  if v < 0 then 45 :: (Nat.toDigits 10 v.natAbs).map Char.toNat
  else (Nat.toDigits 10 v.toNat).map Char.toNat

/-- The C function `snprintf(dst, size, ...)` into a character array `dst` that is large
enough for `size` bytes, where `text` is the text the format produces: at most
`size - 1` characters and a terminator are stored. -/
def snprintf (dst : List Nat) (size : Nat) (text : List Nat) : List Nat :=
  if size = 0 then dst
  else
    let out := text.take (size - 1)
    out ++ [0] ++ dst.drop (out.length + 1)

/-! ## The state -/

/-- The struct `log_tag_lvl_filter_t`; `tag` is the array `char tag[17]`. -/
structure log_tag_lvl_filter_t where
  level : Nat
  tag : List Nat
  tag_use_flag : Bool

/-- The struct `log_filter_t`; `tag` and `keyword` are arrays of 17 bytes,
`tag_lvl i` is the slot `tag_lvl[i]` for `i < LOG_FILTER_TAG_LVL_MAX_NUM`. -/
structure log_filter_t where
  level : Nat
  tag : List Nat
  keyword : List Nat
  tag_lvl : Nat → log_tag_lvl_filter_t

/-- The struct `log_t` without the four fields of the file sink (`name`, `fp`,
`max_size`, `max_rotate`), which only `log_file_*` read.  `enabled_fmt_set l`
is `enabled_fmt_set[l]` for `l < LOG_LVL_MAX`. -/
structure log_t where
  filter : log_filter_t
  enabled_fmt_set : Nat → Nat
  init_ok : Bool
  output_enabled : Bool
  output_lock_enabled : Bool
  output_is_locked_before_enable : Bool
  output_is_locked_before_disable : Bool
  text_color_enabled : Bool

/-- A call into the port layer: `pthread_mutex_lock(&output_lock)`,
`pthread_mutex_unlock(&output_lock)`, `log_port_output(log, size)` and
`log_file_write(log, size)`, the last two with the `size` bytes at `log`. -/
inductive Event where
  | lock
  | unlock
  | output (line : List Nat)
  | file_write (line : List Nat)
deriving DecidableEq

/-- Everything a call can read or change: `g_log`, `log_buf`, the port calls made so far,
oldest first, and the state of the mutex `output_lock`.  `mutex_held` says that the mutex
is locked.  `blocked_at` is `some n` when the thread has called `pthread_mutex_lock` on the
locked mutex: the mutex is not recursive and no other thread is there to release it, so the
call never returns; `n` is the number of port calls made up to and including that call.
What the trace holds beyond the first `n` calls never happens: it is what the rest of the
code would do if the lock were granted. -/
structure Sys where
  g : log_t
  log_buf : Mem
  trace : List Event
  mutex_held : Bool := false
  blocked_at : Option Nat := none

/-- What the platform supplies while one record is formatted: the results of
`log_port_get_time()`, `log_port_get_p_info()` and `log_port_get_t_info()`, and
the value of `__FILE__` inside `log.c`. -/
structure Port where
  time : List Nat
  p_info : List Nat
  t_info : List Nat
  src_file : List Nat

/-- The lines handed to `log_port_output`, oldest first. -/
def console_lines : List Event → List (List Nat)
  | [] => []
  | Event.output l :: tr => l :: console_lines tr
  | _ :: tr => console_lines tr

/-- The lines handed to `log_file_write`, oldest first. -/
def file_lines : List Event → List (List Nat)
  | [] => []
  | Event.file_write l :: tr => l :: file_lines tr
  | _ :: tr => file_lines tr

/-! ## Bounded copy and the port layer -/

/-- The loop of `log_strcpy`: `mem` is the memory `dst` points into, `dst` the
offset of the next store.  The second component counts the bytes consumed,
`src - src_old`. -/
def log_strcpy_loop : Nat → Mem → Nat → List Nat → Mem × Nat
  | _, mem, _, [] => (mem, 0)
  | cur_len, mem, dst, c :: src =>
    if c = 0 then (mem, 0)
    else if cur_len < LOG_LINE_BUF_SIZE then
      let r := log_strcpy_loop (cur_len + 1) (Function.update mem dst c) (dst + 1) src
      (r.1, r.2 + 1)
    else (mem, 0)

/-- The function `log_strcpy(cur_len, dst, src)`; `none` is a NULL pointer and
`some k` for `dst` the pointer to offset `k` of `mem`. -/
def log_strcpy (cur_len : Nat) (mem : Mem) (dst : Option Nat) (src : Option (List Nat)) :
    Mem × Nat :=
  match dst, src with
  | some d, some s => log_strcpy_loop cur_len mem d s
  | _, _ => (mem, 0)

/-- The function `log_port_init`: `pthread_mutex_init(&output_lock, NULL)` makes a
non-recursive mutex that is not locked. -/
def log_port_init (s : Sys) : Sys :=
  { s with mutex_held := false }

/-- The function `log_port_output_lock`: `pthread_mutex_lock(&output_lock)`.  The call is
recorded in the trace.  On the free mutex it returns with the mutex locked.  On the locked
mutex it never returns: the first such call is recorded in `blocked_at`. -/
def log_port_output_lock (s : Sys) : Sys :=
  { s with
    trace := s.trace ++ [Event.lock],
    mutex_held := true,
    blocked_at :=
      if s.mutex_held then
        match s.blocked_at with
        | some n => some n
        | none => some (s.trace.length + 1)
      else s.blocked_at }

/-- The function `log_port_output_unlock`: `pthread_mutex_unlock(&output_lock)`. -/
def log_port_output_unlock (s : Sys) : Sys :=
  { s with trace := s.trace ++ [Event.unlock], mutex_held := false }

/-- The port calls that really happen: the whole trace, or, when the thread is blocked in
`pthread_mutex_lock`, the calls up to and including that one. -/
def performed (s : Sys) : List Event :=
  match s.blocked_at with
  | none => s.trace
  | some n => s.trace.take n

/-- The function `log_port_output(log, size)` with `log = log_buf`. -/
def log_port_output (size : Nat) (s : Sys) : Sys :=
  { s with trace := s.trace ++ [Event.output (mem_read s.log_buf size)] }

/-- The call `log_file_write(log, size)` with `log = log_buf`, recorded as a
port call. -/
def log_file_write (size : Nat) (s : Sys) : Sys :=
  { s with trace := s.trace ++ [Event.file_write (mem_read s.log_buf size)] }

/-- The function `log_output_lock`. -/
def log_output_lock (s : Sys) : Sys :=
  if s.g.output_lock_enabled then
    let s := log_port_output_lock s
    { s with g := { s.g with output_is_locked_before_disable := true } }
  else
    { s with g := { s.g with output_is_locked_before_enable := true } }

/-- The function `log_output_unlock`. -/
def log_output_unlock (s : Sys) : Sys :=
  if s.g.output_lock_enabled then
    let s := log_port_output_unlock s
    { s with g := { s.g with output_is_locked_before_disable := false } }
  else
    { s with g := { s.g with output_is_locked_before_enable := false } }

/-- The function `get_fmt_enabled(level, set)`.  Its `LOG_CHECK` only fires
for `level > LOG_LVL_VERBOSE`; `log_output` calls it after it has rejected such
levels, so the result is all that matters. -/
def get_fmt_enabled (g : log_t) (level set : Nat) : Bool :=
  if level > LOG_LVL_VERBOSE then false
  else (g.enabled_fmt_set level &&& set) != 0

/-! ## The filter -/

/-- The loop condition of the scans over `tag_lvl`: slot `i` is in use and
holds `tag`. -/
def tag_lvl_match (g : log_t) (tag : List Nat) (i : Nat) : Bool :=
  (g.filter.tag_lvl i).tag_use_flag == true &&
    strncmp tag (g.filter.tag_lvl i).tag LOG_FILTER_TAG_MAX_LEN == 0

/-- The scan `for (i = 0; i < LOG_FILTER_TAG_LVL_MAX_NUM; i++) if (...) break;`:
the first slot that matches, `none` when the loop runs to its end. -/
def find_tag_lvl (g : log_t) (tag : List Nat) : Option Nat :=
  (List.range LOG_FILTER_TAG_LVL_MAX_NUM).find? (tag_lvl_match g tag)

/-- The function `log_get_filter_tag_lvl(tag)` for a tag that is not NULL. -/
def log_get_filter_tag_lvl (tag : List Nat) (s : Sys) : Int × Sys :=
  let level := LOG_FILTER_LVL_ALL
  if !s.g.init_ok then ((level : Int), s)
  else
    let s := log_port_output_lock s
    let level :=
      match find_tag_lvl s.g tag with
      | some i => (s.g.filter.tag_lvl i).level
      | none => level
    let s := log_output_unlock s
    ((level : Int), s)

/-! ## The line formatter of `log_output` -/

/-- The pair of `log_buf` and the running `log_len` while a line is built. -/
abbrev Line := Mem × Nat

/-- The statement `log_len += log_strcpy(log_len, log_buf + log_len, src);`. -/
def log_append (st : Line) (src : List Nat) : Line :=
  let r := log_strcpy st.2 st.1 (some st.2) (some src)
  (r.1, st.2 + r.2)

/-- The block "add CSI start sign and color info" of `log_output`. -/
def fmt_color (g : log_t) (level : Nat) (st : Line) : Line :=
  if g.text_color_enabled then
    let st := log_append st CSI_START
    log_append st (color_output_info level)
  else st

/-- The block "package level info" of `log_output`. -/
def fmt_level (g : log_t) (level : Nat) (st : Line) : Line :=
  if get_fmt_enabled g level LOG_FMT_LVL then
    log_append st (level_output_info level)
  else st

/-- The block "package tag info" of `log_output`; `tag_sapce` is the local
array of `LOG_FILTER_TAG_MAX_LEN / 2 + 1` zero bytes. -/
def fmt_tag (g : log_t) (level : Nat) (tag : List Nat) (st : Line) : Line :=
  let tag_len := strlen tag
  let tag_sapce := List.replicate (LOG_FILTER_TAG_MAX_LEN / 2 + 1) 0
  if get_fmt_enabled g level LOG_FMT_TAG then
    let st := log_append st tag
    let st :=
      if tag_len ≤ LOG_FILTER_TAG_MAX_LEN / 2 then
        let tag_sapce := memset tag_sapce 32 (LOG_FILTER_TAG_MAX_LEN / 2 - tag_len)
        log_append st tag_sapce
      else st
    log_append st (str " ")
  else st

/-- The block "package time, process and thread info" of `log_output`. -/
def fmt_time_info (g : log_t) (p : Port) (level : Nat) (st : Line) : Line :=
  if get_fmt_enabled g level (LOG_FMT_TIME ||| LOG_FMT_P_INFO ||| LOG_FMT_T_INFO) then
    let st := log_append st (str "[")
    let st :=
      if get_fmt_enabled g level LOG_FMT_TIME then
        let st := log_append st p.time
        if get_fmt_enabled g level (LOG_FMT_P_INFO ||| LOG_FMT_T_INFO) then
          log_append st (str " ")
        else st
      else st
    let st :=
      if get_fmt_enabled g level LOG_FMT_P_INFO then
        let st := log_append st p.p_info
        if get_fmt_enabled g level LOG_FMT_T_INFO then
          log_append st (str " ")
        else st
      else st
    let st :=
      if get_fmt_enabled g level LOG_FMT_T_INFO then
        log_append st p.t_info
      else st
    log_append st (str "] ")
  else st

/-- The block "package file directory and name, function name and line number
info" of `log_output`; `line_num` is the local array of
`LOG_LINE_NUM_MAX_LEN + 1` zero bytes. -/
def fmt_src_info (g : log_t) (level : Nat) (file func : List Nat) (line : Int) (st : Line) :
    Line :=
  let line_num := List.replicate (LOG_LINE_NUM_MAX_LEN + 1) 0
  if get_fmt_enabled g level (LOG_FMT_DIR ||| LOG_FMT_FUNC ||| LOG_FMT_LINE) then
    let st := log_append st (str "(")
    let st :=
      if get_fmt_enabled g level LOG_FMT_DIR then
        let st := log_append st file
        if get_fmt_enabled g level LOG_FMT_FUNC then
          log_append st (str ":")
        else if get_fmt_enabled g level LOG_FMT_LINE then
          log_append st (str " ")
        else st
      else st
    let st :=
      if get_fmt_enabled g level LOG_FMT_LINE then
        let line_num := snprintf line_num LOG_LINE_NUM_MAX_LEN (fmt_ld line)
        let st := log_append st line_num
        if get_fmt_enabled g level LOG_FMT_FUNC then
          log_append st (str " ")
        else st
      else st
    let st :=
      if get_fmt_enabled g level LOG_FMT_FUNC then
        log_append st func
      else st
    log_append st (str ")")
  else st

/-- The header of a line: everything `log_output` appends between
`log_output_lock()` and the `vsnprintf` call, starting from `log_len = 0`. -/
def fmt_header (g : log_t) (p : Port) (level : Nat) (tag file func : List Nat) (line : Int)
    (buf : Mem) : Line :=
  let st : Line := (buf, 0)
  let st := fmt_color g level st
  let st := fmt_level g level st
  let st := fmt_tag g level tag st
  let st := fmt_time_info g p level st
  fmt_src_info g level file func line st

/-- The part of `log_output` from the `vsnprintf` call to the end of the
"overflow check": the message is stored behind the header and `log_len` is
computed and clamped.  `msg` is the text that `format` and the arguments
produce, so `fmt_result > -1` holds; the text may hold a `0` byte, which the
conversion `%c` produces for the argument 0. -/
def fmt_message (st : Line) (msg : List Nat) : Line :=
  let newline_len := strlen LOG_NEWLINE_SIGN
  let log_len := st.2
  let r := vsnprintf st.1 log_len (LOG_LINE_BUF_SIZE - log_len) msg
  let fmt_result := r.2
  let log_len :=
    if log_len + fmt_result ≤ LOG_LINE_BUF_SIZE then log_len + fmt_result
    else LOG_LINE_BUF_SIZE
  let log_len :=
    if log_len + CSI_END.length + newline_len > LOG_LINE_BUF_SIZE then
      LOG_LINE_BUF_SIZE - CSI_END.length - newline_len
    else log_len
  (r.1, log_len)

/-- The buffer and the logical length `log_len` that `log_output` has reached
when it comes to the keyword filter, before the trailing signs. -/
def log_output_format (g : log_t) (p : Port) (level : Nat) (tag file func : List Nat)
    (line : Int) (msg : List Nat) (buf : Mem) : Line :=
  fmt_message (fmt_header g p level tag file func line buf) msg

/-- The end of `log_output`, from the keyword filter on. -/
def log_output_finish (st : Line) (s : Sys) : Sys :=
  let kw_hit : Option Line :=
    if s.g.filter.keyword.headD 0 ≠ 0 then
      let buf := Function.update st.1 st.2 0
      if (strstr (mem_read buf LOG_LINE_BUF_SIZE) s.g.filter.keyword).isNone then none
      else some (buf, st.2)
    else some st
  match kw_hit with
  | none => log_output_unlock { s with log_buf := Function.update st.1 st.2 0 }
  | some st =>
    let st := if s.g.text_color_enabled then log_append st CSI_END else st
    let st := log_append st LOG_NEWLINE_SIGN
    let s := { s with log_buf := st.1 }
    let s := log_port_output st.2 s
    let s := log_file_write st.2 s
    log_output_unlock s

/-- The function `log_output` behind its `LOG_CHECK`, that is for a level that
is at most `LOG_LVL_VERBOSE`; `tag` is not NULL since `strlen(tag)` is taken
first. -/
def log_output_body (p : Port) (level : Nat) (tag file func : List Nat) (line : Int)
    (msg : List Nat) (s : Sys) : Sys :=
  if !s.g.init_ok then s
  else if !s.g.output_enabled then s
  else if level > s.g.filter.level then s
  else
    let r := log_get_filter_tag_lvl tag s
    let s := r.2
    if (level : Int) > r.1 then s
    else if (strstr tag s.g.filter.tag).isNone then s
    else
      let s := log_output_lock s
      let st := log_output_format s.g p level tag file func line msg s.log_buf
      log_output_finish st s

/-- The macro `log_a(...)` as `log.c` expands it: `LOG_TAG` is "log" and
`LOG_LVL` is `LOG_LVL_VERBOSE`, so it is `log_output(LOG_LVL_ASSERT, "log",
__FILE__, __FUNCTION__, __LINE__, ...)`. -/
def log_a (p : Port) (func : List Nat) (line : Int) (msg : List Nat) (s : Sys) : Sys :=
  log_output_body p LOG_LVL_ASSERT (str "log") p.src_file func line msg s

/-- The function `log_output(level, tag, file, func, line, format, ...)`, where
`msg` is the text that `format` and the arguments produce.  The `LOG_CHECK` of
line 691 reports a level above `LOG_LVL_VERBOSE` through `log_a` and returns. -/
def log_output (p : Port) (level : Nat) (tag file func : List Nat) (line : Int)
    (msg : List Nat) (s : Sys) : Sys :=
  if level > LOG_LVL_VERBOSE then
    log_a p (str "log_output") 691 (str "check [level > LOG_LVL_VERBOSE]\n") s
  else log_output_body p level tag file func line msg s

/-! ## The setters -/

/-- The function `log_set_output_enabled`. -/
def log_set_output_enabled (enabled : Bool) (s : Sys) : Sys :=
  { s with g := { s.g with output_enabled := enabled } }

/-- The function `log_set_text_color_enabled`. -/
def log_set_text_color_enabled (enabled : Bool) (s : Sys) : Sys :=
  { s with g := { s.g with text_color_enabled := enabled } }

/-- The function `log_set_fmt(level, set)`. -/
def log_set_fmt (p : Port) (level set : Nat) (s : Sys) : Sys :=
  if level > LOG_LVL_VERBOSE then
    log_a p (str "log_set_fmt") 445 (str "check [level > LOG_LVL_VERBOSE]\n") s
  else
    { s with g := { s.g with enabled_fmt_set := Function.update s.g.enabled_fmt_set level set } }

/-- The function `log_set_filter_lvl(level)`. -/
def log_set_filter_lvl (p : Port) (level : Nat) (s : Sys) : Sys :=
  if level > LOG_LVL_VERBOSE then
    log_a p (str "log_set_filter_lvl") 473 (str "check [level > LOG_LVL_VERBOSE]\n") s
  else
    { s with g := { s.g with filter := { s.g.filter with level := level } } }

/-- The function `log_set_filter_tag(tag)` for a tag that is not NULL. -/
def log_set_filter_tag (tag : List Nat) (s : Sys) : Sys :=
  { s with g := { s.g with filter :=
      { s.g.filter with tag := strncpy s.g.filter.tag tag LOG_FILTER_TAG_MAX_LEN } } }

/-- The function `log_set_filter_kw(keyword)` for a keyword that is not NULL. -/
def log_set_filter_kw (keyword : List Nat) (s : Sys) : Sys :=
  { s with g := { s.g with filter :=
      { s.g.filter with keyword := strncpy s.g.filter.keyword keyword LOG_FILTER_KW_MAX_LEN } } }

/-- The function `log_set_filter(level, tag, keyword)`. -/
def log_set_filter (p : Port) (level : Nat) (tag keyword : List Nat) (s : Sys) : Sys :=
  if level > LOG_LVL_VERBOSE then
    log_a p (str "log_set_filter") 459 (str "check [level > LOG_LVL_VERBOSE]\n") s
  else
    let s := log_set_filter_lvl p level s
    let s := log_set_filter_tag tag s
    log_set_filter_kw keyword s

/-- Replace slot `i` of the table `g_log.filter.tag_lvl`. -/
def set_tag_lvl (s : Sys) (i : Nat) (slot : log_tag_lvl_filter_t) : Sys :=
  { s with g := { s.g with filter :=
      { s.g.filter with tag_lvl := Function.update s.g.filter.tag_lvl i slot } } }

/-- The second scan of `log_set_filter_tag_lvl`: the first slot that is not in
use. -/
def find_unused_tag_lvl (g : log_t) : Option Nat :=
  (List.range LOG_FILTER_TAG_LVL_MAX_NUM).find?
    (fun i => (g.filter.tag_lvl i).tag_use_flag == false)

/-- The function `log_set_filter_tag_lvl(tag, level)`; `none` is a NULL tag. -/
def log_set_filter_tag_lvl (p : Port) (tag : Option (List Nat)) (level : Nat) (s : Sys) :
    Sys :=
  if level > LOG_LVL_VERBOSE then
    log_a p (str "log_set_filter_tag_lvl") 544 (str "check [level > LOG_LVL_VERBOSE]\n") s
  else
    match tag with
    | none => log_a p (str "log_set_filter_tag_lvl") 545 (str "check [tag == NULL]\n") s
    | some tag =>
      if !s.g.init_ok then s
      else
        let s := log_port_output_lock s
        let s :=
          match find_tag_lvl s.g tag with
          | some i =>
            let slot := s.g.filter.tag_lvl i
            if level = LOG_FILTER_LVL_ALL then
              set_tag_lvl s i
                { tag_use_flag := false,
                  tag := memset slot.tag 0 (LOG_FILTER_TAG_MAX_LEN + 1),
                  level := LOG_FILTER_LVL_SILENT }
            else set_tag_lvl s i { slot with level := level }
          | none =>
            if level ≠ LOG_FILTER_LVL_ALL then
              match find_unused_tag_lvl s.g with
              | some i =>
                let slot := s.g.filter.tag_lvl i
                set_tag_lvl s i
                  { tag := strncpy slot.tag tag LOG_FILTER_TAG_MAX_LEN,
                    level := level,
                    tag_use_flag := true }
              | none => s
            else s
        log_output_unlock s

/-! ## The hex dump -/

/-- The macro `__is_print(ch)`: `(unsigned int)((ch) - 32) < 127u - 32`. -/
def is_print (ch : Nat) : Bool :=
  decide ((((ch : Int) - 32) % 2 ^ 32) < 127 - 32)

/-- The loop "dump hex" of `log_hexdump` for the row that starts at `i`; the
state is the local array `dump_string` and the line. -/
def hexdump_hex (width : Nat) (buf : List Nat) (size i : Nat) (st : List Nat × Line) :
    List Nat × Line :=
  (List.range width).foldl
    (fun st j =>
      let dump_string :=
        if i + j < size then snprintf st.1 8 (fmt_02X (buf.getD (i + j) 0) ++ str " ")
        else strncpy st.1 (str "   ") 8
      let line := log_append st.2 dump_string
      let line := if (j + 1) % 8 = 0 then log_append line (str " ") else line
      (dump_string, line))
    st

/-- The loop "dump char for hex" of `log_hexdump` for the row that starts at
`i`. -/
def hexdump_char (width : Nat) (buf : List Nat) (size i : Nat) (st : List Nat × Line) :
    List Nat × Line :=
  (List.range width).foldl
    (fun st j =>
      if i + j < size then
        let ch := buf.getD (i + j) 0
        let dump_string := snprintf st.1 8 [if is_print ch then ch else 46]
        (dump_string, log_append st.2 dump_string)
      else st)
    st

/-- One pass through the body of the outer loop of `log_hexdump`: the row that
starts at `i` is built in `log_buf` and handed to both sinks. -/
def hexdump_row (name : List Nat) (width : Nat) (buf : List Nat) (size i : Nat)
    (dump_string : List Nat) (s : Sys) : List Nat × Sys :=
  let text := str "D/HEX " ++ cstr name ++ str ": " ++ fmt_04X (i : Int) ++ str "-" ++
    fmt_04X ((i : Int) + (width : Int) - 1) ++ str ": "
  let r := vsnprintf s.log_buf 0 LOG_LINE_BUF_SIZE text
  let fmt_result := r.2
  let log_len := if fmt_result ≤ LOG_LINE_BUF_SIZE then fmt_result else LOG_LINE_BUF_SIZE
  let st : List Nat × Line := (dump_string, (r.1, log_len))
  let st := hexdump_hex width buf size i st
  let st : List Nat × Line := (st.1, log_append st.2 (str "  "))
  let st := hexdump_char width buf size i st
  let line := st.2
  let log_len :=
    if line.2 + strlen LOG_NEWLINE_SIGN > LOG_LINE_BUF_SIZE then
      LOG_LINE_BUF_SIZE - strlen LOG_NEWLINE_SIGN
    else line.2
  let line := log_append (line.1, log_len) LOG_NEWLINE_SIGN
  let s := { s with log_buf := line.1 }
  let s := log_port_output line.2 s
  let s := log_file_write line.2 s
  (st.1, s)

/-- The loop `for (i = 0; i < size; i += width)` of `log_hexdump`, run for at
most `fuel` passes; `none` when the passes do not suffice. -/
def hexdump_loop (name : List Nat) (width : Nat) (buf : List Nat) (size : Nat) :
    Nat → Nat → List Nat × Sys → Option Sys
  | 0, i, st => if i < size then none else some st.2
  | fuel + 1, i, st =>
    if i < size then
      hexdump_loop name width buf size fuel (i + width) (hexdump_row name width buf size i st.1 st.2)
    else some st.2

/-- The function `log_hexdump(name, width, buf, size)`; `buf` holds the `size`
bytes of the object.  The result is `none` when `fuel` passes of the outer loop
do not reach its end. -/
def log_hexdump (fuel : Nat) (name : List Nat) (width : Nat) (buf : List Nat) (size : Nat)
    (s : Sys) : Option Sys :=
  if !s.g.init_ok then some s
  else if !s.g.output_enabled then some s
  else if LOG_LVL_DEBUG > s.g.filter.level then some s
  else if (strstr name s.g.filter.tag).isNone then some s
  else
    let s := log_output_lock s
    match hexdump_loop name width buf size fuel 0 (List.replicate 8 0, s) with
    | none => none
    | some s => some (log_output_unlock s)

/-! ## The text of a line -/

/-- The text of the block "add CSI start sign and color info". -/
def color_text (g : log_t) (level : Nat) : List Nat :=
  if g.text_color_enabled then CSI_START ++ color_output_info level else []

/-- The text of the block "package level info". -/
def level_text (g : log_t) (level : Nat) : List Nat :=
  if get_fmt_enabled g level LOG_FMT_LVL then level_output_info level else []

/-- The tag as a line shows it: padded with spaces to eight characters when it
is not longer, and followed by one space. -/
def tag_text (tag : List Nat) : List Nat :=
  cstr tag ++ (if strlen tag ≤ 8 then List.replicate (8 - strlen tag) 32 else []) ++ [32]

/-- The text of the block "package tag info". -/
def tag_field (g : log_t) (level : Nat) (tag : List Nat) : List Nat :=
  if get_fmt_enabled g level LOG_FMT_TAG then tag_text tag else []

/-- The text of the block "package time, process and thread info". -/
def time_info_text (g : log_t) (p : Port) (level : Nat) : List Nat :=
  if get_fmt_enabled g level (LOG_FMT_TIME ||| LOG_FMT_P_INFO ||| LOG_FMT_T_INFO) then
    str "[" ++
      (if get_fmt_enabled g level LOG_FMT_TIME then
        cstr p.time ++
          (if get_fmt_enabled g level (LOG_FMT_P_INFO ||| LOG_FMT_T_INFO) then str " " else [])
       else []) ++
      (if get_fmt_enabled g level LOG_FMT_P_INFO then
        cstr p.p_info ++ (if get_fmt_enabled g level LOG_FMT_T_INFO then str " " else [])
       else []) ++
      (if get_fmt_enabled g level LOG_FMT_T_INFO then cstr p.t_info else []) ++
      str "] "
  else []

/-- The characters of the local array `line_num` after
`snprintf(line_num, LOG_LINE_NUM_MAX_LEN, "%ld", line)`. -/
def line_num_text (line : Int) : List Nat :=
  cstr (snprintf (List.replicate (LOG_LINE_NUM_MAX_LEN + 1) 0) LOG_LINE_NUM_MAX_LEN (fmt_ld line))

/-- The text of the block "package file directory and name, function name and
line number info". -/
def src_info_text (g : log_t) (level : Nat) (file func : List Nat) (line : Int) : List Nat :=
  if get_fmt_enabled g level (LOG_FMT_DIR ||| LOG_FMT_FUNC ||| LOG_FMT_LINE) then
    str "(" ++
      (if get_fmt_enabled g level LOG_FMT_DIR then
        cstr file ++
          (if get_fmt_enabled g level LOG_FMT_FUNC then str ":"
           else if get_fmt_enabled g level LOG_FMT_LINE then str " " else [])
       else []) ++
      (if get_fmt_enabled g level LOG_FMT_LINE then
        line_num_text line ++ (if get_fmt_enabled g level LOG_FMT_FUNC then str " " else [])
       else []) ++
      (if get_fmt_enabled g level LOG_FMT_FUNC then cstr func else []) ++
      str ")"
  else []

/-- The whole header in front of the message, before any cut. -/
def header_text (g : log_t) (p : Port) (level : Nat) (tag file func : List Nat) (line : Int) :
    List Nat :=
  color_text g level ++ level_text g level ++ tag_field g level tag ++ time_info_text g p level ++
    src_info_text g level file func line

/-- The text that `log_output` has rendered in `log_buf` when it comes to the
keyword filter: the first `log_len` bytes of the buffer, for the clamped
`log_len`. -/
def rendered (g : log_t) (p : Port) (level : Nat) (tag file func : List Nat) (line : Int)
    (msg : List Nat) (buf : Mem) : List Nat :=
  mem_read (log_output_format g p level tag file func line msg buf).1
    (log_output_format g p level tag file func line msg buf).2

/-- The line under construction holds the first `LOG_LINE_BUF_SIZE` bytes of
the text `L`, and no byte behind the buffer differs from the memory `m0`. -/
def Holds (m0 : Mem) (st : Line) (L : List Nat) : Prop :=
  mem_read st.1 st.2 = L.take LOG_LINE_BUF_SIZE ∧ ∀ j, LOG_LINE_BUF_SIZE ≤ j → st.1 j = m0 j

/-- The two states agree on everything but the lock flags and the trace, and the
same lines have been passed to the two sinks. -/
def Quiet (s s1 : Sys) : Prop :=
  s1.g.filter = s.g.filter ∧ s1.g.enabled_fmt_set = s.g.enabled_fmt_set ∧
    s1.g.init_ok = s.g.init_ok ∧ s1.g.output_enabled = s.g.output_enabled ∧
    s1.g.text_color_enabled = s.g.text_color_enabled ∧ s1.log_buf = s.log_buf ∧
    console_lines s1.trace = console_lines s.trace ∧ file_lines s1.trace = file_lines s.trace

/-- The record passes the level and tag filters of `log_output`. -/
def passes (level : Nat) (tag : List Nat) (s : Sys) : Prop :=
  s.g.init_ok = true ∧ s.g.output_enabled = true ∧ level ≤ s.g.filter.level ∧
    (level : Int) ≤ (log_get_filter_tag_lvl tag s).1 ∧
    (strstr tag s.g.filter.tag).isSome = true

/-! ## Example states -/

/-- A logger as `log_init` leaves the fields that the formatter reads, but with
text color off and the format set `LOG_FMT_LVL | LOG_FMT_TAG` for every level:
initialised, output enabled, level filter `LOG_LVL_VERBOSE`, no tag filter, no
keyword, no tag level override. -/
def ex_g : log_t :=
  { filter :=
      { level := LOG_LVL_VERBOSE,
        tag := List.replicate (LOG_FILTER_TAG_MAX_LEN + 1) 0,
        keyword := List.replicate (LOG_FILTER_KW_MAX_LEN + 1) 0,
        tag_lvl := fun _ =>
          { level := 0, tag := List.replicate (LOG_FILTER_TAG_MAX_LEN + 1) 0,
            tag_use_flag := false } },
    enabled_fmt_set := fun _ => LOG_FMT_LVL ||| LOG_FMT_TAG,
    init_ok := true,
    output_enabled := true,
    output_lock_enabled := true,
    output_is_locked_before_enable := false,
    output_is_locked_before_disable := false,
    text_color_enabled := false }

/-- The logger `ex_g` with a zeroed line buffer and no port call made yet. -/
def ex_sys : Sys := { g := ex_g, log_buf := fun _ => 0, trace := [] }

/-- Sample values for what the platform supplies. -/
def ex_port : Port :=
  { time := str "2021-07-28 18:53:39-123",
    p_info := str "pid:0042",
    t_info := str "tid:0007",
    src_file := str "log.c" }

/-! ## The text of a hex dump row -/

/-- The states before and after a setter of the tag level table agree on everything but the
table, the lock flags and the trace, and the same lines have been passed to the sinks. -/
def TableOnly (s s1 : Sys) : Prop :=
  s1.g.filter.level = s.g.filter.level ∧ s1.g.filter.tag = s.g.filter.tag ∧
    s1.g.filter.keyword = s.g.filter.keyword ∧
    s1.g.enabled_fmt_set = s.g.enabled_fmt_set ∧
    s1.g.init_ok = s.g.init_ok ∧ s1.g.output_enabled = s.g.output_enabled ∧
    s1.g.text_color_enabled = s.g.text_color_enabled ∧ s1.log_buf = s.log_buf ∧
    console_lines s1.trace = console_lines s.trace ∧ file_lines s1.trace = file_lines s.trace

/-! ## Lock switch and initialisation -/

/-- The function `log_output_lock_enabled(enabled)`. -/
def log_output_lock_enabled (enabled : Bool) (s : Sys) : Sys :=
  let s := { s with g := { s.g with output_lock_enabled := enabled } }
  if s.g.output_lock_enabled then
    if !s.g.output_is_locked_before_disable && s.g.output_is_locked_before_enable then
      log_port_output_lock s
    else if s.g.output_is_locked_before_disable && !s.g.output_is_locked_before_enable then
      log_port_output_unlock s
    else s
  else s

/-- The operator `~` on an `int` that holds a format bit, as a 32-bit pattern. -/
def bit_not (x : Nat) : Nat := (2 ^ 32 - 1) ^^^ x

/-- The function `log_init` on `g_log`.  `log_port_init()` returns 0 and `log_file_init()`
only touches the file sink, which has its own state; `setbuf` acts on `stdout`. -/
def log_init (p : Port) (s : Sys) : Sys :=
  if s.g.init_ok then s
  else
    let s := log_port_init s
    let s := log_output_lock_enabled true s
    let s := { s with g := { s.g with output_is_locked_before_enable := false,
                                      output_is_locked_before_disable := false } }
    let s := log_set_text_color_enabled true s
    let s := log_set_filter_lvl p LOG_LVL_VERBOSE s
    let s := log_set_fmt p LOG_LVL_ASSERT
      (LOG_FMT_ALL &&& bit_not LOG_FMT_P_INFO &&& bit_not LOG_FMT_T_INFO) s
    let s := log_set_fmt p LOG_LVL_ERROR
      (LOG_FMT_LVL ||| LOG_FMT_TAG ||| LOG_FMT_TIME ||| LOG_FMT_DIR) s
    let s := log_set_fmt p LOG_LVL_WARN
      (LOG_FMT_LVL ||| LOG_FMT_TAG ||| LOG_FMT_TIME ||| LOG_FMT_DIR) s
    let s := log_set_fmt p LOG_LVL_INFO (LOG_FMT_LVL ||| LOG_FMT_TAG ||| LOG_FMT_TIME) s
    let s := log_set_fmt p LOG_LVL_DEBUG
      (LOG_FMT_ALL &&& bit_not LOG_FMT_P_INFO &&& bit_not LOG_FMT_T_INFO) s
    let s := log_set_fmt p LOG_LVL_VERBOSE LOG_FMT_ALL s
    let s := log_set_output_enabled true s
    { s with g := { s.g with init_ok := true } }

/-- The value of the static `g_log = {0}` and of `log_buf` when the program starts; no port
call has been made, the mutex is not locked and the thread is not blocked. -/
def start_sys : Sys :=
  { g :=
      { filter :=
          { level := 0,
            tag := List.replicate (LOG_FILTER_TAG_MAX_LEN + 1) 0,
            keyword := List.replicate (LOG_FILTER_KW_MAX_LEN + 1) 0,
            tag_lvl := fun _ =>
              { level := 0, tag := List.replicate (LOG_FILTER_TAG_MAX_LEN + 1) 0,
                tag_use_flag := false } },
        enabled_fmt_set := fun _ => 0,
        init_ok := false,
        output_enabled := false,
        output_lock_enabled := false,
        output_is_locked_before_enable := false,
        output_is_locked_before_disable := false,
        text_color_enabled := false },
    log_buf := fun _ => 0,
    trace := [] }

/-- Example: the logger after `log_init()` and `log_output_lock()`: the caller holds the
mutex. -/
def ex_caller_locked : Sys := log_output_lock (log_init ex_port start_sys)

/-- Example: the logger after `log_init()` and `log_output_lock_enabled(false)`. -/
def ex_lock_off : Sys := log_output_lock_enabled false (log_init ex_port start_sys)

/-- Example: the logger `ex_lock_off` after one Warn record "Hello" with tag "main". -/
def ex_lock_off_used : Sys :=
  log_output ex_port LOG_LVL_WARN (str "main") (str "main.c") (str "main") 10 (str "Hello")
    ex_lock_off

/-- A call that takes `s` to `s1` does not wait for the mutex: it leaves the switch
`output_lock_enabled` as it was, and when the mutex is free in `s` the call makes no
`pthread_mutex_lock` on the locked mutex, so that it returns; with the switch on, the mutex
is free again in `s1`. -/
def NoWait (s s1 : Sys) : Prop :=
  s1.g.output_lock_enabled = s.g.output_lock_enabled ∧
    (s.mutex_held = false → s1.blocked_at = s.blocked_at ∧
      (s.g.output_lock_enabled = true → s1.mutex_held = false))


/-- Number of `pthread_mutex_lock` calls in a trace. -/
def lock_count (tr : List Event) : Nat := tr.count Event.lock

/-- Number of `pthread_mutex_unlock` calls in a trace. -/
def unlock_count (tr : List Event) : Nat := tr.count Event.unlock

/-- A call of one of the three lock functions of the output router. -/
inductive LockCall where
  | lock
  | unlock
  | enable (enabled : Bool)
deriving DecidableEq

/-- Perform one call of `log_output_lock`, `log_output_unlock` or
`log_output_lock_enabled`. -/
def run_lock_call (s : Sys) : LockCall → Sys
  | LockCall.lock => log_output_lock s
  | LockCall.unlock => log_output_unlock s
  | LockCall.enable b => log_output_lock_enabled b s

/-- Perform a sequence of lock calls, first call first. -/
def run_lock_calls (s : Sys) (calls : List LockCall) : Sys :=
  calls.foldl run_lock_call s

/-- The lock and unlock calls of the sequence alternate and start with a lock;
`held` tells whether a lock call without its unlock precedes the sequence. -/
def alternates : Bool → List LockCall → Bool
  | _, [] => true
  | held, LockCall.lock :: cs => !held && alternates true cs
  | held, LockCall.unlock :: cs => held && alternates false cs
  | held, LockCall.enable _ :: cs => alternates held cs

/-! ## The table of tag levels -/

/-- No two slots in use hold the same tag, where a tag counts up to its first
`LOG_FILTER_TAG_MAX_LEN` characters, as `strncmp` compares it. -/
def tag_lvl_distinct (g : log_t) : Prop :=
  ∀ i j, i < LOG_FILTER_TAG_LVL_MAX_NUM → j < LOG_FILTER_TAG_LVL_MAX_NUM →
    (g.filter.tag_lvl i).tag_use_flag = true → (g.filter.tag_lvl j).tag_use_flag = true →
    (cstr (g.filter.tag_lvl i).tag).take LOG_FILTER_TAG_MAX_LEN =
      (cstr (g.filter.tag_lvl j).tag).take LOG_FILTER_TAG_MAX_LEN →
    i = j

/-- Number of slots in use. -/
def used_count (g : log_t) : Nat :=
  ((List.range LOG_FILTER_TAG_LVL_MAX_NUM).filter
    (fun i => (g.filter.tag_lvl i).tag_use_flag)).length

/-- Perform a sequence of `log_set_filter_tag_lvl` calls, first call first; each call
comes with what the platform supplies during it, its tag and its level. -/
def run_set_calls (s : Sys) (calls : List (Port × Option (List Nat) × Nat)) : Sys :=
  calls.foldl (fun s c => log_set_filter_tag_lvl c.1 c.2.1 c.2.2 s) s

/-- The two states have the same filter, format sets and switches; they may differ in the
two sticky lock flags, the line buffer and the trace. -/
def SameSettings (s s1 : Sys) : Prop :=
  s1.g.filter = s.g.filter ∧ s1.g.enabled_fmt_set = s.g.enabled_fmt_set ∧
    s1.g.init_ok = s.g.init_ok ∧ s1.g.output_enabled = s.g.output_enabled ∧
    s1.g.output_lock_enabled = s.g.output_lock_enabled ∧
    s1.g.text_color_enabled = s.g.text_color_enabled

/-- The port calls made on the way from the state `s` to the later state `s1`. -/
def issued (s s1 : Sys) : List Event := s1.trace.drop s.trace.length

/-! ## The rotating file sink -/

/-- The file name `LOG_FILE_NAME` of `log.h`. -/
def LOG_FILE_NAME : List Nat := str "/tmp/log_file.log"

/-- The constant `LOG_FILE_MAX_ROTATE` of `log.h`. -/
abbrev LOG_FILE_MAX_ROTATE : Int := 3

/-- The constant `LOG_FILE_MAX_SIZE` of `log.h`. -/
abbrev LOG_FILE_MAX_SIZE : Nat := 10 * 1024

namespace Sink

/-- The size `SUFFIX_LEN` that `log_file_rotate` passes to `snprintf`. -/
abbrev SUFFIX_LEN : Nat := 10

/-- The size of the arrays `oldpath` and `newpath` of `log_file_rotate`. -/
abbrev PATH_SIZE : Nat := 256

/-- A call that the file sink makes on the C library or the kernel and that is visible
from outside: semaphore operations, stream calls and changes of the directory.  The probes
`fopen(path, "r")` with their `fclose` change nothing and are not recorded. -/
inductive FileOp where
  | semop_down
  | semop_up
  | fclose
  | fopen_append (path : List Nat)
  | remove (path : List Nat)
  | rename (oldpath newpath : List Nat) (result : Int)
  | fwrite (bytes : List Nat)
deriving DecidableEq

/-- The file fields of `g_log`, the static `semid`, and the platform around them: the file
system as a map from path names to contents, the paths for which `rename` fails, and the
calls made so far.  `fp` is `none` for a NULL or closed stream and holds the path the stream
was opened with otherwise. -/
structure file_t where
  name : List Nat
  fp : Option (List Nat)
  max_size : Nat
  max_rotate : Int
  semid : Int
  files : List Nat → Option (List Nat)
  rename_fails : List Nat → List Nat → Bool
  ops : List FileOp

/-- The function `log_file_port_lock`. -/
def log_file_port_lock (st : file_t) : file_t :=
  if st.semid = -1 then st else { st with ops := st.ops ++ [FileOp.semop_down] }

/-- The function `log_file_port_unlock`. -/
def log_file_port_unlock (st : file_t) : file_t :=
  if st.semid = -1 then st else { st with ops := st.ops ++ [FileOp.semop_up] }

/-- The call `fclose(g_log.fp)`. -/
def fclose (st : file_t) : file_t :=
  { st with fp := none, ops := st.ops ++ [FileOp.fclose] }

/-- The call `g_log.fp = fopen(path, "a+")`, taken to succeed: a missing file is created
empty, an existing one keeps its content. -/
def fopen_append (path : List Nat) (st : file_t) : file_t :=
  { st with
    fp := some path,
    files := Function.update st.files path (some ((st.files path).getD [])),
    ops := st.ops ++ [FileOp.fopen_append path] }

/-- The call `remove(path)` on an existing file. -/
def remove (path : List Nat) (st : file_t) : file_t :=
  { st with files := Function.update st.files path none,
            ops := st.ops ++ [FileOp.remove path] }

/-- The call `rename(oldpath, newpath)` on an existing file `oldpath`, with its result: `-1`
and no change when the platform lets it fail, `0` otherwise. -/
def rename (oldpath newpath : List Nat) (st : file_t) : Int × file_t :=
  if st.rename_fails oldpath newpath then
    (-1, { st with ops := st.ops ++ [FileOp.rename oldpath newpath (-1)] })
  else
    (0, { st with
          files := Function.update (Function.update st.files oldpath none) newpath
            (st.files oldpath),
          ops := st.ops ++ [FileOp.rename oldpath newpath 0] })

/-- The calls `fwrite(log, size, 1, g_log.fp)` and `fflush(g_log.fp)` on a stream opened
for appending, `bytes` being the `size` bytes at `log`; `none` for a NULL stream. -/
def fwrite (bytes : List Nat) (st : file_t) : Option file_t :=
  match st.fp with
  | none => none
  | some path =>
    some { st with
      files := Function.update st.files path (some ((st.files path).getD [] ++ bytes)),
      ops := st.ops ++ [FileOp.fwrite bytes] }

/-- The text that the format ".%d" produces for `n`. -/
def dot_d (n : Int) : List Nat := 46 :: fmt_ld n

/-- The path in `oldpath` or `newpath` after `memcpy(path, g_log.name, base)` and
`snprintf(path + base, SUFFIX_LEN, ...)`, where `text` is what the format produces; `none`
when the bytes written do not fit the array. -/
def rotate_path (name text : List Nat) : Option (List Nat) :=
  if strlen name + (text.take (SUFFIX_LEN - 1)).length + 1 ≤ PATH_SIZE then
    some (cstr name ++ text.take (SUFFIX_LEN - 1))
  else none

/-- One pass through the body of the loop of `log_file_rotate` for the index `n`, up to
the test of `err`: the new value of `err` and the state; `none` when a path does not fit
its array. -/
def rotate_step (name : List Nat) (n : Nat) (err : Int) (st : file_t) :
    Option (Int × file_t) :=
  match rotate_path name (if n ≠ 0 then dot_d ((n : Int) - 1) else []),
      rotate_path name (dot_d n) with
  | some oldpath, some newpath =>
    let st := if (st.files newpath).isSome then remove newpath st else st
    some (if (st.files oldpath).isSome then rename oldpath newpath st else (err, st))
  | _, _ => none

/-- The loop `for (n = g_log.max_rotate - 1; n >= 0; --n)` of `log_file_rotate`; the first
argument is `n + 1`.  The result is `result` of the function: `false` after the
`goto __exit`. -/
def rotate_loop (name : List Nat) : Nat → Int → file_t → Option (Bool × file_t)
  | 0, _, st => some (true, st)
  | n + 1, err, st =>
    match rotate_step name n err st with
    | none => none
    | some (err, st) => if err < 0 then some (false, st) else rotate_loop name n err st

/-- The function `log_file_rotate`; `none` when a path array overflows or `g_log.fp` is
NULL. -/
def log_file_rotate (st : file_t) : Option (Bool × file_t) :=
  if strlen st.name > PATH_SIZE then none
  else
    match st.fp with
    | none => none
    | some _ =>
      let st := fclose st
      match rotate_loop st.name st.max_rotate.toNat 0 st with
      | none => none
      | some (result, st) => some (result, fopen_append (cstr st.name) st)

/-- The function `log_file_write(log, size)` for a `log` that is not NULL, `log` being the
bytes at that address; `none` when `g_log.fp` is NULL or the rotation has no result. -/
def log_file_write (log : List Nat) (size : Nat) (st : file_t) : Option file_t :=
  let st := log_file_port_lock st
  match st.fp with
  | none => none
  | some path =>
    let file_size := ((st.files path).getD []).length
    if file_size > st.max_size then
      match log_file_rotate st with
      | none => none
      | some (true, st) => (fwrite (log.take size) st).map log_file_port_unlock
      | some (false, st) => some (log_file_port_unlock st)
    else (fwrite (log.take size) st).map log_file_port_unlock

/-- The function `log_file_init` after `log_file_port_init` has set `semid`: the three
fields are set from `log.h` and the file is opened when the name is not empty. -/
def log_file_init (st : file_t) : file_t :=
  let st := { st with name := LOG_FILE_NAME, max_size := LOG_FILE_MAX_SIZE,
                      max_rotate := LOG_FILE_MAX_ROTATE }
  let st := log_file_port_lock st
  let st := if strlen st.name > 0 then fopen_append (cstr st.name) st else st
  log_file_port_unlock st

/-- The name of the rotated file with index `n`: the path that `log_file_rotate` builds
with the format ".%d". -/
def rot_name (name : List Nat) (n : Nat) : List Nat :=
  cstr name ++ (dot_d n).take (SUFFIX_LEN - 1)

/-- The name of the file that the pass for index `n` renames: the rotated file with index
`n - 1`, or the active file for `n = 0`. -/
def rot_source (name : List Nat) (n : Nat) : List Nat :=
  if n ≠ 0 then rot_name name (n - 1) else cstr name

/-- What follows the appending of `w` and a rotation that succeeds, for each `w` of the
list in turn; `none` when a rotation fails or has no result. -/
def rotations : List (List Nat) → file_t → Option file_t
  | [], st => some st
  | w :: ws, st =>
    match fwrite w st with
    | none => none
    | some st =>
      match log_file_rotate st with
      | some (true, st) => rotations ws st
      | _ => none

/-- The calls made on the way from `st` to the later state `st1`. -/
def ops_since (st st1 : file_t) : List FileOp := st1.ops.drop st.ops.length

/-- A file system that holds the file `LOG_FILE_NAME` with content "old\n" and nothing else,
after `log_file_init`; the semaphore is 7 and no `rename` fails. -/
def ex_file : file_t :=
  log_file_init
    { name := [], fp := none, max_size := 0, max_rotate := 0, semid := 7,
      files := fun path => if path = LOG_FILE_NAME then some (str "old\n") else none,
      rename_fails := fun _ _ => false,
      ops := [] }

/-- The state `ex_file` with `max_size` 3 and with the rotated files 0 and 1 in place, on a
platform where every `rename` to the name with index 1 fails. -/
def ex_file_fail : file_t :=
  { ex_file with
    max_size := 3,
    files := fun path =>
      if path = LOG_FILE_NAME then some (str "active\n")
      else if path = rot_name LOG_FILE_NAME 0 then some (str "zero\n")
      else if path = rot_name LOG_FILE_NAME 1 then some (str "one\n")
      else none,
    rename_fails := fun _ newpath => decide (newpath = rot_name LOG_FILE_NAME 1) }

end Sink

/-! ## Deinitialisation and the accessors of a formatted line -/

/-- The function `log_deinit` on `g_log`.  `log_port_deinit()` destroys the mutex, which
the next `log_port_init()` creates anew, and `log_file_deinit()` only touches the file sink,
which has its own state. -/
def log_deinit (s : Sys) : Sys :=
  if !s.g.init_ok then s
  else { s with g := { s.g with init_ok := false } }

/-- The function `log_get_text_color_enabled`. -/
def log_get_text_color_enabled (s : Sys) : Bool := s.g.text_color_enabled

/-- The C function `memchr(l, c, n)`: the offset of the first byte `c` among the first `n`
bytes at `l`; a `0` byte does not stop the search. -/
def memchr : List Nat → Nat → Nat → Option Nat
  | _, _, 0 => none
  | [], _, _ + 1 => none
  | x :: l, c, n + 1 => if x = c then some 0 else (memchr l c n).map (fun i => i + 1)

/-- The loop of `log_find_lvl`, from index `i` on, `k` being the number of indices left: the
first index whose color text stands at `log`, or `-1`. -/
def find_lvl_loop (log : List Nat) : Nat → Nat → Int
  | 0, _ => -1
  | k + 1, i =>
    if strncmp (color_output_info i) log (strlen (color_output_info i)) = 0 then (i : Int)
    else find_lvl_loop log k (i + 1)

/-- The function `log_find_lvl(log)` for a `log` that is not NULL, as compiled with
`LOG_COLOR_ENABLE`; `log` holds the bytes from the pointer on.  Each `LOG_CHECK` that fires
reports through `log_a` and makes the result `-1`. -/
def log_find_lvl (p : Port) (log : List Nat) (s : Sys) : Int × Sys :=
  if s.g.enabled_fmt_set LOG_LVL_ASSERT &&& LOG_FMT_LVL = 0 then
    (-1, log_a p (str "log_find_lvl") 904
      (str "check [(g_log.enabled_fmt_set[LOG_LVL_ASSERT] & LOG_FMT_LVL) == 0]\n") s)
  else if s.g.enabled_fmt_set LOG_LVL_ERROR &&& LOG_FMT_LVL = 0 then
    (-1, log_a p (str "log_find_lvl") 905
      (str "check [(g_log.enabled_fmt_set[LOG_LVL_ERROR] & LOG_FMT_LVL) == 0]\n") s)
  else if s.g.enabled_fmt_set LOG_LVL_WARN &&& LOG_FMT_LVL = 0 then
    (-1, log_a p (str "log_find_lvl") 906
      (str "check [(g_log.enabled_fmt_set[LOG_LVL_WARN] & LOG_FMT_LVL) == 0]\n") s)
  else if s.g.enabled_fmt_set LOG_LVL_INFO &&& LOG_FMT_LVL = 0 then
    (-1, log_a p (str "log_find_lvl") 907
      (str "check [(g_log.enabled_fmt_set[LOG_LVL_INFO] & LOG_FMT_LVL) == 0]\n") s)
  else if s.g.enabled_fmt_set LOG_LVL_DEBUG &&& LOG_FMT_LVL = 0 then
    (-1, log_a p (str "log_find_lvl") 908
      (str "check [(g_log.enabled_fmt_set[LOG_LVL_DEBUG] & LOG_FMT_LVL) == 0]\n") s)
  else if s.g.enabled_fmt_set LOG_LVL_VERBOSE &&& LOG_FMT_LVL = 0 then
    (-1, log_a p (str "log_find_lvl") 909
      (str "check [(g_log.enabled_fmt_set[LOG_LVL_VERBOSE] & LOG_FMT_LVL) == 0]\n") s)
  else
    let csi_start_len := strlen CSI_START
    (find_lvl_loop (log.drop csi_start_len) LOG_LVL_MAX 0, s)

/-- The function `log_find_tag(log, lvl, tag_len)` for a `log` and a `tag_len` that are not
NULL, as compiled with `LOG_COLOR_ENABLE`; `log` holds the bytes from the pointer on.  The
result is `none` for NULL and otherwise the offset of the returned pointer from `log`
together with the value stored in `*tag_len`. -/
def log_find_tag (p : Port) (log : List Nat) (lvl : Nat) (s : Sys) :
    Option (Nat × Nat) × Sys :=
  if lvl ≥ LOG_LVL_MAX then
    (none, log_a p (str "log_find_tag") 958 (str "check [lvl >= LOG_LVL_MAX]\n") s)
  else if s.g.enabled_fmt_set lvl &&& LOG_FMT_TAG = 0 then
    (none, log_a p (str "log_find_tag") 960
      (str "check [(g_log.enabled_fmt_set[lvl] & LOG_FMT_TAG) == 0]\n") s)
  else
    let tag := strlen CSI_START + strlen (color_output_info lvl) +
      strlen (level_output_info lvl)
    match memchr (log.drop tag) 32 LOG_FILTER_TAG_MAX_LEN with
    | some tag_end => (some (tag, tag_end), s)
    | none => (none, s)

/-- The loop `for (i = 0; i < 10; i++)` of `lock_open`.  `polls i` is what the call number
`i` of `semctl(id, 0, IPC_STAT, arg)` yields: its result `rc` and, when it succeeds, the
`sem_otime` it stores in `ds`.  The first argument is the number of passes left, `i` the
loop counter and `ds` the value of `ds.sem_otime`.  The result is `none` after `goto err`
and the value of `ds.sem_otime` otherwise, together with the number of `semctl` calls
made; `usleep` has no effect on the state. -/
def lock_open_loop (polls : Nat → Int × Nat) : Nat → Nat → Nat → Option Nat × Nat
  | 0, i, ds => (some ds, i)
  | k + 1, i, _ =>
    let rc := (polls i).1
    if rc = -1 then (none, i + 1)
    else
      let ds := (polls i).2
      if ds ≠ 0 then (some ds, i + 1)
      else lock_open_loop polls k (i + 1) ds

/-- The function `lock_open`: `id` is what `semget` returns, `polls` what the `semctl`
calls yield and `ds0` the value that the uninitialised `ds.sem_otime` happens to hold.  The
result comes with the number of `semctl` calls made. -/
def lock_open (id : Int) (polls : Nat → Int × Nat) (ds0 : Nat) : Int × Nat :=
  if id = -1 then (-1, 0)
  else
    match lock_open_loop polls 10 0 ds0 with
    | (none, n) => (-1, n)
    | (some ds, n) => (if ds = 0 then -1 else id, n)

/-! ## Threads that call `log_output` -/

namespace Threads

/-- The arguments of one `log_output` call, together with what the platform supplies to
the thread that makes it. -/
structure Call where
  p : Port
  level : Nat
  tag : List Nat
  file : List Nat
  func : List Nat
  line : Int
  msg : List Nat

/-- The record that the body of `log_output` works on: for a level above
`LOG_LVL_VERBOSE` the `LOG_CHECK` of line 691 calls `log_a`, which is `log_output` for the
Assert report, and returns. -/
def eff (c : Call) : Call :=
  if c.level > LOG_LVL_VERBOSE then
    { p := c.p, level := LOG_LVL_ASSERT, tag := str "log", file := c.p.src_file,
      func := str "log_output", line := 691, msg := str "check [level > LOG_LVL_VERBOSE]\n" }
  else c

/-- The places of a thread inside `log_output`, in program order: before the first
checks; inside `log_get_filter_tag_lvl` before `log_port_output_lock()`, before the scan of
the table, before `log_port_output_unlock()` and before the store to the sticky flag; before
the comparison with the tag level; inside `log_output_lock()` before `log_port_output_lock()`
and before the store to the sticky flag; before the header is written; before `vsnprintf`;
before the keyword filter; before the trailing signs; before `log_port_output`; before
`log_file_write`; inside `log_output_unlock()` before `log_port_output_unlock()` and before
the store to the sticky flag; after the return. -/
inductive Pc where
  | start
  | get_lock
  | get_scan
  | get_unlock
  | get_flag
  | filter2
  | out_lock
  | out_flag
  | fmt_header
  | fmt_msg
  | kw
  | tail
  | emit_console
  | emit_file
  | unlock
  | unflag
  | done
deriving DecidableEq

/-- The state shared by the threads (`g_log`, `log_buf`, the port calls made, and the thread
that holds the mutex `output_lock`, if any) and, for every thread, its place and its locals
`log_len` and `level` (the result of `log_get_filter_tag_lvl`). -/
structure World where
  sys : Sys
  owner : Option Nat
  pc : Nat → Pc
  log_len : Nat → Nat
  level : Nat → Int

/-- Thread `t` moves on to the place `pc`. -/
def goto (w : World) (t : Nat) (pc : Pc) : World :=
  { w with pc := Function.update w.pc t pc }

/-- One step of thread `t`, from its place to the next one; `none` when the thread has
returned or waits in `pthread_mutex_lock` for a mutex that is held.  Every step is one of
the statements of `log_output`, `log_get_filter_tag_lvl`, `log_output_lock` and
`log_output_unlock`, taken in the order of the source. -/
def step (calls : Nat → Call) (t : Nat) (w : World) : Option World :=
  let c := eff (calls t)
  let g := w.sys.g
  match w.pc t with
  | Pc.start =>
    if !g.init_ok then some (goto w t Pc.done)
    else if !g.output_enabled then some (goto w t Pc.done)
    else if c.level > g.filter.level then some (goto w t Pc.done)
    else some (goto w t Pc.get_lock)
  | Pc.get_lock =>
    if !g.init_ok then
      some (goto { w with level := Function.update w.level t LOG_FILTER_LVL_ALL } t Pc.filter2)
    else
      match w.owner with
      | some _ => none
      | none =>
        some (goto { w with sys := log_port_output_lock w.sys, owner := some t } t Pc.get_scan)
  | Pc.get_scan =>
    let level : Int :=
      match find_tag_lvl g c.tag with
      | some i => (g.filter.tag_lvl i).level
      | none => LOG_FILTER_LVL_ALL
    some (goto { w with level := Function.update w.level t level } t Pc.get_unlock)
  | Pc.get_unlock =>
    if g.output_lock_enabled then
      some (goto { w with sys := log_port_output_unlock w.sys, owner := none } t Pc.get_flag)
    else
      some (goto { w with sys := { w.sys with g :=
        { g with output_is_locked_before_enable := false } } } t Pc.filter2)
  | Pc.get_flag =>
    some (goto { w with sys := { w.sys with g :=
      { g with output_is_locked_before_disable := false } } } t Pc.filter2)
  | Pc.filter2 =>
    if (c.level : Int) > w.level t then some (goto w t Pc.done)
    else if (strstr c.tag g.filter.tag).isNone then some (goto w t Pc.done)
    else some (goto w t Pc.out_lock)
  | Pc.out_lock =>
    if g.output_lock_enabled then
      match w.owner with
      | some _ => none
      | none =>
        some (goto { w with sys := log_port_output_lock w.sys, owner := some t } t Pc.out_flag)
    else
      some (goto { w with sys := { w.sys with g :=
        { g with output_is_locked_before_enable := true } } } t Pc.fmt_header)
  | Pc.out_flag =>
    some (goto { w with sys := { w.sys with g :=
      { g with output_is_locked_before_disable := true } } } t Pc.fmt_header)
  | Pc.fmt_header =>
    let st := fmt_header g c.p c.level c.tag c.file c.func c.line w.sys.log_buf
    some (goto { w with sys := { w.sys with log_buf := st.1 },
                        log_len := Function.update w.log_len t st.2 } t Pc.fmt_msg)
  | Pc.fmt_msg =>
    let st := fmt_message (w.sys.log_buf, w.log_len t) c.msg
    some (goto { w with sys := { w.sys with log_buf := st.1 },
                        log_len := Function.update w.log_len t st.2 } t Pc.kw)
  | Pc.kw =>
    if g.filter.keyword.headD 0 ≠ 0 then
      let buf := Function.update w.sys.log_buf (w.log_len t) 0
      if (strstr (mem_read buf LOG_LINE_BUF_SIZE) g.filter.keyword).isNone then
        some (goto { w with sys := { w.sys with log_buf := buf } } t Pc.unlock)
      else some (goto { w with sys := { w.sys with log_buf := buf } } t Pc.tail)
    else some (goto w t Pc.tail)
  | Pc.tail =>
    let st : Line := (w.sys.log_buf, w.log_len t)
    let st := if g.text_color_enabled then log_append st CSI_END else st
    let st := log_append st LOG_NEWLINE_SIGN
    some (goto { w with sys := { w.sys with log_buf := st.1 },
                        log_len := Function.update w.log_len t st.2 } t Pc.emit_console)
  | Pc.emit_console =>
    some (goto { w with sys := log_port_output (w.log_len t) w.sys } t Pc.emit_file)
  | Pc.emit_file =>
    some (goto { w with sys := log_file_write (w.log_len t) w.sys } t Pc.unlock)
  | Pc.unlock =>
    if g.output_lock_enabled then
      some (goto { w with sys := log_port_output_unlock w.sys, owner := none } t Pc.unflag)
    else
      some (goto { w with sys := { w.sys with g :=
        { g with output_is_locked_before_enable := false } } } t Pc.done)
  | Pc.unflag =>
    some (goto { w with sys := { w.sys with g :=
      { g with output_is_locked_before_disable := false } } } t Pc.done)
  | Pc.done => none

/-- The threads take steps in the order of the schedule; a thread that cannot take a step
when its turn comes is passed over. -/
def run (calls : Nat → Call) (w : World) (schedule : List Nat) : World :=
  schedule.foldl (fun w t => (step calls t w).getD w) w

/-- Thread `t`, running alone, gets from `w` to `w1` in at most `n` steps. -/
def reaches (calls : Nat → Call) (t n : Nat) (w w1 : World) : Prop :=
  ∃ k, k ≤ n ∧ run calls w (List.replicate k t) = w1

/-- The places at which a thread holds the mutex, when locking is enabled: between a
`log_port_output_lock()` and the next `log_port_output_unlock()`. -/
def holds_mutex : Pc → Bool
  | Pc.get_scan => true
  | Pc.get_unlock => true
  | Pc.out_flag => true
  | Pc.fmt_header => true
  | Pc.fmt_msg => true
  | Pc.kw => true
  | Pc.tail => true
  | Pc.emit_console => true
  | Pc.emit_file => true
  | Pc.unlock => true
  | _ => false

/-- The places from the first store to the line buffer to the last call of a sink. -/
def in_section : Pc → Bool
  | Pc.fmt_header => true
  | Pc.fmt_msg => true
  | Pc.kw => true
  | Pc.tail => true
  | Pc.emit_console => true
  | Pc.emit_file => true
  | _ => false

/-- The whole line of a record: header and message, cut at 1019 bytes, then the color reset
when text color is enabled, then the newline. -/
def line_text (g : log_t) (c : Call) : List Nat :=
  (header_text g c.p c.level c.tag c.file c.func c.line ++ c.msg).take 1019 ++
    (if g.text_color_enabled then CSI_END else []) ++ LOG_NEWLINE_SIGN

/-- What the line buffer holds for a thread at the place `pc` with the local `log_len`
equal to `len`: the header after the header is written, header and message (cut) after
`vsnprintf` and the overflow check, the whole line before the sinks are called. -/
def buf_ok (g : log_t) (c : Call) (pc : Pc) (buf : Mem) (len : Nat) : Prop :=
  match pc with
  | Pc.fmt_msg =>
    mem_read buf len =
      (header_text g c.p c.level c.tag c.file c.func c.line).take LOG_LINE_BUF_SIZE
  | Pc.kw =>
    mem_read buf len =
        (header_text g c.p c.level c.tag c.file c.func c.line ++ c.msg).take 1019 ∧
      len ≤ 1019
  | Pc.tail =>
    mem_read buf len =
        (header_text g c.p c.level c.tag c.file c.func c.line ++ c.msg).take 1019 ∧
      len ≤ 1019
  | Pc.emit_console => mem_read buf len = line_text g c
  | Pc.emit_file => mem_read buf len = line_text g c
  | _ => True

/-- The invariant of the threads that run `log_output` from the world `w0` with locking
enabled: locking stays enabled and the format sets and the color switch stay as they were;
a thread at a place between lock and unlock is the owner of the mutex; the line buffer
holds what the place of its owner says; every line handed to a sink so far, if it was not
handed over before `w0`, is the whole line of the record of one thread. -/
structure Inv (calls : Nat → Call) (w0 w : World) : Prop where
  lock_on : w.sys.g.output_lock_enabled = true
  fmt : w.sys.g.enabled_fmt_set = w0.sys.g.enabled_fmt_set
  color : w.sys.g.text_color_enabled = w0.sys.g.text_color_enabled
  owner : ∀ t, holds_mutex (w.pc t) = true → w.owner = some t
  buf : ∀ t, buf_ok w0.sys.g (eff (calls t)) (w.pc t) w.sys.log_buf (w.log_len t)
  out : ∀ l, Event.output l ∈ w.sys.trace →
    Event.output l ∈ w0.sys.trace ∨ ∃ t, l = line_text w0.sys.g (eff (calls t))
  file : ∀ l, Event.file_write l ∈ w.sys.trace →
    Event.file_write l ∈ w0.sys.trace ∨ ∃ t, l = line_text w0.sys.g (eff (calls t))

/-- The start of the threads: the logger as `log_init` leaves it, the mutex free, every
thread before its `log_output` call. -/
def ex_world : World :=
  { sys := log_init ex_port start_sys, owner := none, pc := fun _ => Pc.start,
    log_len := fun _ => 0, level := fun _ => 0 }

/-- Thread 0 logs the Warn record "Hello" and every other thread the Error record "World",
both with tag "main". -/
def ex_calls (t : Nat) : Call :=
  if t = 0 then
    { p := ex_port, level := LOG_LVL_WARN, tag := str "main", file := str "main.c",
      func := str "main", line := 10, msg := str "Hello" }
  else
    { p := ex_port, level := LOG_LVL_ERROR, tag := str "main", file := str "main.c",
      func := str "test_log", line := 20, msg := str "World" }

/-- Example schedule: the threads 0 and 1 take turns, nine steps each. -/
def ex_schedule : List Nat := [0, 1, 0, 1, 0, 1, 0, 1, 0, 1, 0, 1, 0, 1, 0, 1, 0, 1]

end Threads

/-! # Theorems -/

theorem mem_write_apply (l : List Nat) (mem : Mem) (dst j : Nat) :
    mem_write mem dst l j = if dst ≤ j ∧ j < dst + l.length then l.getD (j - dst) 0 else mem j := by
  induction l generalizing mem dst with
  | nil =>
    have h2 : ¬ (dst ≤ j ∧ j < dst + ([] : List Nat).length) := by simp
    rw [if_neg h2, mem_write]
  | cons c l ih =>
    rw [mem_write, ih]
    by_cases h1 : dst + 1 ≤ j ∧ j < dst + 1 + l.length
    · have h2 : dst ≤ j ∧ j < dst + (c :: l).length := by simp; omega
      rw [if_pos h1, if_pos h2]
      have : j - dst = (j - (dst + 1)) + 1 := by omega
      rw [this]; simp
    · rw [if_neg h1]
      by_cases h3 : j = dst
      · subst h3; simp
      · have h2 : ¬ (dst ≤ j ∧ j < dst + (c :: l).length) := by simp at h1 ⊢; omega
        rw [if_neg h2, Function.update_noteq h3]

theorem mem_write_outside (l : List Nat) (mem : Mem) (dst j : Nat)
    (h : j < dst ∨ dst + l.length ≤ j) : mem_write mem dst l j = mem j := by
  rw [mem_write_apply, if_neg]; omega

theorem mem_read_length (mem : Mem) (n : Nat) : (mem_read mem n).length = n := by
  simp [mem_read]

theorem mem_read_succ (mem : Mem) (n : Nat) : mem_read mem (n + 1) = mem_read mem n ++ [mem n] := by
  simp [mem_read, List.range_succ]

theorem mem_read_congr (m1 m2 : Mem) (n : Nat) (h : ∀ j, j < n → m1 j = m2 j) :
    mem_read m1 n = mem_read m2 n := by
  unfold mem_read
  apply List.map_congr_left
  intro j hj
  exact h j (List.mem_range.mp hj)

theorem mem_read_take (mem : Mem) (n k : Nat) (h : k ≤ n) :
    (mem_read mem n).take k = mem_read mem k := by
  unfold mem_read
  rw [← List.map_take, List.take_range, Nat.min_eq_left h]

theorem mem_read_mem_write (l : List Nat) (mem : Mem) (n : Nat) :
    mem_read (mem_write mem n l) (n + l.length) = mem_read mem n ++ l := by
  induction l generalizing mem n with
  | nil => simp [mem_write]
  | cons c l ih =>
    have e : n + (c :: l).length = (n + 1) + l.length := by simp; omega
    rw [mem_write, e, ih, mem_read_succ, Function.update_same, List.append_assoc]
    congr 1
    apply mem_read_congr
    intro j hj
    exact Function.update_noteq (by omega) _ _

theorem cstr_nil : cstr [] = [] := rfl

theorem cstr_cons_zero (l : List Nat) : cstr (0 :: l) = [] := by
  simp [cstr]

theorem cstr_cons_ne (c : Nat) (l : List Nat) (h : c ≠ 0) : cstr (c :: l) = c :: cstr l := by
  simp [cstr, h]

theorem log_strcpy_loop_eq (src : List Nat) (cur_len : Nat) (mem : Mem) (dst : Nat) :
    log_strcpy_loop cur_len mem dst src =
      (mem_write mem dst ((cstr src).take (LOG_LINE_BUF_SIZE - cur_len)),
        ((cstr src).take (LOG_LINE_BUF_SIZE - cur_len)).length) := by
  induction src generalizing cur_len mem dst with
  | nil => simp [log_strcpy_loop, cstr_nil, mem_write]
  | cons c src ih =>
    rw [log_strcpy_loop]
    by_cases hc : c = 0
    · subst hc; simp [cstr_cons_zero, mem_write]
    · rw [if_neg hc, cstr_cons_ne c src hc]
      by_cases hl : cur_len < LOG_LINE_BUF_SIZE
      · rw [if_pos hl, ih]
        have e : LOG_LINE_BUF_SIZE - cur_len = (LOG_LINE_BUF_SIZE - (cur_len + 1)) + 1 := by omega
        rw [e, List.take_succ_cons, mem_write]
        simp
      · rw [if_neg hl]
        have e : LOG_LINE_BUF_SIZE - cur_len = 0 := by omega
        rw [e]; simp [mem_write]

theorem Holds.len {m0 : Mem} {st : Line} {L : List Nat} (h : Holds m0 st L) :
    st.2 = min LOG_LINE_BUF_SIZE L.length := by
  have := congrArg List.length h.1
  rw [mem_read_length, List.length_take] at this
  exact this

theorem holds_append {m0 : Mem} {st : Line} {L : List Nat} (src t : List Nat)
    (h : Holds m0 st L) (ht : cstr src = t) : Holds m0 (log_append st src) (L ++ t) := by
  subst ht
  have hlen := h.len
  unfold log_append log_strcpy
  simp only [log_strcpy_loop_eq]
  constructor
  · show mem_read (mem_write st.1 st.2 _) (st.2 + _) = _
    rw [mem_read_mem_write, h.1, List.take_append_eq_append_take]
    congr 2
    rw [hlen]; omega
  · intro j hj
    show mem_write st.1 st.2 _ j = _
    rw [mem_write_outside, h.2 j hj]
    right
    rw [List.length_take]
    have : st.2 ≤ LOG_LINE_BUF_SIZE := by rw [hlen]; exact Nat.min_le_left _ _
    omega

theorem cstr_str_eq (a : List Nat) (h : ∀ c ∈ a, c ≠ 0) : cstr a = a := by
  unfold cstr
  rw [List.takeWhile_eq_self_iff]
  intro c hc
  simpa using h c hc

theorem cstr_no_zero (a : List Nat) : ∀ c ∈ cstr a, c ≠ 0 := by
  intro c hc
  have := List.mem_takeWhile_imp hc
  simpa using this

theorem cstr_replicate_zero (k m c : Nat) (hc : c ≠ 0) :
    cstr (List.replicate k c ++ List.replicate m 0) = List.replicate k c := by
  induction k with
  | zero => cases m <;> simp [cstr, List.replicate_succ]
  | succ k ih => rw [List.replicate_succ, List.cons_append, cstr_cons_ne _ _ hc, ih]

theorem cstr_tag_sapce (n : Nat) :
    cstr (memset (List.replicate (8 + 1) 0) 32 (8 - n)) = List.replicate (8 - n) 32 := by
  unfold memset
  rw [List.drop_replicate]
  exact cstr_replicate_zero _ _ 32 (by decide)

theorem holds_nil (m0 : Mem) : Holds m0 (m0, 0) [] := by
  constructor
  · rfl
  · intro j _; rfl

theorem cstr_color_output_info (level : Nat) :
    cstr (color_output_info level) = color_output_info level := by
  unfold color_output_info
  split <;> rfl

theorem cstr_level_output_info (level : Nat) :
    cstr (level_output_info level) = level_output_info level := by
  unfold level_output_info
  split <;> rfl

theorem holds_fmt_color {m0 : Mem} {st : Line} {L : List Nat} (g : log_t) (level : Nat)
    (h : Holds m0 st L) : Holds m0 (fmt_color g level st) (L ++ color_text g level) := by
  unfold fmt_color color_text
  split_ifs <;> (try simp only [← List.append_assoc, List.append_nil]) <;>
    repeat (first | exact h | apply holds_append _ _ _ (cstr_color_output_info level) |
      apply holds_append _ _ _ rfl)

theorem holds_fmt_level {m0 : Mem} {st : Line} {L : List Nat} (g : log_t) (level : Nat)
    (h : Holds m0 st L) : Holds m0 (fmt_level g level st) (L ++ level_text g level) := by
  unfold fmt_level level_text
  split_ifs <;> (try simp only [← List.append_assoc, List.append_nil]) <;>
    repeat (first | exact h | apply holds_append _ _ _ (cstr_level_output_info level))

theorem holds_fmt_tag {m0 : Mem} {st : Line} {L : List Nat} (g : log_t) (level : Nat)
    (tag : List Nat) (h : Holds m0 st L) :
    Holds m0 (fmt_tag g level tag st) (L ++ tag_field g level tag) := by
  unfold fmt_tag tag_field tag_text
  simp only [show LOG_FILTER_TAG_MAX_LEN / 2 = 8 from rfl]
  split_ifs <;> (try simp only [← List.append_assoc, List.append_nil]) <;>
    repeat (first | exact h | apply holds_append _ _ _ (cstr_tag_sapce _) |
      apply holds_append _ _ _ rfl)

theorem holds_fmt_time_info {m0 : Mem} {st : Line} {L : List Nat} (g : log_t) (p : Port)
    (level : Nat) (h : Holds m0 st L) :
    Holds m0 (fmt_time_info g p level st) (L ++ time_info_text g p level) := by
  unfold fmt_time_info time_info_text
  split_ifs <;> (try simp only [← List.append_assoc, List.append_nil]) <;>
    repeat (first | exact h | apply holds_append _ _ _ rfl)

theorem holds_fmt_src_info {m0 : Mem} {st : Line} {L : List Nat} (g : log_t) (level : Nat)
    (file func : List Nat) (line : Int) (h : Holds m0 st L) :
    Holds m0 (fmt_src_info g level file func line st)
      (L ++ src_info_text g level file func line) := by
  unfold fmt_src_info src_info_text line_num_text
  simp only []
  split_ifs <;> (try simp only [← List.append_assoc, List.append_nil]) <;>
    repeat (first | exact h | apply holds_append _ _ _ rfl)

theorem holds_fmt_header (g : log_t) (p : Port) (level : Nat) (tag file func : List Nat)
    (line : Int) (buf : Mem) :
    Holds buf (fmt_header g p level tag file func line buf)
      (header_text g p level tag file func line) := by
  unfold fmt_header header_text
  have h0 := holds_nil buf
  have h1 := holds_fmt_color g level h0
  have h2 := holds_fmt_level g level h1
  have h3 := holds_fmt_tag g level tag h2
  have h4 := holds_fmt_time_info g p level h3
  have h5 := holds_fmt_src_info g level file func line h4
  simpa using h5

theorem mem_read_update_ge (mem : Mem) (i v k : Nat) (h : k ≤ i) :
    mem_read (Function.update mem i v) k = mem_read mem k := by
  apply mem_read_congr
  intro j hj
  exact Function.update_noteq (by omega) _ _

theorem fmt_message_spec {m0 : Mem} {st : Line} {H : List Nat} (h : Holds m0 st H)
    (msg : List Nat) :
    mem_read (fmt_message st msg).1 (fmt_message st msg).2 = (H ++ msg).take 1019 ∧
      (fmt_message st msg).2 = min 1019 (H ++ msg).length ∧
      ∀ j, LOG_LINE_BUF_SIZE ≤ j → (fmt_message st msg).1 j = m0 j := by
  have hlen := h.len
  obtain ⟨hrd, hfr⟩ := h
  have hnl : strlen LOG_NEWLINE_SIGN = 1 := rfl
  have hce : CSI_END.length = 4 := rfl
  have hB : LOG_LINE_BUF_SIZE = 1024 := rfl
  unfold fmt_message vsnprintf
  simp only [hnl, hce, hB] at hlen hrd hfr ⊢
  by_cases hz : 1024 - st.2 = 0
  · -- the header fills the buffer
    rw [if_pos hz]
    have h1 : st.2 = 1024 := by omega
    have hH : 1024 ≤ H.length := by omega
    have e : (if (if st.2 + msg.length ≤ 1024 then st.2 + msg.length
        else 1024) + 4 + 1 > 1024
        then 1024 - 4 - 1
        else (if st.2 + msg.length ≤ 1024 then st.2 + msg.length
          else 1024)) = 1019 := by
      split_ifs <;> omega
    simp only [e]
    refine ⟨?_, ?_, hfr⟩
    · rw [← mem_read_take st.1 st.2 1019 (by omega), hrd, List.take_take,
        List.take_append_of_le_length (by omega)]
      congr 1
    · rw [List.length_append]; omega
  · rw [if_neg hz]
    have h1 : st.2 = H.length := by omega
    have h2 : H.length < 1024 := by omega
    have hH : H.take 1024 = H := List.take_of_length_le (by omega)
    simp only []
    have e : (if (if st.2 + msg.length ≤ 1024 then st.2 + msg.length
        else 1024) + 4 + 1 > 1024
        then 1024 - 4 - 1
        else (if st.2 + msg.length ≤ 1024 then st.2 + msg.length
          else 1024)) = min 1019 (H ++ msg).length := by
      rw [List.length_append]
      split_ifs <;> omega
    simp only [e]
    have hout : (msg.take (1024 - st.2 - 1)).length =
        min (1023 - H.length) msg.length := by
      rw [List.length_take, h1]; omega
    refine ⟨?_, trivial, ?_⟩
    · rw [mem_read_update_ge _ _ _ _ (by rw [hout, List.length_append]; omega),
        ← mem_read_take _ (st.2 + (msg.take (1024 - st.2 - 1)).length) _
          (by rw [hout, List.length_append]; omega),
        mem_read_mem_write, hrd, hH, h1, ← List.take_append, List.take_take,
        List.take_eq_take]
      rw [List.length_append]; omega
    · intro j hj
      rw [Function.update_noteq (by rw [hout]; omega), mem_write_outside _ _ _ _
        (by right; rw [hout]; omega)]
      exact hfr j hj

theorem console_lines_append (a b : List Event) :
    console_lines (a ++ b) = console_lines a ++ console_lines b := by
  induction a with
  | nil => rfl
  | cons e a ih => cases e <;> simp [console_lines, ih]

theorem file_lines_append (a b : List Event) :
    file_lines (a ++ b) = file_lines a ++ file_lines b := by
  induction a with
  | nil => rfl
  | cons e a ih => cases e <;> simp [file_lines, ih]

theorem quiet_refl (s : Sys) : Quiet s s := ⟨rfl, rfl, rfl, rfl, rfl, rfl, rfl, rfl⟩

theorem quiet_trans {a b c : Sys} (h1 : Quiet a b) (h2 : Quiet b c) : Quiet a c := by
  obtain ⟨a1, a2, a3, a4, a5, a6, a7, a8⟩ := h1
  obtain ⟨b1, b2, b3, b4, b5, b6, b7, b8⟩ := h2
  exact ⟨b1.trans a1, b2.trans a2, b3.trans a3, b4.trans a4, b5.trans a5, b6.trans a6,
    b7.trans a7, b8.trans a8⟩

theorem quiet_port_lock (s : Sys) : Quiet s (log_port_output_lock s) := by
  unfold log_port_output_lock
  refine ⟨rfl, rfl, rfl, rfl, rfl, rfl, ?_, ?_⟩
  · simp [console_lines_append, console_lines]
  · simp [file_lines_append, file_lines]

theorem quiet_port_unlock (s : Sys) : Quiet s (log_port_output_unlock s) := by
  unfold log_port_output_unlock
  refine ⟨rfl, rfl, rfl, rfl, rfl, rfl, ?_, ?_⟩
  · simp [console_lines_append, console_lines]
  · simp [file_lines_append, file_lines]

theorem quiet_lock (s : Sys) : Quiet s (log_output_lock s) := by
  unfold log_output_lock
  split
  · exact (quiet_port_lock s)
  · exact quiet_refl s

theorem quiet_unlock (s : Sys) : Quiet s (log_output_unlock s) := by
  unfold log_output_unlock
  split
  · exact (quiet_port_unlock s)
  · exact quiet_refl s

theorem quiet_get_filter_tag_lvl (tag : List Nat) (s : Sys) :
    Quiet s (log_get_filter_tag_lvl tag s).2 := by
  unfold log_get_filter_tag_lvl
  split
  · exact quiet_refl s
  · exact quiet_trans (quiet_port_lock s) (quiet_unlock _)

theorem cstr_append_zero (a b : List Nat) : cstr (a ++ 0 :: b) = cstr a := by
  induction a with
  | nil => simp [cstr]
  | cons c a ih =>
    by_cases hc : c = 0
    · subst hc; simp [cstr]
    · rw [List.cons_append, cstr_cons_ne _ _ hc, cstr_cons_ne _ _ hc, ih]

theorem mem_read_split (m : Mem) (n k : Nat) (h : k < n) :
    mem_read m n = mem_read m k ++ m k :: (mem_read m n).drop (k + 1) := by
  conv_lhs => rw [← List.take_append_drop (k + 1) (mem_read m n)]
  rw [mem_read_take _ _ _ (by omega), mem_read_succ, List.append_assoc]
  rfl

theorem strstr_terminated (mem : Mem) (n : Nat) (kw : List Nat) (h : n < LOG_LINE_BUF_SIZE) :
    strstr (mem_read (Function.update mem n 0) LOG_LINE_BUF_SIZE) kw =
      strstr (mem_read mem n) kw := by
  unfold strstr
  rw [mem_read_split _ _ n h, Function.update_same, cstr_append_zero,
    mem_read_update_ge _ _ _ _ (le_refl n)]

theorem holds_of_read (st : Line) (h : st.2 ≤ LOG_LINE_BUF_SIZE) :
    Holds st.1 st (mem_read st.1 st.2) := by
  constructor
  · rw [List.take_of_length_le]; rw [mem_read_length]; exact h
  · intro j _; rfl

theorem Holds.read {m0 : Mem} {st : Line} {L : List Nat} (h : Holds m0 st L)
    (hL : L.length ≤ LOG_LINE_BUF_SIZE) : mem_read st.1 st.2 = L := by
  rw [h.1, List.take_of_length_le hL]

/-- What the end of `log_output` appends behind the rendered text. -/
theorem finish_tail (color : Bool) (st : Line) (h : st.2 ≤ 1019) :
    mem_read (log_append (if color then log_append st CSI_END else st) LOG_NEWLINE_SIGN).1
        (log_append (if color then log_append st CSI_END else st) LOG_NEWLINE_SIGN).2 =
      mem_read st.1 st.2 ++ (if color then CSI_END else []) ++ LOG_NEWLINE_SIGN ∧
    ∀ j, LOG_LINE_BUF_SIZE ≤ j →
      (log_append (if color then log_append st CSI_END else st) LOG_NEWLINE_SIGN).1 j = st.1 j := by
  have hB : LOG_LINE_BUF_SIZE = 1024 := rfl
  have h0 := holds_of_read st (by omega)
  cases color
  · have h1 := holds_append LOG_NEWLINE_SIGN LOG_NEWLINE_SIGN h0 rfl
    refine ⟨?_, h1.2⟩
    simpa using h1.read (by simp [mem_read_length, LOG_NEWLINE_SIGN]; omega)
  · have h1 := holds_append LOG_NEWLINE_SIGN LOG_NEWLINE_SIGN
      (holds_append CSI_END CSI_END h0 rfl) rfl
    refine ⟨?_, h1.2⟩
    simpa using h1.read (by simp [mem_read_length, LOG_NEWLINE_SIGN, CSI_END]; omega)

theorem emit_lines (n : Nat) (s : Sys) :
    console_lines (log_output_unlock (log_file_write n (log_port_output n s))).trace =
        console_lines s.trace ++ [mem_read s.log_buf n] ∧
      file_lines (log_output_unlock (log_file_write n (log_port_output n s))).trace =
        file_lines s.trace ++ [mem_read s.log_buf n] ∧
      (log_output_unlock (log_file_write n (log_port_output n s))).log_buf = s.log_buf := by
  obtain ⟨-, -, -, -, -, q6, q7, q8⟩ := quiet_unlock (log_file_write n (log_port_output n s))
  rw [q6, q7, q8]
  refine ⟨?_, ?_, rfl⟩
  · simp [log_file_write, log_port_output, console_lines_append, console_lines]
  · simp [log_file_write, log_port_output, file_lines_append, file_lines]

theorem finish_hit (st : Line) (s : Sys) (hst : st.2 ≤ 1019)
    (hit : s.g.filter.keyword.headD 0 = 0 ∨
      (strstr (mem_read st.1 st.2) s.g.filter.keyword).isSome = true) :
    console_lines (log_output_finish st s).trace = console_lines s.trace ++
        [mem_read st.1 st.2 ++ (if s.g.text_color_enabled then CSI_END else []) ++
          LOG_NEWLINE_SIGN] ∧
      file_lines (log_output_finish st s).trace = file_lines s.trace ++
        [mem_read st.1 st.2 ++ (if s.g.text_color_enabled then CSI_END else []) ++
          LOG_NEWLINE_SIGN] ∧
      ∀ j, LOG_LINE_BUF_SIZE ≤ j → (log_output_finish st s).log_buf j = st.1 j := by
  have hB : LOG_LINE_BUF_SIZE = 1024 := rfl
  unfold log_output_finish
  by_cases hk : s.g.filter.keyword.headD 0 = 0
  · simp only [hk, ne_eq, not_true_eq_false, if_false]
    obtain ⟨t1, t2⟩ := finish_tail s.g.text_color_enabled st hst
    obtain ⟨e1, e2, e3⟩ := emit_lines
      (log_append (if s.g.text_color_enabled then log_append st CSI_END else st)
        LOG_NEWLINE_SIGN).2
      { s with log_buf := (log_append (if s.g.text_color_enabled then log_append st CSI_END
        else st) LOG_NEWLINE_SIGN).1 }
    refine ⟨?_, ?_, ?_⟩
    · rw [e1]; simp only [t1]
    · rw [e2]; simp only [t1]
    · intro j hj; rw [e3]; exact t2 j hj
  · have hs : (strstr (mem_read st.1 st.2) s.g.filter.keyword).isSome = true := by
      rcases hit with h | h
      · exact absurd h hk
      · exact h
    have hn : ¬ (strstr (mem_read (Function.update st.1 st.2 0) LOG_LINE_BUF_SIZE)
        s.g.filter.keyword).isNone = true := by
      rw [strstr_terminated _ _ _ (by omega)]
      cases hq : strstr (mem_read st.1 st.2) s.g.filter.keyword with
      | none => rw [hq] at hs; exact absurd hs (by simp)
      | some k => simp
    simp only [ne_eq, hk, not_false_eq_true, if_true, hn, if_false]
    obtain ⟨t1, t2⟩ := finish_tail s.g.text_color_enabled (Function.update st.1 st.2 0, st.2) hst
    obtain ⟨e1, e2, e3⟩ := emit_lines
      (log_append (if s.g.text_color_enabled then
        log_append (Function.update st.1 st.2 0, st.2) CSI_END
        else (Function.update st.1 st.2 0, st.2)) LOG_NEWLINE_SIGN).2
      { s with log_buf := (log_append (if s.g.text_color_enabled then
        log_append (Function.update st.1 st.2 0, st.2) CSI_END
        else (Function.update st.1 st.2 0, st.2)) LOG_NEWLINE_SIGN).1 }
    have hr : mem_read (Function.update st.1 st.2 0) st.2 = mem_read st.1 st.2 :=
      mem_read_update_ge _ _ _ _ (le_refl _)
    simp only [hr] at t1
    refine ⟨e1.trans ?_, e2.trans ?_, ?_⟩
    · simp only [t1]
    · simp only [t1]
    · intro j hj
      refine (congrFun e3 j).trans ((t2 j hj).trans ?_)
      exact Function.update_noteq (by omega) _ _

theorem finish_miss (st : Line) (s : Sys) (hst : st.2 ≤ 1019)
    (hk : s.g.filter.keyword.headD 0 ≠ 0)
    (hmiss : (strstr (mem_read st.1 st.2) s.g.filter.keyword).isSome = false) :
    console_lines (log_output_finish st s).trace = console_lines s.trace ∧
      file_lines (log_output_finish st s).trace = file_lines s.trace ∧
      ∀ j, LOG_LINE_BUF_SIZE ≤ j → (log_output_finish st s).log_buf j = st.1 j := by
  have hB : LOG_LINE_BUF_SIZE = 1024 := rfl
  unfold log_output_finish
  have hn : (strstr (mem_read (Function.update st.1 st.2 0) LOG_LINE_BUF_SIZE)
      s.g.filter.keyword).isNone = true := by
    rw [strstr_terminated _ _ _ (by omega)]
    cases hq : strstr (mem_read st.1 st.2) s.g.filter.keyword with
    | none => rfl
    | some k => rw [hq] at hmiss; exact absurd hmiss (by simp)
  simp only [ne_eq, hk, not_false_eq_true, if_true, hn]
  obtain ⟨-, -, -, -, -, q6, q7, q8⟩ :=
    quiet_unlock { s with log_buf := Function.update st.1 st.2 0 }
  refine ⟨q7, q8, ?_⟩
  intro j hj
  rw [q6]
  exact Function.update_noteq (by omega) _ _

theorem format_spec (g : log_t) (p : Port) (level : Nat) (tag file func : List Nat)
    (line : Int) (msg : List Nat) (buf : Mem) :
    rendered g p level tag file func line msg buf =
        (header_text g p level tag file func line ++ msg).take 1019 ∧
      (log_output_format g p level tag file func line msg buf).2 =
        min 1019 (header_text g p level tag file func line ++ msg).length ∧
      ∀ j, LOG_LINE_BUF_SIZE ≤ j →
        (log_output_format g p level tag file func line msg buf).1 j = buf j :=
  fmt_message_spec (holds_fmt_header g p level tag file func line buf) msg

theorem format_len_le (g : log_t) (p : Port) (level : Nat) (tag file func : List Nat)
    (line : Int) (msg : List Nat) (buf : Mem) :
    (log_output_format g p level tag file func line msg buf).2 ≤ 1019 := by
  rw [(format_spec g p level tag file func line msg buf).2.1]
  exact Nat.min_le_left _ _

theorem format_congr (g1 g2 : log_t) (p : Port) (level : Nat) (tag file func : List Nat)
    (line : Int) (msg : List Nat) (buf : Mem)
    (h1 : g1.enabled_fmt_set = g2.enabled_fmt_set)
    (h2 : g1.text_color_enabled = g2.text_color_enabled) :
    log_output_format g1 p level tag file func line msg buf =
      log_output_format g2 p level tag file func line msg buf := by
  unfold log_output_format fmt_header fmt_color fmt_level fmt_tag fmt_time_info fmt_src_info
    get_fmt_enabled
  simp only [h1, h2]

theorem body_pass (p : Port) (level : Nat) (tag file func : List Nat) (line : Int)
    (msg : List Nat) (s : Sys) (hp : passes level tag s)
    (hit : s.g.filter.keyword.headD 0 = 0 ∨
      (strstr (rendered s.g p level tag file func line msg s.log_buf)
        s.g.filter.keyword).isSome = true) :
    console_lines (log_output_body p level tag file func line msg s).trace =
        console_lines s.trace ++
          [rendered s.g p level tag file func line msg s.log_buf ++
            (if s.g.text_color_enabled then CSI_END else []) ++ LOG_NEWLINE_SIGN] ∧
      file_lines (log_output_body p level tag file func line msg s).trace =
        file_lines s.trace ++
          [rendered s.g p level tag file func line msg s.log_buf ++
            (if s.g.text_color_enabled then CSI_END else []) ++ LOG_NEWLINE_SIGN] ∧
      ∀ j, LOG_LINE_BUF_SIZE ≤ j →
        (log_output_body p level tag file func line msg s).log_buf j = s.log_buf j := by
  obtain ⟨h1, h2, h3, h4, h5⟩ := hp
  have q := quiet_trans (quiet_get_filter_tag_lvl tag s)
    (quiet_lock (log_get_filter_tag_lvl tag s).2)
  obtain ⟨q1, q2, q3, q4, q5, q6, q7, q8⟩ := q
  have hq1 := (quiet_get_filter_tag_lvl tag s).1
  have e : log_output_body p level tag file func line msg s =
      log_output_finish
        (log_output_format (log_output_lock (log_get_filter_tag_lvl tag s).2).g p level tag
          file func line msg (log_output_lock (log_get_filter_tag_lvl tag s).2).log_buf)
        (log_output_lock (log_get_filter_tag_lvl tag s).2) := by
    unfold log_output_body
    have h3' : ¬ level > s.g.filter.level := by omega
    have h4' : ¬ (level : Int) > (log_get_filter_tag_lvl tag s).1 := by omega
    have h5' : ¬ (strstr tag (log_get_filter_tag_lvl tag s).2.g.filter.tag).isNone = true := by
      rw [hq1]
      cases hs : strstr tag s.g.filter.tag with
      | none => rw [hs] at h5; exact absurd h5 (by simp)
      | some k => simp
    simp only [h1, h2, Bool.not_true, Bool.false_eq_true, if_false, h3', h4', h5']
  have ef := format_congr (log_output_lock (log_get_filter_tag_lvl tag s).2).g s.g p level tag
    file func line msg s.log_buf q2 q5
  rw [e, q6, ef]
  have hf := finish_hit (log_output_format s.g p level tag file func line msg s.log_buf)
    (log_output_lock (log_get_filter_tag_lvl tag s).2)
    (format_len_le s.g p level tag file func line msg s.log_buf)
    (by rw [q1]; exact hit)
  rw [q5, q7, q8] at hf
  obtain ⟨f1, f2, f3⟩ := hf
  refine ⟨f1, f2, ?_⟩
  intro j hj
  rw [f3 j hj]
  exact (format_spec s.g p level tag file func line msg s.log_buf).2.2 j hj

theorem body_quiet (p : Port) (level : Nat) (tag file func : List Nat) (line : Int)
    (msg : List Nat) (s : Sys) (hp : ¬ passes level tag s) :
    Quiet s (log_output_body p level tag file func line msg s) := by
  unfold log_output_body
  by_cases h1 : s.g.init_ok = true
  swap
  · simp only [h1, Bool.not_false, if_true]; exact quiet_refl s
  by_cases h2 : s.g.output_enabled = true
  swap
  · simp only [h1, h2, Bool.not_true, Bool.not_false, Bool.false_eq_true, if_false, if_true]
    exact quiet_refl s
  by_cases h3 : level > s.g.filter.level
  · simp only [h1, h2, Bool.not_true, Bool.false_eq_true, if_false, h3, if_true]
    exact quiet_refl s
  by_cases h4 : (level : Int) > (log_get_filter_tag_lvl tag s).1
  · simp only [h1, h2, Bool.not_true, Bool.false_eq_true, if_false, h3, h4, if_true]
    exact quiet_get_filter_tag_lvl tag s
  have hq1 := (quiet_get_filter_tag_lvl tag s).1
  have h5 : (strstr tag (log_get_filter_tag_lvl tag s).2.g.filter.tag).isNone = true := by
    rw [hq1]
    cases hs : strstr tag s.g.filter.tag with
    | none => rfl
    | some k =>
      exfalso
      apply hp
      refine ⟨h1, h2, by omega, by omega, ?_⟩
      rw [hs]; rfl
  simp only [h1, h2, Bool.not_true, Bool.false_eq_true, if_false, h3, h4, h5, if_true]
  exact quiet_get_filter_tag_lvl tag s

theorem body_miss (p : Port) (level : Nat) (tag file func : List Nat) (line : Int)
    (msg : List Nat) (s : Sys) (hp : passes level tag s)
    (hk : s.g.filter.keyword.headD 0 ≠ 0)
    (hmiss : (strstr (rendered s.g p level tag file func line msg s.log_buf)
        s.g.filter.keyword).isSome = false) :
    console_lines (log_output_body p level tag file func line msg s).trace =
        console_lines s.trace ∧
      file_lines (log_output_body p level tag file func line msg s).trace =
        file_lines s.trace ∧
      ∀ j, LOG_LINE_BUF_SIZE ≤ j →
        (log_output_body p level tag file func line msg s).log_buf j = s.log_buf j := by
  obtain ⟨h1, h2, h3, h4, h5⟩ := hp
  have q := quiet_trans (quiet_get_filter_tag_lvl tag s)
    (quiet_lock (log_get_filter_tag_lvl tag s).2)
  obtain ⟨q1, q2, q3, q4, q5, q6, q7, q8⟩ := q
  have hq1 := (quiet_get_filter_tag_lvl tag s).1
  have e : log_output_body p level tag file func line msg s =
      log_output_finish
        (log_output_format (log_output_lock (log_get_filter_tag_lvl tag s).2).g p level tag
          file func line msg (log_output_lock (log_get_filter_tag_lvl tag s).2).log_buf)
        (log_output_lock (log_get_filter_tag_lvl tag s).2) := by
    unfold log_output_body
    have h3' : ¬ level > s.g.filter.level := by omega
    have h4' : ¬ (level : Int) > (log_get_filter_tag_lvl tag s).1 := by omega
    have h5' : ¬ (strstr tag (log_get_filter_tag_lvl tag s).2.g.filter.tag).isNone = true := by
      rw [hq1]
      cases hs : strstr tag s.g.filter.tag with
      | none => rw [hs] at h5; exact absurd h5 (by simp)
      | some k => simp
    simp only [h1, h2, Bool.not_true, Bool.false_eq_true, if_false, h3', h4', h5']
  have ef := format_congr (log_output_lock (log_get_filter_tag_lvl tag s).2).g s.g p level tag
    file func line msg s.log_buf q2 q5
  rw [e, q6, ef]
  have hf := finish_miss (log_output_format s.g p level tag file func line msg s.log_buf)
    (log_output_lock (log_get_filter_tag_lvl tag s).2)
    (format_len_le s.g p level tag file func line msg s.log_buf)
    (by rw [q1]; exact hk) (by rw [q1]; exact hmiss)
  rw [q7, q8] at hf
  obtain ⟨f1, f2, f3⟩ := hf
  refine ⟨f1, f2, ?_⟩
  intro j hj
  rw [f3 j hj]
  exact (format_spec s.g p level tag file func line msg s.log_buf).2.2 j hj

theorem strstr_at_isSome (needle hay : List Nat) :
    (strstr_at needle hay).isSome = true ↔ needle <:+: hay := by
  induction hay with
  | nil =>
    unfold strstr_at
    by_cases h : needle = []
    · simp [h]
    · simp [h]
  | cons c hay ih =>
    unfold strstr_at
    rw [List.infix_cons_iff]
    by_cases hp : needle.isPrefixOf (c :: hay) = true
    · rw [if_pos hp]
      simp only [Option.isSome_some, true_iff]
      exact Or.inl (List.isPrefixOf_iff_prefix.mp hp)
    · rw [if_neg hp, Option.isSome_map', ih]
      constructor
      · intro h; exact Or.inr h
      · rintro (h | h)
        · exact absurd (List.isPrefixOf_iff_prefix.mpr h) hp
        · exact h

theorem strstr_isSome (haystack needle : List Nat) :
    (strstr haystack needle).isSome = true ↔ cstr needle <:+: cstr haystack :=
  strstr_at_isSome _ _

theorem headD_eq_zero_iff (a : List Nat) : a.headD 0 = 0 ↔ cstr a = [] := by
  cases a with
  | nil => simp [cstr]
  | cons c a =>
    by_cases hc : c = 0
    · subst hc; simp [cstr]
    · simp [cstr, hc]

/-- What one call of the body of `log_output` passes to the sinks: nothing, or the rendered
text with its trailing signs, the same line to both sinks. -/
theorem body_cases (p : Port) (level : Nat) (tag file func : List Nat) (line : Int)
    (msg : List Nat) (s : Sys) :
    ((console_lines (log_output_body p level tag file func line msg s).trace =
          console_lines s.trace ∧
        file_lines (log_output_body p level tag file func line msg s).trace =
          file_lines s.trace) ∨
      (console_lines (log_output_body p level tag file func line msg s).trace =
          console_lines s.trace ++
            [rendered s.g p level tag file func line msg s.log_buf ++
              (if s.g.text_color_enabled then CSI_END else []) ++ LOG_NEWLINE_SIGN] ∧
        file_lines (log_output_body p level tag file func line msg s).trace =
          file_lines s.trace ++
            [rendered s.g p level tag file func line msg s.log_buf ++
              (if s.g.text_color_enabled then CSI_END else []) ++ LOG_NEWLINE_SIGN])) ∧
      ∀ j, LOG_LINE_BUF_SIZE ≤ j →
        (log_output_body p level tag file func line msg s).log_buf j = s.log_buf j := by
  by_cases hp : passes level tag s
  · by_cases hk : s.g.filter.keyword.headD 0 = 0
    · obtain ⟨a, b, c⟩ := body_pass p level tag file func line msg s hp (Or.inl hk)
      exact ⟨Or.inr ⟨a, b⟩, c⟩
    · cases hs : (strstr (rendered s.g p level tag file func line msg s.log_buf)
          s.g.filter.keyword).isSome with
      | true =>
        obtain ⟨a, b, c⟩ := body_pass p level tag file func line msg s hp (Or.inr hs)
        exact ⟨Or.inr ⟨a, b⟩, c⟩
      | false =>
        obtain ⟨a, b, c⟩ := body_miss p level tag file func line msg s hp hk hs
        exact ⟨Or.inl ⟨a, b⟩, c⟩
  · obtain ⟨-, -, -, -, -, q6, q7, q8⟩ := body_quiet p level tag file func line msg s hp
    refine ⟨Or.inl ⟨q7, q8⟩, ?_⟩
    intro j _
    rw [q6]

/-! ## The mutex through a call -/

theorem noWait_refl (s : Sys) : NoWait s s := ⟨rfl, fun h => ⟨rfl, fun _ => h⟩⟩

theorem port_lock_free (s : Sys) (h : s.mutex_held = false) :
    (log_port_output_lock s).blocked_at = s.blocked_at := by
  unfold log_port_output_lock
  simp [h]

theorem unlock_mutex (s : Sys) :
    (log_output_unlock s).g.output_lock_enabled = s.g.output_lock_enabled ∧
      (log_output_unlock s).blocked_at = s.blocked_at ∧
      (log_output_unlock s).mutex_held =
        (if s.g.output_lock_enabled then false else s.mutex_held) := by
  unfold log_output_unlock
  cases h : s.g.output_lock_enabled <;> simp [h, log_port_output_unlock]

theorem lock_mutex (s : Sys) (hfree : s.mutex_held = false) :
    (log_output_lock s).g.output_lock_enabled = s.g.output_lock_enabled ∧
      (log_output_lock s).blocked_at = s.blocked_at ∧
      (log_output_lock s).mutex_held = s.g.output_lock_enabled := by
  unfold log_output_lock
  cases h : s.g.output_lock_enabled <;> simp [h, log_port_output_lock, hfree]

theorem finish_mutex (st : Line) (s : Sys) :
    (log_output_finish st s).g.output_lock_enabled = s.g.output_lock_enabled ∧
      (log_output_finish st s).blocked_at = s.blocked_at ∧
      (log_output_finish st s).mutex_held =
        (if s.g.output_lock_enabled then false else s.mutex_held) := by
  unfold log_output_finish
  by_cases hk : s.g.filter.keyword.headD 0 = 0
  · simp only [hk, ne_eq, not_true_eq_false, if_false]
    exact unlock_mutex _
  · by_cases hn : (strstr (mem_read (Function.update st.1 st.2 0) LOG_LINE_BUF_SIZE)
        s.g.filter.keyword).isNone = true
    · simp only [hk, ne_eq, not_false_eq_true, if_true, hn]
      exact unlock_mutex _
    · simp only [hk, ne_eq, not_false_eq_true, if_true, hn, Bool.false_eq_true, if_false]
      exact unlock_mutex _

/-- The mutex through `log_get_filter_tag_lvl`: taken with `pthread_mutex_lock`, released
only when the switch is on. -/
theorem get_filter_tag_lvl_mutex (tag : List Nat) (s : Sys) (hfree : s.mutex_held = false) :
    (log_get_filter_tag_lvl tag s).2.g.output_lock_enabled = s.g.output_lock_enabled ∧
      (log_get_filter_tag_lvl tag s).2.blocked_at = s.blocked_at ∧
      (log_get_filter_tag_lvl tag s).2.mutex_held =
        (s.g.init_ok && !s.g.output_lock_enabled) := by
  unfold log_get_filter_tag_lvl
  cases hi : s.g.init_ok
  · simp [hfree]
  · simp only [Bool.not_true, Bool.false_eq_true, if_false]
    obtain ⟨u1, u2, u3⟩ := unlock_mutex (log_port_output_lock s)
    refine ⟨u1, u2.trans (port_lock_free s hfree), ?_⟩
    rw [u3]
    cases hl : s.g.output_lock_enabled <;> simp [log_port_output_lock, hl]

theorem noWait_get (tag : List Nat) (s : Sys) : NoWait s (log_get_filter_tag_lvl tag s).2 := by
  refine ⟨?_, fun hfree => ?_⟩
  · unfold log_get_filter_tag_lvl
    split
    · rfl
    · exact (unlock_mutex _).1
  · obtain ⟨-, g2, g3⟩ := get_filter_tag_lvl_mutex tag s hfree
    refine ⟨g2, fun hl => ?_⟩
    rw [g3, hl]
    simp

theorem noWait_body (p : Port) (level : Nat) (tag file func : List Nat) (line : Int)
    (msg : List Nat) (s : Sys) : NoWait s (log_output_body p level tag file func line msg s) := by
  unfold log_output_body
  split
  · exact noWait_refl s
  split
  · exact noWait_refl s
  split
  · exact noWait_refl s
  simp only []
  split
  · exact noWait_get tag s
  split
  · exact noWait_get tag s
  obtain ⟨n1, n2⟩ := noWait_get tag s
  obtain ⟨f1, f2, f3⟩ := finish_mutex
    (log_output_format (log_output_lock (log_get_filter_tag_lvl tag s).2).g p level tag file
      func line msg (log_output_lock (log_get_filter_tag_lvl tag s).2).log_buf)
    (log_output_lock (log_get_filter_tag_lvl tag s).2)
  have hle : (log_output_lock (log_get_filter_tag_lvl tag s).2).g.output_lock_enabled =
      s.g.output_lock_enabled := by
    unfold log_output_lock
    split
    · exact n1
    · exact n1
  refine ⟨f1.trans hle, fun hfree => ?_⟩
  obtain ⟨g1, g2, g3⟩ := get_filter_tag_lvl_mutex tag s hfree
  have hb : (log_output_lock (log_get_filter_tag_lvl tag s).2).blocked_at = s.blocked_at := by
    unfold log_output_lock
    cases hl : s.g.output_lock_enabled
    · rw [g1, hl]
      simp only [Bool.false_eq_true, if_false]
      exact g2
    · rw [g1, hl]
      simp only [if_true]
      show (log_port_output_lock (log_get_filter_tag_lvl tag s).2).blocked_at = _
      rw [port_lock_free _ (by rw [g3, hl]; simp)]
      exact g2
  refine ⟨f2.trans hb, fun hl => ?_⟩
  rw [f3, hle, hl]
  rfl

theorem noWait_log_output (p : Port) (level : Nat) (tag file func : List Nat) (line : Int)
    (msg : List Nat) (s : Sys) : NoWait s (log_output p level tag file func line msg s) := by
  unfold log_output log_a
  split <;> exact noWait_body _ _ _ _ _ _ _ _

theorem noWait_set_filter_tag_lvl (p : Port) (tag : Option (List Nat)) (level : Nat)
    (s : Sys) : NoWait s (log_set_filter_tag_lvl p tag level s) := by
  unfold log_set_filter_tag_lvl log_a
  split
  · exact noWait_body _ _ _ _ _ _ _ _
  split
  · exact noWait_body _ _ _ _ _ _ _ _
  split
  · exact noWait_refl s
  rename_i tag0 _
  simp only []
  have key : ∀ s2 : Sys, s2.g.output_lock_enabled = s.g.output_lock_enabled →
      s2.blocked_at = (log_port_output_lock s).blocked_at → s2.mutex_held = true →
      NoWait s (log_output_unlock s2) := by
    intro s2 h1 h2 h3
    obtain ⟨u1, u2, u3⟩ := unlock_mutex s2
    refine ⟨u1.trans h1, fun hfree => ⟨?_, fun hl => ?_⟩⟩
    · rw [u2, h2, port_lock_free s hfree]
    · rw [u3, h1, hl]
      rfl
  apply key
  · split
    · split <;> rfl
    · split
      · split <;> rfl
      · rfl
  · split
    · split <;> rfl
    · split
      · split <;> rfl
      · rfl
  · split
    · split <;> rfl
    · split
      · split <;> rfl
      · rfl

theorem hexdump_row_mutex (name : List Nat) (width : Nat) (buf : List Nat) (size i : Nat)
    (d : List Nat) (s : Sys) :
    (hexdump_row name width buf size i d s).2.g = s.g ∧
      (hexdump_row name width buf size i d s).2.mutex_held = s.mutex_held ∧
      (hexdump_row name width buf size i d s).2.blocked_at = s.blocked_at :=
  ⟨rfl, rfl, rfl⟩

theorem hexdump_loop_mutex (name : List Nat) (width : Nat) (buf : List Nat) (size : Nat) :
    ∀ fuel i d s s1, hexdump_loop name width buf size fuel i (d, s) = some s1 →
      s1.g = s.g ∧ s1.mutex_held = s.mutex_held ∧ s1.blocked_at = s.blocked_at := by
  intro fuel
  induction fuel with
  | zero =>
    intro i d s s1 h
    rw [hexdump_loop] at h
    split at h
    · cases h
    · cases h
      exact ⟨rfl, rfl, rfl⟩
  | succ f ih =>
    intro i d s s1 h
    rw [hexdump_loop] at h
    split at h
    · obtain ⟨a, b, c⟩ := ih _ _ _ _ h
      obtain ⟨r1, r2, r3⟩ := hexdump_row_mutex name width buf size i d s
      exact ⟨a.trans r1, b.trans r2, c.trans r3⟩
    · cases h
      exact ⟨rfl, rfl, rfl⟩

/-- The hex dump takes the mutex through `log_output_lock` only: from a state with the mutex
free a `log_hexdump` call that ends its loop returns. -/
theorem noWait_hexdump (fuel : Nat) (name : List Nat) (width : Nat) (buf : List Nat)
    (size : Nat) (s s1 : Sys) (h : log_hexdump fuel name width buf size s = some s1) :
    NoWait s s1 := by
  unfold log_hexdump at h
  split at h
  · cases h; exact noWait_refl s
  split at h
  · cases h; exact noWait_refl s
  split at h
  · cases h; exact noWait_refl s
  split at h
  · cases h; exact noWait_refl s
  simp only [] at h
  split at h
  · cases h
  · rename_i s2 hloop
    cases h
    obtain ⟨a, b, c⟩ := hexdump_loop_mutex name width buf size fuel 0 _ _ _ hloop
    obtain ⟨u1, u2, u3⟩ := unlock_mutex s2
    have hle : (log_output_lock s).g.output_lock_enabled = s.g.output_lock_enabled := by
      unfold log_output_lock
      split <;> rfl
    refine ⟨u1.trans ((congrArg (fun g => g.output_lock_enabled) a).trans hle),
      fun hfree => ?_⟩
    obtain ⟨l1, l2, l3⟩ := lock_mutex s hfree
    refine ⟨u2.trans (c.trans l2), fun hl => ?_⟩
    rw [u3, a, hle, hl]
    rfl

/-- C1, as stated, fails in initialised, output-enabled states in which the mutex is locked.
By the pairing of `log_get_filter_tag_lvl`: after `log_init()`,
`log_output_lock_enabled(false)` and one Warn record, the call has returned and the mutex
is still locked; the same record passes every filter (level, no tag override, tag filter),
yet the second `log_output` waits for ever in its first `pthread_mutex_lock`, the fourth
port call, and no line reaches a sink.  By the use of a mutex that is not recursive: after
`log_init()` and `log_output_lock()` the caller holds the mutex, and `log_output` waits for
ever in the second port call. -/
theorem log_output_waits_for_locked_mutex :
    (ex_lock_off_used.g.init_ok = true ∧ ex_lock_off_used.g.output_enabled = true ∧
      cstr ex_lock_off_used.g.filter.keyword = [] ∧
      ex_lock_off_used.blocked_at = none ∧ ex_lock_off_used.mutex_held = true ∧
      LOG_LVL_WARN ≤ ex_lock_off_used.g.filter.level ∧
      find_tag_lvl ex_lock_off_used.g (str "main") = none ∧
      cstr ex_lock_off_used.g.filter.tag <:+: cstr (str "main") ∧
      (log_output ex_port LOG_LVL_WARN (str "main") (str "main.c") (str "main") 10
        (str "Hello") ex_lock_off_used).blocked_at = some 4 ∧
      console_lines (performed (log_output ex_port LOG_LVL_WARN (str "main") (str "main.c")
        (str "main") 10 (str "Hello") ex_lock_off_used)) =
        console_lines (performed ex_lock_off_used) ∧
      file_lines (performed (log_output ex_port LOG_LVL_WARN (str "main") (str "main.c")
        (str "main") 10 (str "Hello") ex_lock_off_used)) =
        file_lines (performed ex_lock_off_used)) ∧
    (ex_caller_locked.g.init_ok = true ∧ ex_caller_locked.g.output_enabled = true ∧
      cstr ex_caller_locked.g.filter.keyword = [] ∧
      ex_caller_locked.blocked_at = none ∧ ex_caller_locked.mutex_held = true ∧
      LOG_LVL_WARN ≤ ex_caller_locked.g.filter.level ∧
      find_tag_lvl ex_caller_locked.g (str "main") = none ∧
      cstr ex_caller_locked.g.filter.tag <:+: cstr (str "main") ∧
      (log_output ex_port LOG_LVL_WARN (str "main") (str "main.c") (str "main") 10
        (str "Hello") ex_caller_locked).blocked_at = some 2 ∧
      console_lines (performed (log_output ex_port LOG_LVL_WARN (str "main") (str "main.c")
        (str "main") 10 (str "Hello") ex_caller_locked)) = [] ∧
      file_lines (performed (log_output ex_port LOG_LVL_WARN (str "main") (str "main.c")
        (str "main") 10 (str "Hello") ex_caller_locked)) = []) := by
  refine ⟨⟨by decide!, by decide!, by decide!, by decide!, by decide!, by decide!,
    by decide!, ⟨[], str "main", by decide!⟩, by decide!, by decide!, by decide!⟩,
    ⟨by decide!, by decide!, by decide!, by decide!, by decide!, by decide!,
    by decide!, ⟨[], str "main", by decide!⟩, by decide!, by decide!, by decide!⟩⟩

/-- C1, amended. In an initialised logger with output enabled and no keyword, in which the
mutex is not locked and the thread is not blocked, `log_output` at a level 0..5 returns (it
never calls `pthread_mutex_lock` on the locked mutex, and neither does
`log_get_filter_tag_lvl`), and it passes a line to the console sink and the file sink exactly
when the level is at most the global filter level, at most the level `log_get_filter_tag_lvl`
reports for the tag, and the stored global tag filter is a substring of the tag; otherwise
neither sink receives anything.  The reported tag level is `LOG_FILTER_LVL_ALL` when no slot
matches the tag. -/
theorem log_output_emits_iff_filters_pass (p : Port) (level : Nat) (tag file func : List Nat)
    (line : Int) (msg : List Nat) (s : Sys)
    (hinit : s.g.init_ok = true) (hen : s.g.output_enabled = true)
    (hkw : cstr s.g.filter.keyword = []) (hl : level ≤ LOG_LVL_VERBOSE)
    (hfree : s.mutex_held = false) (hrun : s.blocked_at = none) :
    (log_output p level tag file func line msg s).blocked_at = none ∧
      (log_get_filter_tag_lvl tag s).2.blocked_at = none ∧
      ((∃ l, console_lines (log_output p level tag file func line msg s).trace =
            console_lines s.trace ++ [l] ∧
          file_lines (log_output p level tag file func line msg s).trace =
            file_lines s.trace ++ [l]) ↔
        (level ≤ s.g.filter.level ∧ (level : Int) ≤ (log_get_filter_tag_lvl tag s).1 ∧
          cstr s.g.filter.tag <:+: cstr tag)) ∧
      (¬ (level ≤ s.g.filter.level ∧ (level : Int) ≤ (log_get_filter_tag_lvl tag s).1 ∧
          cstr s.g.filter.tag <:+: cstr tag) →
        console_lines (log_output p level tag file func line msg s).trace =
            console_lines s.trace ∧
          file_lines (log_output p level tag file func line msg s).trace =
            file_lines s.trace) ∧
      (find_tag_lvl s.g tag = none →
        (log_get_filter_tag_lvl tag s).1 = (LOG_FILTER_LVL_ALL : Int)) := by
  refine ⟨((noWait_log_output p level tag file func line msg s).2 hfree).1.trans hrun,
    ((noWait_get tag s).2 hfree).1.trans hrun, ?_⟩
  have e : log_output p level tag file func line msg s =
      log_output_body p level tag file func line msg s := by
    unfold log_output
    rw [if_neg (by omega)]
  rw [e]
  have hpass : passes level tag s ↔
      (level ≤ s.g.filter.level ∧ (level : Int) ≤ (log_get_filter_tag_lvl tag s).1 ∧
        cstr s.g.filter.tag <:+: cstr tag) := by
    unfold passes
    rw [strstr_isSome]
    constructor
    · rintro ⟨-, -, a, b, c⟩; exact ⟨a, b, c⟩
    · rintro ⟨a, b, c⟩; exact ⟨hinit, hen, a, b, c⟩
  have hneg : ¬ passes level tag s →
      console_lines (log_output_body p level tag file func line msg s).trace =
          console_lines s.trace ∧
        file_lines (log_output_body p level tag file func line msg s).trace =
          file_lines s.trace := by
    intro hp
    obtain ⟨-, -, -, -, -, -, q7, q8⟩ := body_quiet p level tag file func line msg s hp
    exact ⟨q7, q8⟩
  refine ⟨?_, ?_, ?_⟩
  · rw [← hpass]
    constructor
    · rintro ⟨l, h1, -⟩
      by_contra hp
      have := (hneg hp).1
      rw [this] at h1
      simp at h1
    · intro hp
      obtain ⟨a, b, -⟩ := body_pass p level tag file func line msg s hp
        (Or.inl ((headD_eq_zero_iff _).mpr hkw))
      exact ⟨_, a, b⟩
  · rw [← hpass]; exact hneg
  · intro hnone
    unfold log_get_filter_tag_lvl
    simp only [hinit, Bool.not_true, Bool.false_eq_true, if_false]
    have : find_tag_lvl (log_port_output_lock s).g tag = none := hnone
    rw [this]

/-- C1, amended, at a concrete record: the example logger, whose mutex is free, passes a Warn
record with tag "main", and the call returns. -/
theorem log_output_emits_iff_filters_pass_witness :
    ex_sys.g.init_ok = true ∧ ex_sys.g.output_enabled = true ∧
      cstr ex_sys.g.filter.keyword = [] ∧ LOG_LVL_WARN ≤ LOG_LVL_VERBOSE ∧
      ex_sys.mutex_held = false ∧ ex_sys.blocked_at = none ∧
      (log_output ex_port LOG_LVL_WARN (str "main") (str "main.c") (str "test_log") 57
        (str "Hello") ex_sys).blocked_at = none ∧
      ((∃ l, console_lines (log_output ex_port LOG_LVL_WARN (str "main") (str "main.c")
              (str "test_log") 57 (str "Hello") ex_sys).trace =
            console_lines ex_sys.trace ++ [l] ∧
          file_lines (log_output ex_port LOG_LVL_WARN (str "main") (str "main.c")
              (str "test_log") 57 (str "Hello") ex_sys).trace =
            file_lines ex_sys.trace ++ [l]) ↔
        (LOG_LVL_WARN ≤ ex_sys.g.filter.level ∧
          (LOG_LVL_WARN : Int) ≤ (log_get_filter_tag_lvl (str "main") ex_sys).1 ∧
          cstr ex_sys.g.filter.tag <:+: cstr (str "main"))) :=
  ⟨rfl, rfl, rfl, by decide, rfl, rfl,
    (log_output_emits_iff_filters_pass ex_port LOG_LVL_WARN (str "main") (str "main.c")
      (str "test_log") 57 (str "Hello") ex_sys rfl rfl rfl (by decide) rfl rfl).1,
    (log_output_emits_iff_filters_pass ex_port LOG_LVL_WARN (str "main") (str "main.c")
      (str "test_log") 57 (str "Hello") ex_sys rfl rfl rfl (by decide) rfl rfl).2.2.1⟩

/-- What one call of `log_output` passes to the sinks, for every level: nothing, or one line,
which is the text rendered for some record followed by the trailing signs. -/
theorem log_output_cases (p : Port) (level : Nat) (tag file func : List Nat) (line : Int)
    (msg : List Nat) (s : Sys) :
    (∃ new : List (List Nat),
        console_lines (log_output p level tag file func line msg s).trace =
          console_lines s.trace ++ new ∧
        file_lines (log_output p level tag file func line msg s).trace =
          file_lines s.trace ++ new ∧
        ∀ l ∈ new, ∃ r : List Nat, r.length ≤ 1019 ∧
          l = r ++ (if s.g.text_color_enabled then CSI_END else []) ++ LOG_NEWLINE_SIGN) ∧
      ∀ j, LOG_LINE_BUF_SIZE ≤ j →
        (log_output p level tag file func line msg s).log_buf j = s.log_buf j := by
  have key : ∀ (level : Nat) (tag file func : List Nat) (line : Int) (msg : List Nat),
      (∃ new : List (List Nat),
        console_lines (log_output_body p level tag file func line msg s).trace =
          console_lines s.trace ++ new ∧
        file_lines (log_output_body p level tag file func line msg s).trace =
          file_lines s.trace ++ new ∧
        ∀ l ∈ new, ∃ r : List Nat, r.length ≤ 1019 ∧
          l = r ++ (if s.g.text_color_enabled then CSI_END else []) ++ LOG_NEWLINE_SIGN) ∧
      ∀ j, LOG_LINE_BUF_SIZE ≤ j →
        (log_output_body p level tag file func line msg s).log_buf j = s.log_buf j := by
    intro level tag file func line msg
    obtain ⟨h, hfr⟩ := body_cases p level tag file func line msg s
    refine ⟨?_, hfr⟩
    rcases h with ⟨a, b⟩ | ⟨a, b⟩
    · exact ⟨[], by simpa using a, by simpa using b, by simp⟩
    · refine ⟨_, a, b, ?_⟩
      intro l hl
      rw [List.mem_singleton] at hl
      refine ⟨rendered s.g p level tag file func line msg s.log_buf, ?_, hl⟩
      unfold rendered
      rw [mem_read_length]
      exact format_len_le _ _ _ _ _ _ _ _ _
  unfold log_output log_a
  split
  · exact key _ _ _ _ _ _
  · exact key _ _ _ _ _ _

/-- C2. For every level, format mask, tag, file, function, line number, message and text
color setting (all of them, the state included, are arbitrary here), `log_output` leaves
every byte at an offset of `LOG_LINE_BUF_SIZE` or more as it was, the logical length it has
reached before the trailing signs is at most 1024 - 1 - 4, and every line it passes to a
sink is at most 1024 bytes long. -/
theorem log_output_stays_within_line_buffer (p : Port) (level : Nat)
    (tag file func : List Nat) (line : Int) (msg : List Nat) (s : Sys) :
    (∀ j, LOG_LINE_BUF_SIZE ≤ j →
        (log_output p level tag file func line msg s).log_buf j = s.log_buf j) ∧
      (∀ (g : log_t) (buf : Mem),
        (log_output_format g p level tag file func line msg buf).2 ≤
            LOG_LINE_BUF_SIZE - 1 - 4 ∧
          ∀ j, LOG_LINE_BUF_SIZE ≤ j →
            (log_output_format g p level tag file func line msg buf).1 j = buf j) ∧
      ∃ new : List (List Nat),
        console_lines (log_output p level tag file func line msg s).trace =
          console_lines s.trace ++ new ∧
        file_lines (log_output p level tag file func line msg s).trace =
          file_lines s.trace ++ new ∧
        ∀ l ∈ new, l.length ≤ LOG_LINE_BUF_SIZE := by
  obtain ⟨⟨new, a, b, c⟩, hfr⟩ := log_output_cases p level tag file func line msg s
  refine ⟨hfr, ?_, new, a, b, ?_⟩
  · intro g buf
    exact ⟨format_len_le g p level tag file func line msg buf,
      (format_spec g p level tag file func line msg buf).2.2⟩
  · intro l hl
    obtain ⟨r, hr, rfl⟩ := c l hl
    have h4 : (if s.g.text_color_enabled then CSI_END else []).length ≤ 4 := by
      split <;> simp [CSI_END]
    simp only [List.length_append, LOG_NEWLINE_SIGN, List.length_singleton]
    have hB : LOG_LINE_BUF_SIZE = 1024 := rfl
    omega

/-- C5. Every line that `log_output` passes to a sink ends with the newline sign as its
last byte, whatever the level, the record and the state are. -/
theorem log_output_lines_end_with_newline (p : Port) (level : Nat)
    (tag file func : List Nat) (line : Int) (msg : List Nat) (s : Sys) :
    ∃ new : List (List Nat),
      console_lines (log_output p level tag file func line msg s).trace =
        console_lines s.trace ++ new ∧
      file_lines (log_output p level tag file func line msg s).trace =
        file_lines s.trace ++ new ∧
      ∀ l ∈ new, l.getLast? = some 10 := by
  obtain ⟨⟨new, a, b, c⟩, -⟩ := log_output_cases p level tag file func line msg s
  refine ⟨new, a, b, ?_⟩
  intro l hl
  obtain ⟨r, -, rfl⟩ := c l hl
  simp [LOG_NEWLINE_SIGN]

/-- C3. For a write offset `cur_len` of at most `LOG_LINE_BUF_SIZE`, `log_strcpy` returns
`r = min(strlen(src), LOG_LINE_BUF_SIZE - cur_len)`, stores the first `r` bytes of `src` at
`dst[0 .. r-1]`, changes no other byte, and `cur_len + r` stays within the buffer size; with
a NULL `dst` or a NULL `src` it returns 0 and stores nothing. -/
theorem log_strcpy_bounded_copy (cur_len : Nat) (mem : Mem) (dst : Nat) (src : List Nat)
    (h : cur_len ≤ LOG_LINE_BUF_SIZE) :
    (log_strcpy cur_len mem (some dst) (some src)).2 =
        min (strlen src) (LOG_LINE_BUF_SIZE - cur_len) ∧
      (List.range (log_strcpy cur_len mem (some dst) (some src)).2).map
          (fun i => (log_strcpy cur_len mem (some dst) (some src)).1 (dst + i)) =
        src.take (log_strcpy cur_len mem (some dst) (some src)).2 ∧
      (∀ j, j < dst ∨ dst + (log_strcpy cur_len mem (some dst) (some src)).2 ≤ j →
        (log_strcpy cur_len mem (some dst) (some src)).1 j = mem j) ∧
      cur_len + (log_strcpy cur_len mem (some dst) (some src)).2 ≤ LOG_LINE_BUF_SIZE ∧
      (∀ d : Option Nat, log_strcpy cur_len mem d none = (mem, 0)) ∧
      (∀ sr : Option (List Nat), log_strcpy cur_len mem none sr = (mem, 0)) := by
  have hB : LOG_LINE_BUF_SIZE = 1024 := rfl
  have e : log_strcpy cur_len mem (some dst) (some src) =
      (mem_write mem dst ((cstr src).take (LOG_LINE_BUF_SIZE - cur_len)),
        ((cstr src).take (LOG_LINE_BUF_SIZE - cur_len)).length) := by
    unfold log_strcpy
    exact log_strcpy_loop_eq src cur_len mem dst
  have hr : ((cstr src).take (LOG_LINE_BUF_SIZE - cur_len)).length =
      min (strlen src) (LOG_LINE_BUF_SIZE - cur_len) := by
    rw [List.length_take, Nat.min_comm]; rfl
  rw [e]
  refine ⟨hr, ?_, ?_, ?_, ?_, ?_⟩
  · have hT : src.take ((cstr src).take (LOG_LINE_BUF_SIZE - cur_len)).length =
        (cstr src).take (LOG_LINE_BUF_SIZE - cur_len) :=
      (List.prefix_iff_eq_take.mp
        ((List.take_prefix _ _).trans (List.takeWhile_prefix _))).symm
    show (List.range _).map (fun i => mem_write mem dst _ (dst + i)) = src.take _
    rw [hT]
    apply List.ext_getElem
    · simp
    · intro i h1 h2
      simp only [List.getElem_map, List.getElem_range]
      rw [mem_write_apply, if_pos ⟨by omega, by omega⟩]
      simp only [Nat.add_sub_cancel_left]
      rw [List.getD_eq_getElem?_getD, List.getElem?_eq_getElem h2]
      rfl
  · intro j hj
    exact mem_write_outside _ _ _ _ hj
  · show cur_len + _ ≤ _
    rw [hr]; omega
  · intro d; cases d <;> rfl
  · intro sr; cases sr <;> rfl

/-- C3, at a concrete call: five bytes are left in the buffer and seven are offered. -/
theorem log_strcpy_bounded_copy_witness :
    1019 ≤ LOG_LINE_BUF_SIZE ∧
      (log_strcpy 1019 (fun _ => 0) (some 1019) (some (str "abcdefg"))).2 = 5 ∧
      (List.range 5).map
          (fun i => (log_strcpy 1019 (fun _ => 0) (some 1019) (some (str "abcdefg"))).1
            (1019 + i)) = str "abcde" ∧
      1019 + (log_strcpy 1019 (fun _ => 0) (some 1019) (some (str "abcdefg"))).2 ≤
        LOG_LINE_BUF_SIZE := by
  have h := log_strcpy_bounded_copy 1019 (fun _ => 0) 1019 (str "abcdefg") (by decide)
  have h5 : (log_strcpy 1019 (fun _ => 0) (some 1019) (some (str "abcdefg"))).2 = 5 := by
    rw [h.1]; rfl
  refine ⟨by decide, h5, ?_, h.2.2.2.1⟩
  have h2 := h.2.1
  rw [h5] at h2
  exact h2

theorem zero_not_mem_color_output_info (level : Nat) : 0 ∉ color_output_info level := by
  unfold color_output_info
  split <;> decide

/-- C7. Where the format set of the level enables the tag and the buffer has room for the
field: a tag of at most 8 characters is rendered as the tag, then `8 - strlen(tag)` spaces,
then one more space, 9 bytes in all; a longer tag is rendered whole, without padding, and
followed by exactly one space.  Without room for all of it, the field is cut where the
buffer ends. -/
theorem fmt_tag_pads_short_tags (g : log_t) (level : Nat) (tag : List Nat) (st : Line)
    (hen : get_fmt_enabled g level LOG_FMT_TAG = true) :
    (strlen tag ≤ LOG_FILTER_TAG_MAX_LEN / 2 → st.2 + 9 ≤ LOG_LINE_BUF_SIZE →
      (fmt_tag g level tag st).2 = st.2 + 9 ∧
        mem_read (fmt_tag g level tag st).1 (fmt_tag g level tag st).2 =
          mem_read st.1 st.2 ++
            (cstr tag ++ List.replicate (8 - strlen tag) 32 ++ [32])) ∧
      (LOG_FILTER_TAG_MAX_LEN / 2 < strlen tag →
        st.2 + strlen tag + 1 ≤ LOG_LINE_BUF_SIZE →
        (fmt_tag g level tag st).2 = st.2 + strlen tag + 1 ∧
          mem_read (fmt_tag g level tag st).1 (fmt_tag g level tag st).2 =
            mem_read st.1 st.2 ++ (cstr tag ++ [32])) ∧
      (st.2 ≤ LOG_LINE_BUF_SIZE →
        mem_read (fmt_tag g level tag st).1 (fmt_tag g level tag st).2 =
          (mem_read st.1 st.2 ++
            (cstr tag ++ (if strlen tag ≤ 8 then List.replicate (8 - strlen tag) 32 else []) ++
              [32])).take LOG_LINE_BUF_SIZE) := by
  have hB : LOG_LINE_BUF_SIZE = 1024 := rfl
  have hT : LOG_FILTER_TAG_MAX_LEN / 2 = 8 := rfl
  rw [hT, hB]
  have key : ∀ text : List Nat, tag_field g level tag = text →
      st.2 + text.length ≤ 1024 →
      (fmt_tag g level tag st).2 = st.2 + text.length ∧
        mem_read (fmt_tag g level tag st).1 (fmt_tag g level tag st).2 =
          mem_read st.1 st.2 ++ text := by
    intro text htext hfit
    have h0 := holds_of_read st (by omega)
    have h1 := holds_fmt_tag g level tag h0
    rw [htext] at h1
    have hr := h1.read (by rw [List.length_append, mem_read_length]; omega)
    refine ⟨?_, hr⟩
    have := congrArg List.length hr
    rw [mem_read_length, List.length_append, mem_read_length] at this
    exact this
  refine ⟨?_, ?_, ?_⟩
  · intro hs hfit
    have htext : tag_field g level tag =
        cstr tag ++ List.replicate (8 - strlen tag) 32 ++ [32] := by
      unfold tag_field tag_text
      rw [if_pos hen, if_pos hs]
    have hlen : (cstr tag ++ List.replicate (8 - strlen tag) 32 ++ [32]).length = 9 := by
      simp only [List.length_append, List.length_replicate, List.length_singleton]
      have : (cstr tag).length = strlen tag := rfl
      omega
    have := key _ htext (by rw [hlen]; exact hfit)
    rw [hlen] at this
    exact this
  · intro hs hfit
    have htext : tag_field g level tag = cstr tag ++ [32] := by
      unfold tag_field tag_text
      rw [if_pos hen, if_neg (by omega)]
      simp
    have hlen : (cstr tag ++ [32]).length = strlen tag + 1 := by
      simp only [List.length_append, List.length_singleton]
      rfl
    have := key _ htext (by rw [hlen]; omega)
    rw [hlen, ← Nat.add_assoc] at this
    exact this
  · intro hle
    have h1 := holds_fmt_tag g level tag (holds_of_read st hle)
    have htext : tag_field g level tag =
        cstr tag ++ (if strlen tag ≤ 8 then List.replicate (8 - strlen tag) 32 else []) ++
          [32] := by
      unfold tag_field tag_text
      rw [if_pos hen]
    rw [htext] at h1
    exact h1.1

/-- C7, at two concrete tags: "main" is padded to 9 bytes, "networking" is not padded. -/
theorem fmt_tag_pads_short_tags_witness :
    get_fmt_enabled ex_g LOG_LVL_WARN LOG_FMT_TAG = true ∧
      mem_read (fmt_tag ex_g LOG_LVL_WARN (str "main") (fun _ => 0, 0)).1
          (fmt_tag ex_g LOG_LVL_WARN (str "main") (fun _ => 0, 0)).2 = str "main     " ∧
      mem_read (fmt_tag ex_g LOG_LVL_WARN (str "networking") (fun _ => 0, 0)).1
          (fmt_tag ex_g LOG_LVL_WARN (str "networking") (fun _ => 0, 0)).2 =
        str "networking " := by
  have h1 := (fmt_tag_pads_short_tags ex_g LOG_LVL_WARN (str "main") (fun _ => 0, 0) rfl).1
    (by decide) (by decide)
  have h2 := (fmt_tag_pads_short_tags ex_g LOG_LVL_WARN (str "networking") (fun _ => 0, 0)
    rfl).2.1 (by decide) (by decide)
  exact ⟨rfl, h1.2.trans (by decide), h2.2.trans (by decide)⟩

theorem get_filter_tag_lvl_of_none (tag : List Nat) (s : Sys)
    (h : find_tag_lvl s.g tag = none) :
    (log_get_filter_tag_lvl tag s).1 = (LOG_FILTER_LVL_ALL : Int) := by
  unfold log_get_filter_tag_lvl
  split
  · rfl
  · have : find_tag_lvl (log_port_output_lock s).g tag = none := h
    simp only [this]

theorem cstr_snprintf (d text : List Nat) (size : Nat) (h : 0 < size) :
    cstr (snprintf d size text) = cstr (text.take (size - 1)) := by
  unfold snprintf
  rw [if_neg (by omega)]
  simp only [List.append_assoc, List.singleton_append]
  conv_rhs => rw [← cstr_append_zero (text.take (size - 1))
    (d.drop ((text.take (size - 1)).length + 1))]

theorem cstr_idem (a : List Nat) : cstr (cstr a) = cstr a :=
  cstr_str_eq _ (cstr_no_zero a)

theorem cstr_append_of_no_zero (a b : List Nat) (h : ∀ c ∈ a, c ≠ 0) :
    cstr (a ++ b) = a ++ cstr b := by
  induction a with
  | nil => rfl
  | cons c a ih =>
    rw [List.cons_append, cstr_cons_ne _ _ (h c (List.mem_cons_self _ _)),
      ih (fun x hx => h x (List.mem_cons_of_mem _ hx))]
    rfl

theorem strncmp_eq_zero_iff (n : Nat) (a b : List Nat) :
    strncmp a b n = 0 ↔ (cstr a).take n = (cstr b).take n := by
  induction n generalizing a b with
  | zero => simp [strncmp]
  | succ n ih =>
    rw [strncmp]
    cases a with
    | nil =>
      cases b with
      | nil => simp [cstr]
      | cons y b =>
        by_cases hy : y = 0
        · subst hy; simp [cstr]
        · have : ¬ (0 : Nat) = y := fun h => hy h.symm
          simp [cstr, hy, this]
    | cons x a =>
      by_cases hx : x = 0
      · subst hx
        cases b with
        | nil => simp [cstr]
        | cons y b =>
          by_cases hy : y = 0
          · subst hy; simp [cstr]
          · have : ¬ (0 : Nat) = y := fun h => hy h.symm
            simp [cstr, hy, this]
      · cases b with
        | nil =>
          simp [cstr, hx]
        | cons y b =>
          by_cases hxy : x = y
          · subst hxy
            simp only [List.headD_cons, ne_eq, not_true_eq_false, if_false, hx, List.tail_cons]
            rw [ih, cstr_cons_ne _ _ hx, cstr_cons_ne _ _ hx]
            simp
          · simp only [List.headD_cons, ne_eq, hxy, not_false_eq_true, if_true]
            rw [cstr_cons_ne _ _ hx]
            constructor
            · intro h; exfalso; omega
            · intro h
              exfalso
              by_cases hy : y = 0
              · subst hy; simp [cstr] at h
              · rw [cstr_cons_ne _ _ hy] at h
                simp at h
                exact hxy h.1

theorem take_cstr_strncpy (d t : List Nat) (n : Nat) :
    (cstr (strncpy d t n)).take n = (cstr t).take n := by
  unfold strncpy
  by_cases h : n ≤ (cstr t).length
  · have e1 : (cstr t ++ List.replicate n 0).take n = (cstr t).take n :=
      List.take_append_of_le_length h
    have e2 : ((cstr t).take n).length = n := by rw [List.length_take]; omega
    rw [e1, cstr_append_of_no_zero _ _
      (fun c hc => cstr_no_zero t c (List.mem_of_mem_take hc)),
      List.take_append_of_le_length (by omega), List.take_take, Nat.min_self]
  · have hlt : (cstr t).length < n := by omega
    obtain ⟨k, hk⟩ : ∃ k, n - (cstr t).length = k + 1 := ⟨n - (cstr t).length - 1, by omega⟩
    have e1 : (cstr t ++ List.replicate n 0).take n =
        cstr t ++ 0 :: List.replicate k 0 := by
      rw [List.take_append_eq_append_take, List.take_replicate, hk,
        Nat.min_eq_left (by omega), List.replicate_succ]
      congr 1
      exact List.take_of_length_le (by omega)
    rw [e1, List.append_assoc, List.cons_append, cstr_append_zero, cstr_idem]

theorem strncmp_strncpy (d t : List Nat) (n : Nat) : strncmp t (strncpy d t n) n = 0 := by
  rw [strncmp_eq_zero_iff, take_cstr_strncpy]

theorem find_unique (l : List Nat) (q : Nat → Bool) (i : Nat) (hi : i ∈ l) (hq : q i = true)
    (hj : ∀ j ∈ l, j ≠ i → q j = false) : l.find? q = some i := by
  induction l with
  | nil => exact absurd hi (List.not_mem_nil i)
  | cons a l ih =>
    by_cases ha : a = i
    · subst ha; rw [List.find?_cons, hq]
    · rw [List.find?_cons, hj a (List.mem_cons_self _ _) ha]
      rcases List.mem_cons.mp hi with h | h
      · exact absurd h.symm ha
      · exact ih h (fun j hjl => hj j (List.mem_cons_of_mem _ hjl))

theorem find_tag_lvl_congr (g1 g2 : log_t) (tag : List Nat) (h : g1.filter = g2.filter) :
    find_tag_lvl g1 tag = find_tag_lvl g2 tag := by
  unfold find_tag_lvl tag_lvl_match
  rw [h]

theorem get_filter_tag_lvl_of_some (tag : List Nat) (s : Sys) (i : Nat)
    (hinit : s.g.init_ok = true) (h : find_tag_lvl s.g tag = some i) :
    (log_get_filter_tag_lvl tag s).1 = ((s.g.filter.tag_lvl i).level : Int) := by
  unfold log_get_filter_tag_lvl
  have : find_tag_lvl (log_port_output_lock s).g tag = some i := h
  simp only [hinit, Bool.not_true, Bool.false_eq_true, if_false, this]
  rfl

theorem tableOnly_of_quiet {s s1 : Sys} (h : Quiet s s1) : TableOnly s s1 := by
  obtain ⟨q1, q2, q3, q4, q5, q6, q7, q8⟩ := h
  exact ⟨by rw [q1], by rw [q1], by rw [q1], q2, q3, q4, q5, q6, q7, q8⟩

theorem tableOnly_set_tag_lvl (s : Sys) (i : Nat) (slot : log_tag_lvl_filter_t) :
    TableOnly s (set_tag_lvl s i slot) :=
  ⟨rfl, rfl, rfl, rfl, rfl, rfl, rfl, rfl, rfl, rfl⟩

theorem tableOnly_trans {a b c : Sys} (h1 : TableOnly a b) (h2 : TableOnly b c) :
    TableOnly a c := by
  obtain ⟨a1, a2, a3, a4, a5, a6, a7, a8, a9, a10⟩ := h1
  obtain ⟨b1, b2, b3, b4, b5, b6, b7, b8, b9, b10⟩ := h2
  exact ⟨b1.trans a1, b2.trans a2, b3.trans a3, b4.trans a4, b5.trans a5, b6.trans a6,
    b7.trans a7, b8.trans a8, b9.trans a9, b10.trans a10⟩

/-- What `log_set_filter_tag_lvl` does for a valid level other than `LOG_FILTER_LVL_ALL`
and a tag that has a slot or can get one: afterwards the first matching slot of the tag
holds the level, and nothing but the table, the lock flags and the trace has changed. -/
theorem set_filter_tag_lvl_spec (p : Port) (tag : List Nat) (level : Nat) (s : Sys)
    (hinit : s.g.init_ok = true) (hl : level ≤ LOG_LVL_VERBOSE)
    (hne : level ≠ LOG_FILTER_LVL_ALL)
    (hslot : (find_tag_lvl s.g tag).isSome = true ∨ (find_unused_tag_lvl s.g).isSome = true) :
    TableOnly s (log_set_filter_tag_lvl p (some tag) level s) ∧
      ∃ i, find_tag_lvl (log_set_filter_tag_lvl p (some tag) level s).g tag = some i ∧
        ((log_set_filter_tag_lvl p (some tag) level s).g.filter.tag_lvl i).level = level := by
  have hl' : ¬ level > LOG_LVL_VERBOSE := by omega
  unfold log_set_filter_tag_lvl
  simp only [hl', if_false, hinit, Bool.not_true, Bool.false_eq_true]
  have hg : (log_port_output_lock s).g = s.g := rfl
  cases hf : find_tag_lvl s.g tag with
  | some i =>
    have hf' : find_tag_lvl (log_port_output_lock s).g tag = some i := hf
    simp only [hf', if_neg hne]
    refine ⟨tableOnly_trans (tableOnly_trans (tableOnly_of_quiet (quiet_port_lock s))
      (tableOnly_set_tag_lvl _ _ _)) (tableOnly_of_quiet (quiet_unlock _)), i, ?_, ?_⟩
    · rw [find_tag_lvl_congr _ _ tag (quiet_unlock _).1, ← hf]
      unfold find_tag_lvl
      congr 1
      funext j
      unfold tag_lvl_match set_tag_lvl
      by_cases hj : j = i
      · subst hj; simp [hg]
      · simp [hg, Function.update_noteq hj]
    · rw [(quiet_unlock _).1]
      simp [set_tag_lvl]
  | none =>
    have hf' : find_tag_lvl (log_port_output_lock s).g tag = none := hf
    cases hu : find_unused_tag_lvl s.g with
    | none =>
      rw [hf, hu] at hslot
      simp at hslot
    | some i =>
      have hu' : find_unused_tag_lvl (log_port_output_lock s).g = some i := hu
      simp only [hf', hu', ne_eq, hne, not_false_eq_true, if_true]
      have hi : i ∈ List.range LOG_FILTER_TAG_LVL_MAX_NUM := by
        unfold find_unused_tag_lvl at hu
        exact List.mem_of_find?_eq_some hu
      have hnone : ∀ j ∈ List.range LOG_FILTER_TAG_LVL_MAX_NUM,
          tag_lvl_match s.g tag j = false := by
        unfold find_tag_lvl at hf
        rw [List.find?_eq_none] at hf
        intro j hj
        simpa using hf j hj
      refine ⟨tableOnly_trans (tableOnly_trans (tableOnly_of_quiet (quiet_port_lock s))
        (tableOnly_set_tag_lvl _ _ _)) (tableOnly_of_quiet (quiet_unlock _)), i, ?_, ?_⟩
      · rw [find_tag_lvl_congr _ _ tag (quiet_unlock _).1]
        unfold find_tag_lvl
        apply find_unique _ _ _ hi
        · unfold tag_lvl_match set_tag_lvl
          simp [strncmp_strncpy]
        · intro j hj hji
          rw [← hnone j hj]
          unfold tag_lvl_match set_tag_lvl
          simp [hg, Function.update_noteq hji]
      · rw [(quiet_unlock _).1]
        simp [set_tag_lvl]

/-- C10, as stated, fails at the Assert level: after
`log_set_filter_tag_lvl("main", LOG_FILTER_LVL_SILENT)` in the example logger the tag level
of "main" is 0, and an Assert record with tag "main" still reaches both sinks. -/
theorem silent_tag_still_emits_assert :
    (log_get_filter_tag_lvl (str "main")
        (log_set_filter_tag_lvl ex_port (some (str "main")) LOG_FILTER_LVL_SILENT ex_sys)).1 =
      (LOG_FILTER_LVL_SILENT : Int) ∧
      console_lines (log_output ex_port LOG_LVL_ASSERT (str "main") (str "main.c")
        (str "test_log") 53 (str "Hello")
        (log_set_filter_tag_lvl ex_port (some (str "main")) LOG_FILTER_LVL_SILENT ex_sys)).trace =
        [str "A/main     Hello\n"] ∧
      file_lines (log_output ex_port LOG_LVL_ASSERT (str "main") (str "main.c")
        (str "test_log") 53 (str "Hello")
        (log_set_filter_tag_lvl ex_port (some (str "main")) LOG_FILTER_LVL_SILENT ex_sys)).trace =
        [str "A/main     Hello\n"] := by
  refine ⟨by decide!, by decide!, by decide!⟩

/-- C10, amended. In an initialised logger with the lock switched on, the mutex not locked
and the thread not blocked, for a tag that has a slot or can get one:
`log_set_filter_tag_lvl(tag, LOG_FILTER_LVL_SILENT)` returns, `log_get_filter_tag_lvl` after
it returns the tag level 0, and `log_output` with that tag after it returns at every level
0..5; at every level 1..5 it passes nothing to either sink; at the Assert level (0) it still
passes a line to both sinks whenever the record passes the other filters: output is enabled,
the global tag filter is a substring of the tag, and no keyword is set or the keyword is a
substring of the rendered line read as a C string. -/
theorem log_output_silent_tag (p : Port) (tag file func : List Nat) (line : Int)
    (msg : List Nat) (s : Sys) (hinit : s.g.init_ok = true)
    (hlock : s.g.output_lock_enabled = true) (hfree : s.mutex_held = false)
    (hrun : s.blocked_at = none)
    (hslot : (find_tag_lvl s.g tag).isSome = true ∨ (find_unused_tag_lvl s.g).isSome = true) :
    (log_set_filter_tag_lvl p (some tag) LOG_FILTER_LVL_SILENT s).blocked_at = none ∧
      (log_get_filter_tag_lvl tag
        (log_set_filter_tag_lvl p (some tag) LOG_FILTER_LVL_SILENT s)).2.blocked_at = none ∧
      (log_get_filter_tag_lvl tag
        (log_set_filter_tag_lvl p (some tag) LOG_FILTER_LVL_SILENT s)).1 =
        (LOG_FILTER_LVL_SILENT : Int) ∧
      (∀ level, level ≤ LOG_LVL_VERBOSE →
        (log_output p level tag file func line msg
          (log_set_filter_tag_lvl p (some tag) LOG_FILTER_LVL_SILENT s)).blocked_at = none) ∧
      (∀ level, 1 ≤ level → level ≤ LOG_LVL_VERBOSE →
        console_lines (log_output p level tag file func line msg
            (log_set_filter_tag_lvl p (some tag) LOG_FILTER_LVL_SILENT s)).trace =
          console_lines (log_set_filter_tag_lvl p (some tag) LOG_FILTER_LVL_SILENT s).trace ∧
        file_lines (log_output p level tag file func line msg
            (log_set_filter_tag_lvl p (some tag) LOG_FILTER_LVL_SILENT s)).trace =
          file_lines (log_set_filter_tag_lvl p (some tag) LOG_FILTER_LVL_SILENT s).trace) ∧
      (s.g.output_enabled = true → cstr s.g.filter.tag <:+: cstr tag →
        (cstr s.g.filter.keyword = [] ∨
          cstr s.g.filter.keyword <:+:
            cstr (rendered (log_set_filter_tag_lvl p (some tag) LOG_FILTER_LVL_SILENT s).g p
              LOG_LVL_ASSERT tag file func line msg
              (log_set_filter_tag_lvl p (some tag) LOG_FILTER_LVL_SILENT s).log_buf)) →
        ∃ l, console_lines (log_output p LOG_LVL_ASSERT tag file func line msg
              (log_set_filter_tag_lvl p (some tag) LOG_FILTER_LVL_SILENT s)).trace =
            console_lines (log_set_filter_tag_lvl p (some tag) LOG_FILTER_LVL_SILENT s).trace ++
              [l] ∧
          file_lines (log_output p LOG_LVL_ASSERT tag file func line msg
              (log_set_filter_tag_lvl p (some tag) LOG_FILTER_LVL_SILENT s)).trace =
            file_lines (log_set_filter_tag_lvl p (some tag) LOG_FILTER_LVL_SILENT s).trace ++
              [l]) := by
  obtain ⟨⟨t1, t2, t3, t4, t5, t6, t7, t8, t9, t10⟩, i, hfind, hlevel⟩ :=
    set_filter_tag_lvl_spec p tag LOG_FILTER_LVL_SILENT s hinit (by decide) (by decide) hslot
  obtain ⟨n1, n2⟩ := noWait_set_filter_tag_lvl p (some tag) LOG_FILTER_LVL_SILENT s
  obtain ⟨n3, n4⟩ := n2 hfree
  have hrun1 : (log_set_filter_tag_lvl p (some tag) LOG_FILTER_LVL_SILENT s).blocked_at =
      none := n3.trans hrun
  have hfree1 : (log_set_filter_tag_lvl p (some tag) LOG_FILTER_LVL_SILENT s).mutex_held =
      false := n4 hlock
  have hget : (log_get_filter_tag_lvl tag
      (log_set_filter_tag_lvl p (some tag) LOG_FILTER_LVL_SILENT s)).1 =
      (LOG_FILTER_LVL_SILENT : Int) := by
    rw [get_filter_tag_lvl_of_some tag _ i (t5.trans hinit) hfind, hlevel]
  refine ⟨hrun1, ((noWait_get tag _).2 hfree1).1.trans hrun1, hget,
    fun level _ => ((noWait_log_output p level tag file func line msg _).2 hfree1).1.trans hrun1,
    ?_, ?_⟩
  · intro level h1 h5
    have e : log_output p level tag file func line msg
        (log_set_filter_tag_lvl p (some tag) LOG_FILTER_LVL_SILENT s) =
        log_output_body p level tag file func line msg
          (log_set_filter_tag_lvl p (some tag) LOG_FILTER_LVL_SILENT s) := by
      unfold log_output
      rw [if_neg (by omega)]
    rw [e]
    have hp : ¬ passes level tag
        (log_set_filter_tag_lvl p (some tag) LOG_FILTER_LVL_SILENT s) := by
      rintro ⟨-, -, -, h4, -⟩
      rw [hget] at h4
      have : (LOG_FILTER_LVL_SILENT : Int) = 0 := rfl
      omega
    obtain ⟨-, -, -, -, -, -, q7, q8⟩ := body_quiet p level tag file func line msg _ hp
    exact ⟨q7, q8⟩
  · intro hen htag hkw
    have hp : passes LOG_LVL_ASSERT tag
        (log_set_filter_tag_lvl p (some tag) LOG_FILTER_LVL_SILENT s) := by
      refine ⟨t5.trans hinit, t6.trans hen, Nat.zero_le _, ?_, ?_⟩
      · rw [hget]
      · rw [strstr_isSome, t2]; exact htag
    obtain ⟨a, b, -⟩ := body_pass p LOG_LVL_ASSERT tag file func line msg _ hp
      (by
        rcases hkw with hkw | hkw
        · exact Or.inl ((headD_eq_zero_iff _).mpr (by rw [t3]; exact hkw))
        · exact Or.inr ((strstr_isSome _ _).mpr (by rw [t3]; exact hkw)))
    exact ⟨_, a, b⟩

/-- C10 amended, at the example logger and the tag "main": Error records are dropped. -/
theorem log_output_silent_tag_witness :
    ex_sys.g.init_ok = true ∧ ex_sys.g.output_lock_enabled = true ∧
      ex_sys.mutex_held = false ∧ ex_sys.blocked_at = none ∧
      ((find_tag_lvl ex_sys.g (str "main")).isSome = true ∨
        (find_unused_tag_lvl ex_sys.g).isSome = true) ∧
      console_lines (log_output ex_port LOG_LVL_ERROR (str "main") (str "main.c")
          (str "test_log") 55 (str "Hello")
          (log_set_filter_tag_lvl ex_port (some (str "main")) LOG_FILTER_LVL_SILENT
            ex_sys)).trace =
        console_lines (log_set_filter_tag_lvl ex_port (some (str "main"))
          LOG_FILTER_LVL_SILENT ex_sys).trace :=
  ⟨rfl, rfl, rfl, rfl, Or.inr (by decide),
    ((log_output_silent_tag ex_port (str "main") (str "main.c") (str "test_log") 55
      (str "Hello") ex_sys rfl rfl rfl rfl (Or.inr (by decide))).2.2.2.2.1 LOG_LVL_ERROR
      (by decide) (by decide)).1⟩

theorem sameSettings_refl (s : Sys) : SameSettings s s := ⟨rfl, rfl, rfl, rfl, rfl, rfl⟩

theorem sameSettings_trans {a b c : Sys} (h1 : SameSettings a b) (h2 : SameSettings b c) :
    SameSettings a c :=
  ⟨h2.1.trans h1.1, h2.2.1.trans h1.2.1, h2.2.2.1.trans h1.2.2.1,
    h2.2.2.2.1.trans h1.2.2.2.1, h2.2.2.2.2.1.trans h1.2.2.2.2.1,
    h2.2.2.2.2.2.trans h1.2.2.2.2.2⟩

theorem sameSettings_lock (s : Sys) : SameSettings s (log_output_lock s) := by
  unfold log_output_lock
  split <;> exact ⟨rfl, rfl, rfl, rfl, rfl, rfl⟩

theorem sameSettings_unlock (s : Sys) : SameSettings s (log_output_unlock s) := by
  unfold log_output_unlock
  split <;> exact ⟨rfl, rfl, rfl, rfl, rfl, rfl⟩

theorem sameSettings_get_filter_tag_lvl (tag : List Nat) (s : Sys) :
    SameSettings s (log_get_filter_tag_lvl tag s).2 := by
  unfold log_get_filter_tag_lvl
  split
  · exact sameSettings_refl s
  · refine sameSettings_trans ?_ (sameSettings_unlock (log_port_output_lock s))
    exact ⟨rfl, rfl, rfl, rfl, rfl, rfl⟩

theorem sameSettings_finish (st : Line) (s : Sys) :
    SameSettings s (log_output_finish st s) := by
  unfold log_output_finish
  by_cases hk : s.g.filter.keyword.headD 0 = 0
  · simp only [hk, ne_eq, not_true_eq_false, if_false]
    refine sameSettings_trans ?_ (sameSettings_unlock _)
    exact ⟨rfl, rfl, rfl, rfl, rfl, rfl⟩
  · by_cases hn : (strstr (mem_read (Function.update st.1 st.2 0) LOG_LINE_BUF_SIZE)
        s.g.filter.keyword).isNone = true
    · simp only [ne_eq, hk, not_false_eq_true, if_true, hn]
      refine sameSettings_trans ?_ (sameSettings_unlock _)
      exact ⟨rfl, rfl, rfl, rfl, rfl, rfl⟩
    · simp only [ne_eq, hk, not_false_eq_true, if_true, hn, if_false]
      refine sameSettings_trans ?_ (sameSettings_unlock _)
      exact ⟨rfl, rfl, rfl, rfl, rfl, rfl⟩

theorem sameSettings_body (p : Port) (level : Nat) (tag file func : List Nat) (line : Int)
    (msg : List Nat) (s : Sys) :
    SameSettings s (log_output_body p level tag file func line msg s) := by
  unfold log_output_body
  split
  · exact sameSettings_refl s
  split
  · exact sameSettings_refl s
  split
  · exact sameSettings_refl s
  simp only []
  split
  · exact sameSettings_get_filter_tag_lvl tag s
  split
  · exact sameSettings_get_filter_tag_lvl tag s
  · exact sameSettings_trans (sameSettings_trans (sameSettings_get_filter_tag_lvl tag s)
      (sameSettings_lock _)) (sameSettings_finish _ _)

theorem sameSettings_log_a (p : Port) (func : List Nat) (line : Int) (msg : List Nat)
    (s : Sys) : SameSettings s (log_a p func line msg s) :=
  sameSettings_body _ _ _ _ _ _ _ _

theorem sameSettings_log_output (p : Port) (level : Nat) (tag file func : List Nat)
    (line : Int) (msg : List Nat) (s : Sys) :
    SameSettings s (log_output p level tag file func line msg s) := by
  unfold log_output
  split
  · exact sameSettings_log_a _ _ _ _ _
  · exact sameSettings_body _ _ _ _ _ _ _ _

/-- C20. For every level value of `LOG_LVL_MAX` or more, each of `log_set_fmt`,
`log_set_filter`, `log_set_filter_lvl` and `log_set_filter_tag_lvl` leaves the format sets
of all levels and the whole filter (level, tag, keyword and the table of tag levels) as they
were. -/
theorem setters_reject_invalid_level (p : Port) (level set : Nat) (tag keyword : List Nat)
    (otag : Option (List Nat)) (s : Sys) (h : LOG_LVL_MAX ≤ level) :
    ((log_set_fmt p level set s).g.enabled_fmt_set = s.g.enabled_fmt_set ∧
        (log_set_fmt p level set s).g.filter = s.g.filter) ∧
      ((log_set_filter p level tag keyword s).g.enabled_fmt_set = s.g.enabled_fmt_set ∧
        (log_set_filter p level tag keyword s).g.filter = s.g.filter) ∧
      ((log_set_filter_lvl p level s).g.enabled_fmt_set = s.g.enabled_fmt_set ∧
        (log_set_filter_lvl p level s).g.filter = s.g.filter) ∧
      ((log_set_filter_tag_lvl p otag level s).g.enabled_fmt_set = s.g.enabled_fmt_set ∧
        (log_set_filter_tag_lvl p otag level s).g.filter = s.g.filter) := by
  have hl : level > LOG_LVL_VERBOSE := by
    have : LOG_LVL_MAX = 6 := rfl
    have : LOG_LVL_VERBOSE = 5 := rfl
    omega
  unfold log_set_fmt log_set_filter log_set_filter_lvl log_set_filter_tag_lvl
  simp only [hl, if_true]
  refine ⟨?_, ?_, ?_, ?_⟩ <;>
    exact ⟨(sameSettings_log_a _ _ _ _ _).2.1, (sameSettings_log_a _ _ _ _ _).1⟩

/-- C20, at level 6 in the example logger. -/
theorem setters_reject_invalid_level_witness :
    LOG_LVL_MAX ≤ 6 ∧
      (log_set_fmt ex_port 6 LOG_FMT_ALL ex_sys).g.enabled_fmt_set = ex_sys.g.enabled_fmt_set ∧
      (log_set_filter_tag_lvl ex_port (some (str "main")) 6 ex_sys).g.filter =
        ex_sys.g.filter :=
  ⟨by decide,
    (setters_reject_invalid_level ex_port 6 LOG_FMT_ALL (str "main") (str "kw")
      (some (str "main")) ex_sys (by decide)).1.1,
    (setters_reject_invalid_level ex_port 6 LOG_FMT_ALL (str "main") (str "kw")
      (some (str "main")) ex_sys (by decide)).2.2.2.2⟩

theorem set_tbl_found (p : Port) (tag : List Nat) (level : Nat) (s : Sys) (i : Nat)
    (hinit : s.g.init_ok = true) (hl : level ≤ LOG_LVL_VERBOSE)
    (hf : find_tag_lvl s.g tag = some i) :
    (log_set_filter_tag_lvl p (some tag) level s).g.filter.tag_lvl =
      if level = LOG_FILTER_LVL_ALL then
        Function.update s.g.filter.tag_lvl i
          { tag_use_flag := false,
            tag := memset (s.g.filter.tag_lvl i).tag 0 (LOG_FILTER_TAG_MAX_LEN + 1),
            level := LOG_FILTER_LVL_SILENT }
      else
        Function.update s.g.filter.tag_lvl i { s.g.filter.tag_lvl i with level := level } := by
  have hl1 : ¬ level > LOG_LVL_VERBOSE := by omega
  have hf1 : find_tag_lvl (log_port_output_lock s).g tag = some i := hf
  unfold log_set_filter_tag_lvl
  simp only [hl1, if_false, hinit, Bool.not_true, Bool.false_eq_true, hf1]
  rw [(quiet_unlock _).1]
  split <;> rfl

theorem set_tbl_new (p : Port) (tag : List Nat) (level : Nat) (s : Sys) (i : Nat)
    (hinit : s.g.init_ok = true) (hl : level ≤ LOG_LVL_VERBOSE)
    (hne : level ≠ LOG_FILTER_LVL_ALL)
    (hf : find_tag_lvl s.g tag = none) (hu : find_unused_tag_lvl s.g = some i) :
    (log_set_filter_tag_lvl p (some tag) level s).g.filter.tag_lvl =
      Function.update s.g.filter.tag_lvl i
        { tag := strncpy (s.g.filter.tag_lvl i).tag tag LOG_FILTER_TAG_MAX_LEN,
          level := level,
          tag_use_flag := true } := by
  have hl1 : ¬ level > LOG_LVL_VERBOSE := by omega
  have hf1 : find_tag_lvl (log_port_output_lock s).g tag = none := hf
  have hu1 : find_unused_tag_lvl (log_port_output_lock s).g = some i := hu
  unfold log_set_filter_tag_lvl
  simp only [hl1, if_false, hinit, Bool.not_true, Bool.false_eq_true, hf1, hu1, ne_eq, hne,
    not_false_eq_true, if_true]
  rw [(quiet_unlock _).1]
  rfl

theorem set_tbl_same (p : Port) (tag : List Nat) (level : Nat) (s : Sys)
    (hf : find_tag_lvl s.g tag = none)
    (h : level = LOG_FILTER_LVL_ALL ∨ find_unused_tag_lvl s.g = none) :
    (log_set_filter_tag_lvl p (some tag) level s).g.filter = s.g.filter := by
  unfold log_set_filter_tag_lvl
  split
  · exact (sameSettings_log_a _ _ _ _ _).1
  simp only []
  split
  · rfl
  have hf1 : find_tag_lvl (log_port_output_lock s).g tag = none := hf
  simp only [hf1]
  rw [(quiet_unlock _).1]
  rcases h with h | h
  · simp only [h, ne_eq, not_true_eq_false, if_false]
    rfl
  · have hu1 : find_unused_tag_lvl (log_port_output_lock s).g = none := h
    simp only [hu1]
    split <;> rfl

theorem set_tbl_rejected (p : Port) (tag : Option (List Nat)) (level : Nat) (s : Sys)
    (h : level > LOG_LVL_VERBOSE ∨ tag = none ∨ s.g.init_ok = false) :
    (log_set_filter_tag_lvl p tag level s).g.filter = s.g.filter := by
  unfold log_set_filter_tag_lvl
  split
  · exact (sameSettings_log_a _ _ _ _ _).1
  cases tag with
  | none => exact (sameSettings_log_a _ _ _ _ _).1
  | some t =>
    rcases h with h | h | h
    · contradiction
    · cases h
    · simp only [h, Bool.not_false, if_true]

theorem find_tag_lvl_spec (g : log_t) (tag : List Nat) (i : Nat)
    (h : find_tag_lvl g tag = some i) :
    i < LOG_FILTER_TAG_LVL_MAX_NUM ∧ (g.filter.tag_lvl i).tag_use_flag = true ∧
      (cstr tag).take LOG_FILTER_TAG_MAX_LEN =
        (cstr (g.filter.tag_lvl i).tag).take LOG_FILTER_TAG_MAX_LEN := by
  unfold find_tag_lvl at h
  have hm := List.mem_of_find?_eq_some h
  have hp := List.find?_some h
  rw [List.mem_range] at hm
  unfold tag_lvl_match at hp
  simp only [Bool.and_eq_true, beq_iff_eq] at hp
  exact ⟨hm, hp.1, (strncmp_eq_zero_iff _ _ _).mp hp.2⟩

theorem find_tag_lvl_none_iff (g : log_t) (tag : List Nat) :
    find_tag_lvl g tag = none ↔
      ∀ i, i < LOG_FILTER_TAG_LVL_MAX_NUM → (g.filter.tag_lvl i).tag_use_flag = true →
        (cstr tag).take LOG_FILTER_TAG_MAX_LEN ≠
          (cstr (g.filter.tag_lvl i).tag).take LOG_FILTER_TAG_MAX_LEN := by
  unfold find_tag_lvl
  rw [List.find?_eq_none]
  constructor
  · intro h i hi hu he
    have := h i (List.mem_range.mpr hi)
    unfold tag_lvl_match at this
    rw [hu, (strncmp_eq_zero_iff _ _ _).mpr he] at this
    simp at this
  · intro h i hi
    rw [List.mem_range] at hi
    unfold tag_lvl_match
    simp only [Bool.and_eq_true, beq_iff_eq, not_and]
    intro hu he
    exact h i hi hu ((strncmp_eq_zero_iff _ _ _).mp he)

theorem tag_lvl_distinct_congr (g1 g2 : log_t) (h : g1.filter = g2.filter)
    (hd : tag_lvl_distinct g2) : tag_lvl_distinct g1 := by
  unfold tag_lvl_distinct at hd ⊢
  rw [h]
  exact hd

theorem tag_lvl_distinct_of_subset (g1 g2 : log_t)
    (h : ∀ j, (g1.filter.tag_lvl j).tag_use_flag = true →
      (g2.filter.tag_lvl j).tag_use_flag = true ∧
        (g1.filter.tag_lvl j).tag = (g2.filter.tag_lvl j).tag)
    (hd : tag_lvl_distinct g2) : tag_lvl_distinct g1 := by
  intro i j hi hj hui huj he
  obtain ⟨a1, a2⟩ := h i hui
  obtain ⟨b1, b2⟩ := h j huj
  rw [a2, b2] at he
  exact hd i j hi hj a1 b1 he

theorem tag_lvl_distinct_step (p : Port) (tag : Option (List Nat)) (level : Nat) (s : Sys)
    (hd : tag_lvl_distinct s.g) : tag_lvl_distinct (log_set_filter_tag_lvl p tag level s).g := by
  by_cases hl : level > LOG_LVL_VERBOSE
  · exact tag_lvl_distinct_congr _ _ (set_tbl_rejected p tag level s (Or.inl hl)) hd
  cases tag with
  | none => exact tag_lvl_distinct_congr _ _ (set_tbl_rejected p none level s (Or.inr (Or.inl rfl))) hd
  | some t =>
    cases hinit : s.g.init_ok with
    | false =>
      exact tag_lvl_distinct_congr _ _
        (set_tbl_rejected p (some t) level s (Or.inr (Or.inr hinit))) hd
    | true =>
      have hl1 : level ≤ LOG_LVL_VERBOSE := by omega
      cases hf : find_tag_lvl s.g t with
      | some i =>
        apply tag_lvl_distinct_of_subset _ s.g _ hd
        intro j
        rw [set_tbl_found p t level s i hinit hl1 hf]
        by_cases hji : j = i
        · subst hji
          split
          · simp
          · simp
        · split
          · simp [Function.update_noteq hji]
          · simp [Function.update_noteq hji]
      | none =>
        by_cases hall : level = LOG_FILTER_LVL_ALL
        · exact tag_lvl_distinct_congr _ _ (set_tbl_same p t level s hf (Or.inl hall)) hd
        cases hu : find_unused_tag_lvl s.g with
        | none =>
          exact tag_lvl_distinct_congr _ _ (set_tbl_same p t level s hf (Or.inr hu)) hd
        | some i =>
          have hnone := (find_tag_lvl_none_iff s.g t).mp hf
          intro a b ha hb hua hub he
          rw [set_tbl_new p t level s i hinit hl1 hall hf hu] at hua hub he
          by_cases hai : a = i
          · by_cases hbi : b = i
            · rw [hai, hbi]
            · exfalso
              subst hai
              simp only [Function.update_same, Function.update_noteq hbi] at hub he
              rw [take_cstr_strncpy] at he
              exact hnone b hb hub he
          · by_cases hbi : b = i
            · exfalso
              subst hbi
              simp only [Function.update_same, Function.update_noteq hai] at hua he
              rw [take_cstr_strncpy] at he
              exact hnone a ha hua he.symm
            · simp only [Function.update_noteq hai, Function.update_noteq hbi] at hua hub he
              exact hd a b ha hb hua hub he

theorem tag_lvl_distinct_of_unused (g : log_t)
    (h : ∀ i, i < LOG_FILTER_TAG_LVL_MAX_NUM → (g.filter.tag_lvl i).tag_use_flag = false) :
    tag_lvl_distinct g := by
  intro i j hi _ hui
  rw [h i hi] at hui
  cases hui

theorem tag_lvl_distinct_run (calls : List (Port × Option (List Nat) × Nat)) (s : Sys)
    (hd : tag_lvl_distinct s.g) : tag_lvl_distinct (run_set_calls s calls).g := by
  induction calls generalizing s with
  | nil => exact hd
  | cons c cs ih =>
    unfold run_set_calls
    rw [List.foldl_cons]
    exact ih _ (tag_lvl_distinct_step _ _ _ _ hd)

theorem used_count_congr (g1 g2 : log_t)
    (h : ∀ j, (g1.filter.tag_lvl j).tag_use_flag = (g2.filter.tag_lvl j).tag_use_flag) :
    used_count g1 = used_count g2 := by
  unfold used_count
  congr 2
  funext j
  rw [h j]

/-- C11, as stated, fails in initialised states in which the mutex is locked or the switch of
the lock is off.  By the pairing of `log_set_filter_tag_lvl`: after `log_init()` and
`log_output_lock_enabled(false)` a slot is unused and `log_set_filter_tag_lvl("main", 3)`
returns with the mutex still locked, so the call `log_get_filter_tag_lvl("main")` right
after it waits for ever in `pthread_mutex_lock`, the second port call.  By the use of a
mutex that is not recursive: after `log_init()` and `log_output_lock()` the caller holds the
mutex and `log_set_filter_tag_lvl("main", 3)` itself waits for ever. -/
theorem get_after_set_waits_for_locked_mutex :
    (ex_lock_off.g.init_ok = true ∧ (find_unused_tag_lvl ex_lock_off.g).isSome = true ∧
      ex_lock_off.mutex_held = false ∧ ex_lock_off.blocked_at = none ∧
      (log_set_filter_tag_lvl ex_port (some (str "main")) 3 ex_lock_off).blocked_at = none ∧
      (log_set_filter_tag_lvl ex_port (some (str "main")) 3 ex_lock_off).mutex_held = true ∧
      (log_get_filter_tag_lvl (str "main")
        (log_set_filter_tag_lvl ex_port (some (str "main")) 3 ex_lock_off)).2.blocked_at =
        some 2) ∧
    (ex_caller_locked.g.init_ok = true ∧
      (find_unused_tag_lvl ex_caller_locked.g).isSome = true ∧
      ex_caller_locked.mutex_held = true ∧ ex_caller_locked.blocked_at = none ∧
      (log_set_filter_tag_lvl ex_port (some (str "main")) 3 ex_caller_locked).blocked_at =
        some 2) := by
  refine ⟨⟨by decide!, by decide!, by decide!, by decide!, by decide!, by decide!,
    by decide!⟩, ⟨by decide!, by decide!, by decide!, by decide!, by decide!⟩⟩

/-- C11, amended. In an initialised logger with the lock switched on, the mutex not locked
and the thread not blocked, for a tag and a level in 0..5: when the tag has a slot, or a slot
is unused, or the level is `LOG_FILTER_LVL_ALL`, then `log_set_filter_tag_lvl(tag, level)`
returns and right after it the call `log_get_filter_tag_lvl(tag)` returns, with the level as
its result (for the level `LOG_FILTER_LVL_ALL` the table is taken in a state in which no two
used slots hold the same tag, which every sequence of setter calls keeps); and in any state
in which the mutex is not locked `log_get_filter_tag_lvl` returns, with the result
`LOG_FILTER_LVL_ALL`, for every tag that no used slot holds. -/
theorem get_after_set_filter_tag_lvl (p : Port) (tag : List Nat) (level : Nat) (s : Sys)
    (hinit : s.g.init_ok = true) (hl : level ≤ LOG_LVL_VERBOSE)
    (hlock : s.g.output_lock_enabled = true) (hfree : s.mutex_held = false)
    (hrun : s.blocked_at = none)
    (hinv : level = LOG_FILTER_LVL_ALL → tag_lvl_distinct s.g)
    (h : (find_tag_lvl s.g tag).isSome = true ∨ (find_unused_tag_lvl s.g).isSome = true ∨
      level = LOG_FILTER_LVL_ALL) :
    ((log_set_filter_tag_lvl p (some tag) level s).blocked_at = none ∧
      (log_get_filter_tag_lvl tag
        (log_set_filter_tag_lvl p (some tag) level s)).2.blocked_at = none ∧
      (log_get_filter_tag_lvl tag (log_set_filter_tag_lvl p (some tag) level s)).1 =
        (level : Int)) ∧
      ∀ (t : List Nat) (s2 : Sys), s2.mutex_held = false → s2.blocked_at = none →
        (∀ i, i < LOG_FILTER_TAG_LVL_MAX_NUM → (s2.g.filter.tag_lvl i).tag_use_flag = true →
          (cstr t).take LOG_FILTER_TAG_MAX_LEN ≠
            (cstr (s2.g.filter.tag_lvl i).tag).take LOG_FILTER_TAG_MAX_LEN) →
        (log_get_filter_tag_lvl t s2).2.blocked_at = none ∧
          (log_get_filter_tag_lvl t s2).1 = (LOG_FILTER_LVL_ALL : Int) := by
  obtain ⟨n1, n2⟩ := noWait_set_filter_tag_lvl p (some tag) level s
  obtain ⟨n3, n4⟩ := n2 hfree
  have hrun1 : (log_set_filter_tag_lvl p (some tag) level s).blocked_at = none :=
    n3.trans hrun
  have hfree1 : (log_set_filter_tag_lvl p (some tag) level s).mutex_held = false := n4 hlock
  refine ⟨⟨hrun1, ((noWait_get tag _).2 hfree1).1.trans hrun1, ?_⟩, fun t s2 hf2 hr2 hno =>
    ⟨((noWait_get t s2).2 hf2).1.trans hr2,
      get_filter_tag_lvl_of_none t s2 ((find_tag_lvl_none_iff s2.g t).mpr hno)⟩⟩
  by_cases hall : level = LOG_FILTER_LVL_ALL
  · have hd := hinv hall
    rw [hall]
    apply get_filter_tag_lvl_of_none
    cases hf : find_tag_lvl s.g tag with
    | none =>
      rw [find_tag_lvl_congr _ s.g tag (set_tbl_same p tag _ s hf (Or.inl rfl))]
      exact hf
    | some i =>
      obtain ⟨hi, hui, hkey⟩ := find_tag_lvl_spec s.g tag i hf
      rw [find_tag_lvl_none_iff]
      intro j hj
      rw [set_tbl_found p tag _ s i hinit (le_refl _) hf]
      simp only [if_true]
      by_cases hji : j = i
      · subst hji
        simp
      · simp only [Function.update_noteq hji]
        intro huj he
        exact hji (hd j i hj hi huj hui (he.symm.trans hkey))
  · have hslot : (find_tag_lvl s.g tag).isSome = true ∨
        (find_unused_tag_lvl s.g).isSome = true := by
      rcases h with h | h | h
      · exact Or.inl h
      · exact Or.inr h
      · exact absurd h hall
    obtain ⟨ht, i, hfi, hlev⟩ := set_filter_tag_lvl_spec p tag level s hinit hl hall hslot
    have hinit1 : (log_set_filter_tag_lvl p (some tag) level s).g.init_ok = true :=
      ht.2.2.2.2.1.trans hinit
    rw [get_filter_tag_lvl_of_some tag _ i hinit1 hfi, hlev]

/-- C11, amended, in the example logger: the level 3 is set for "main" and read back, then
the override is removed with `LOG_FILTER_LVL_ALL` and 5 is read back, and the tag "net" has
no slot in the example logger. -/
theorem get_after_set_filter_tag_lvl_witness :
    ex_sys.g.init_ok = true ∧ 3 ≤ LOG_LVL_VERBOSE ∧ ex_sys.g.output_lock_enabled = true ∧
      ex_sys.mutex_held = false ∧ ex_sys.blocked_at = none ∧
      (log_get_filter_tag_lvl (str "main")
        (log_set_filter_tag_lvl ex_port (some (str "main")) 3 ex_sys)).2.blocked_at = none ∧
      (log_get_filter_tag_lvl (str "main")
        (log_set_filter_tag_lvl ex_port (some (str "main")) 3 ex_sys)).1 = 3 ∧
      (log_get_filter_tag_lvl (str "main")
        (log_set_filter_tag_lvl ex_port (some (str "main")) LOG_FILTER_LVL_ALL
          (log_set_filter_tag_lvl ex_port (some (str "main")) 3 ex_sys))).1 = 5 ∧
      (log_get_filter_tag_lvl (str "net") ex_sys).1 = (LOG_FILTER_LVL_ALL : Int) :=
  ⟨rfl, by decide, rfl, rfl, rfl,
    (get_after_set_filter_tag_lvl ex_port (str "main") 3 ex_sys rfl (by decide) rfl rfl rfl
      (fun h => absurd h (by decide)) (Or.inr (Or.inl (by decide)))).1.2.1,
    (get_after_set_filter_tag_lvl ex_port (str "main") 3 ex_sys rfl (by decide) rfl rfl rfl
      (fun h => absurd h (by decide)) (Or.inr (Or.inl (by decide)))).1.2.2,
    (get_after_set_filter_tag_lvl ex_port (str "main") LOG_FILTER_LVL_ALL
      (log_set_filter_tag_lvl ex_port (some (str "main")) 3 ex_sys) rfl (by decide)
      (by decide!) (by decide!) (by decide!)
      (fun _ => tag_lvl_distinct_step _ _ _ _
        (tag_lvl_distinct_of_unused _ (fun _ _ => rfl))) (Or.inr (Or.inr rfl))).1.2.2,
    ((get_after_set_filter_tag_lvl ex_port (str "main") 3 ex_sys rfl (by decide) rfl rfl rfl
      (fun h => absurd h (by decide)) (Or.inr (Or.inl (by decide)))).2 (str "net") ex_sys
      rfl rfl (fun i _ hu => absurd hu (by simp [ex_sys, ex_g]))).2⟩

/-- C12. From a table with every slot unused, after any sequence of
`log_set_filter_tag_lvl` calls (valid or rejected ones) no two used slots hold the same tag:
their first `LOG_FILTER_TAG_MAX_LEN` characters differ, hence so do the stored tags.  And in
any initialised state, setting a valid level other than `LOG_FILTER_LVL_ALL` for a tag
that has a slot changes the level of that slot and nothing else in the table; the number of
used slots stays the same. -/
theorem tag_lvl_table_invariant (s : Sys) (calls : List (Port × Option (List Nat) × Nat))
    (h0 : ∀ i, i < LOG_FILTER_TAG_LVL_MAX_NUM → (s.g.filter.tag_lvl i).tag_use_flag = false) :
    tag_lvl_distinct (run_set_calls s calls).g ∧
      (∀ i j, i < LOG_FILTER_TAG_LVL_MAX_NUM → j < LOG_FILTER_TAG_LVL_MAX_NUM → i ≠ j →
        ((run_set_calls s calls).g.filter.tag_lvl i).tag_use_flag = true →
        ((run_set_calls s calls).g.filter.tag_lvl j).tag_use_flag = true →
        cstr ((run_set_calls s calls).g.filter.tag_lvl i).tag ≠
          cstr ((run_set_calls s calls).g.filter.tag_lvl j).tag) ∧
      ∀ (t : Sys) (p : Port) (tag : List Nat) (level i : Nat),
        t.g.init_ok = true → level ≤ LOG_LVL_VERBOSE → level ≠ LOG_FILTER_LVL_ALL →
        find_tag_lvl t.g tag = some i →
        (log_set_filter_tag_lvl p (some tag) level t).g.filter.tag_lvl =
            Function.update t.g.filter.tag_lvl i { t.g.filter.tag_lvl i with level := level } ∧
          used_count (log_set_filter_tag_lvl p (some tag) level t).g = used_count t.g := by
  have hd := tag_lvl_distinct_run calls s (tag_lvl_distinct_of_unused s.g h0)
  refine ⟨hd, ?_, ?_⟩
  · intro i j hi hj hij hui huj he
    exact hij (hd i j hi hj hui huj (by rw [he]))
  · intro t p tag level i hinit hl hne hf
    have htbl := set_tbl_found p tag level t i hinit hl hf
    rw [if_neg hne] at htbl
    refine ⟨htbl, used_count_congr _ _ ?_⟩
    intro j
    rw [htbl]
    by_cases hji : j = i
    · subst hji; simp
    · simp [Function.update_noteq hji]

/-- C12, in the example logger: five calls, among them a repeated tag, a removal and two
rejected calls; then the level of "net" is changed in place. -/
theorem tag_lvl_table_invariant_witness :
    (∀ i, i < LOG_FILTER_TAG_LVL_MAX_NUM → (ex_sys.g.filter.tag_lvl i).tag_use_flag = false) ∧
      tag_lvl_distinct (run_set_calls ex_sys
        [(ex_port, some (str "main"), 3), (ex_port, some (str "net"), 2),
          (ex_port, some (str "main"), 5), (ex_port, none, 1),
          (ex_port, some (str "net"), 9)]).g ∧
      used_count (log_set_filter_tag_lvl ex_port (some (str "net")) 4
          (log_set_filter_tag_lvl ex_port (some (str "net")) 2 ex_sys)).g =
        used_count (log_set_filter_tag_lvl ex_port (some (str "net")) 2 ex_sys).g :=
  ⟨fun _ _ => rfl,
    (tag_lvl_table_invariant ex_sys
      [(ex_port, some (str "main"), 3), (ex_port, some (str "net"), 2),
        (ex_port, some (str "main"), 5), (ex_port, none, 1),
        (ex_port, some (str "net"), 9)] (fun _ _ => rfl)).1,
    ((tag_lvl_table_invariant ex_sys [] (fun _ _ => rfl)).2.2
      (log_set_filter_tag_lvl ex_port (some (str "net")) 2 ex_sys) ex_port (str "net") 4 0
      rfl (by decide) (by decide) (by decide!)).2⟩

theorem get_filter_tag_lvl_lock_off (tag : List Nat) (s : Sys) (hinit : s.g.init_ok = true)
    (hoff : s.g.output_lock_enabled = false) :
    (log_get_filter_tag_lvl tag s).2.trace = s.trace ++ [Event.lock] ∧
      (log_get_filter_tag_lvl tag s).2.g.output_lock_enabled = false := by
  unfold log_get_filter_tag_lvl log_output_unlock log_port_output_lock
  simp [hinit, hoff]

theorem output_lock_off (s : Sys) (hoff : s.g.output_lock_enabled = false) :
    (log_output_lock s).trace = s.trace ∧ (log_output_lock s).g.output_lock_enabled = false := by
  unfold log_output_lock
  simp [hoff]

theorem output_unlock_trace (s : Sys) :
    (log_output_unlock s).trace =
      if s.g.output_lock_enabled then s.trace ++ [Event.unlock] else s.trace := by
  unfold log_output_unlock
  split <;> rfl

theorem finish_lock_off (st : Line) (s : Sys) (hoff : s.g.output_lock_enabled = false) :
    lock_count (log_output_finish st s).trace = lock_count s.trace ∧
      unlock_count (log_output_finish st s).trace = unlock_count s.trace := by
  unfold log_output_finish
  by_cases hk : s.g.filter.keyword.headD 0 = 0
  · simp only [hk, ne_eq, not_true_eq_false, if_false, output_unlock_trace]
    simp [log_file_write, log_port_output, lock_count, unlock_count, hoff]
  · by_cases hn : (strstr (mem_read (Function.update st.1 st.2 0) LOG_LINE_BUF_SIZE)
        s.g.filter.keyword).isNone = true
    · simp only [ne_eq, hk, not_false_eq_true, if_true, hn, output_unlock_trace]
      simp [hoff]
    · simp only [ne_eq, hk, not_false_eq_true, if_true, hn, if_false, output_unlock_trace,
        Bool.false_eq_true]
      simp [log_file_write, log_port_output, lock_count, unlock_count, hoff]

/-- C17, what the code does: with the lock switched off, a `log_output` call in an
initialised logger with output enabled, for a valid level that the global level filter lets
through, makes one `pthread_mutex_lock` call (the one of `log_get_filter_tag_lvl`) and no
`pthread_mutex_unlock` call. -/
theorem log_output_lock_off_takes_mutex (p : Port) (level : Nat) (tag file func : List Nat)
    (line : Int) (msg : List Nat) (s : Sys) (hinit : s.g.init_ok = true)
    (hen : s.g.output_enabled = true) (hl : level ≤ LOG_LVL_VERBOSE)
    (hlv : level ≤ s.g.filter.level) (hoff : s.g.output_lock_enabled = false) :
    lock_count (log_output p level tag file func line msg s).trace = lock_count s.trace + 1 ∧
      unlock_count (log_output p level tag file func line msg s).trace =
        unlock_count s.trace := by
  have hl1 : ¬ level > LOG_LVL_VERBOSE := by omega
  have hlv1 : ¬ level > s.g.filter.level := by omega
  obtain ⟨ht, ho⟩ := get_filter_tag_lvl_lock_off tag s hinit hoff
  have hc : lock_count (log_get_filter_tag_lvl tag s).2.trace = lock_count s.trace + 1 ∧
      unlock_count (log_get_filter_tag_lvl tag s).2.trace = unlock_count s.trace := by
    rw [ht]
    simp [lock_count, unlock_count]
  unfold log_output
  rw [if_neg hl1]
  unfold log_output_body
  simp only [hinit, hen, hlv1, Bool.not_true, Bool.false_eq_true, if_false]
  split
  · exact hc
  split
  · exact hc
  obtain ⟨ht1, ho1⟩ := output_lock_off _ ho
  obtain ⟨f1, f2⟩ := finish_lock_off
    (log_output_format (log_output_lock (log_get_filter_tag_lvl tag s).2).g p level tag file
      func line msg (log_output_lock (log_get_filter_tag_lvl tag s).2).log_buf)
    (log_output_lock (log_get_filter_tag_lvl tag s).2) ho1
  rw [f1, f2, ht1]
  exact hc

/-- C17, the failing input: the example logger with the lock switched off, a Warn record
"Hello" with tag "main"; the port calls are one mutex lock, the console output and the file
write, and no unlock. -/
theorem log_output_lock_off_takes_mutex_witness :
    issued { ex_sys with g := { ex_g with output_lock_enabled := false } }
        (log_output ex_port LOG_LVL_WARN (str "main") (str "main.c") (str "main") 10
          (str "Hello") { ex_sys with g := { ex_g with output_lock_enabled := false } }) =
        [Event.lock, Event.output (str "W/main     Hello\n"),
          Event.file_write (str "W/main     Hello\n")] ∧
      lock_count (log_output ex_port LOG_LVL_WARN (str "main") (str "main.c") (str "main") 10
          (str "Hello") { ex_sys with g := { ex_g with output_lock_enabled := false } }).trace =
        1 ∧
      unlock_count (log_output ex_port LOG_LVL_WARN (str "main") (str "main.c") (str "main")
          10 (str "Hello")
          { ex_sys with g := { ex_g with output_lock_enabled := false } }).trace = 0 :=
  ⟨by decide!,
    (log_output_lock_off_takes_mutex ex_port LOG_LVL_WARN (str "main") (str "main.c")
      (str "main") 10 (str "Hello")
      { ex_sys with g := { ex_g with output_lock_enabled := false } } rfl rfl (by decide)
      (by decide) rfl).1,
    (log_output_lock_off_takes_mutex ex_port LOG_LVL_WARN (str "main") (str "main.c")
      (str "main") 10 (str "Hello")
      { ex_sys with g := { ex_g with output_lock_enabled := false } } rfl rfl (by decide)
      (by decide) rfl).2⟩

/-- C18, as stated, fails: after `log_init`, the calls `log_output_lock()`,
`log_output_lock_enabled(false)`, `log_output_lock_enabled(true)` make the last call issue
one `pthread_mutex_unlock` and no `pthread_mutex_lock`. -/
theorem reenable_after_lock_issues_unlock :
    issued
        (log_output_lock_enabled false (log_output_lock (log_init ex_port start_sys)))
        (log_output_lock_enabled true
          (log_output_lock_enabled false (log_output_lock (log_init ex_port start_sys)))) =
      [Event.unlock] := by
  decide!

/-- C18, amended. From the state after `log_init` on the zeroed logger, whatever the
platform supplies, and from any other state in which the lock is switched on, the calls
`log_output_lock()`, `log_output_lock_enabled(false)`, `log_output_lock_enabled(true)` make
the last call issue no `pthread_mutex_lock`. -/
theorem reenable_after_lock_issues_no_lock (p : Port) (s : Sys)
    (hs : s = log_init p start_sys ∨ s.g.output_lock_enabled = true) :
    lock_count (issued
        (log_output_lock_enabled false (log_output_lock s))
        (log_output_lock_enabled true
          (log_output_lock_enabled false (log_output_lock s)))) = 0 := by
  have hon : s.g.output_lock_enabled = true := by
    rcases hs with h | h
    · rw [h]
      rfl
    · exact h
  have h1 : log_output_lock s =
      { log_port_output_lock s with
        g := { s.g with output_is_locked_before_disable := true } } := by
    unfold log_output_lock
    rw [if_pos hon]
    rfl
  rw [h1]
  unfold log_output_lock_enabled issued lock_count
  cases hb : s.g.output_is_locked_before_enable <;>
    simp [hb, log_port_output_unlock, log_port_output_lock]

/-- C18, amended, from the state after `log_init` with the sample platform values. -/
theorem reenable_after_lock_issues_no_lock_witness :
    lock_count (issued
        (log_output_lock_enabled false (log_output_lock (log_init ex_port start_sys)))
        (log_output_lock_enabled true
          (log_output_lock_enabled false
            (log_output_lock (log_init ex_port start_sys))))) = 0 :=
  reenable_after_lock_issues_no_lock ex_port (log_init ex_port start_sys) (Or.inl rfl)

/-- C19, the failing input: after `log_init`, the calls `log_output_lock()`,
`log_output_lock_enabled(false)`, `log_output_lock_enabled(true)`, `log_output_unlock()`
alternate as required and end with an unlock while the lock is switched on, yet they
issue one `pthread_mutex_lock` and two `pthread_mutex_unlock`. -/
theorem toggle_while_locked_unlocks_twice :
    alternates false [LockCall.lock, LockCall.enable false, LockCall.enable true,
        LockCall.unlock] = true ∧
      (run_lock_calls (log_init ex_port start_sys)
        [LockCall.lock, LockCall.enable false, LockCall.enable true,
          LockCall.unlock]).g.output_lock_enabled = true ∧
      (run_lock_calls (log_init ex_port start_sys)
        [LockCall.lock, LockCall.enable false, LockCall.enable true,
          LockCall.unlock]).trace = [Event.lock, Event.unlock, Event.unlock] ∧
      lock_count (run_lock_calls (log_init ex_port start_sys)
        [LockCall.lock, LockCall.enable false, LockCall.enable true,
          LockCall.unlock]).trace = 1 ∧
      unlock_count (run_lock_calls (log_init ex_port start_sys)
        [LockCall.lock, LockCall.enable false, LockCall.enable true,
          LockCall.unlock]).trace = 2 := by
  decide!

/-! ## The rotating file sink: rotation -/

namespace Sink

theorem rotate_path_fits (name text : List Nat) (hfit : strlen name + SUFFIX_LEN ≤ PATH_SIZE) :
    rotate_path name text = some (cstr name ++ text.take (SUFFIX_LEN - 1)) := by
  unfold rotate_path
  have h1 : (text.take (SUFFIX_LEN - 1)).length ≤ 9 := by
    rw [List.length_take]
    exact Nat.min_le_left _ _
  have h2 : SUFFIX_LEN = 10 := rfl
  have h3 : PATH_SIZE = 256 := rfl
  rw [if_pos (by omega)]

theorem rotate_path_source (name : List Nat) (n : Nat)
    (hfit : strlen name + SUFFIX_LEN ≤ PATH_SIZE) :
    rotate_path name (if n ≠ 0 then dot_d ((n : Int) - 1) else []) =
      some (rot_source name n) := by
  rw [rotate_path_fits _ _ hfit]
  unfold rot_source rot_name
  by_cases hn : n = 0
  · subst hn
    simp
  · simp only [ne_eq, hn, not_false_eq_true, if_true]
    have : ((n - 1 : Nat) : Int) = (n : Int) - 1 := by omega
    rw [this]

theorem rot_name_ne_name (name : List Nat) (n : Nat) : rot_name name n ≠ cstr name := by
  intro h
  have := congrArg List.length h
  unfold rot_name dot_d at this
  simp at this

theorem rot_source_ne (name : List Nat) (R n : Nat) (hn : n < R)
    (hdist : ∀ i j, i < R → j < R → rot_name name i = rot_name name j → i = j) :
    rot_source name n ≠ rot_name name n := by
  unfold rot_source
  by_cases h0 : n = 0
  · simp only [h0, ne_eq, not_true_eq_false, if_false]
    exact fun h => rot_name_ne_name name 0 h.symm
  · simp only [ne_eq, h0, not_false_eq_true, if_true]
    intro h
    have := hdist (n - 1) n (by omega) hn h
    omega

/-- The state after one pass of the loop body that is not a failing `rename`. -/
theorem rotate_step_ok (name : List Nat) (n : Nat) (err : Int) (st : file_t)
    (hfit : strlen name + SUFFIX_LEN ≤ PATH_SIZE) (herr : 0 ≤ err)
    (hne : rot_source name n ≠ rot_name name n)
    (hno : (st.files (rot_source name n)).isSome = true →
      st.rename_fails (rot_source name n) (rot_name name n) = false) :
    ∃ e st1, rotate_step name n err st = some (e, st1) ∧ 0 ≤ e ∧
      (∀ x, st1.files x =
        if x = rot_name name n then st.files (rot_source name n)
        else if x = rot_source name n then none else st.files x) ∧
      st1.fp = st.fp ∧ st1.name = st.name ∧ st1.max_size = st.max_size ∧
      st1.max_rotate = st.max_rotate ∧ st1.semid = st.semid ∧
      st1.rename_fails = st.rename_fails ∧
      ∃ l, st1.ops = st.ops ++ l ∧ ∀ op ∈ l,
        op = FileOp.remove (rot_name name n) ∨
          op = FileOp.rename (rot_source name n) (rot_name name n) 0 := by
  unfold rotate_step
  rw [rotate_path_source _ _ hfit, rotate_path_fits _ _ hfit]
  change ∃ e st1, some (if ((if (st.files (rot_name name n)).isSome = true then
      remove (rot_name name n) st else st).files (rot_source name n)).isSome = true then
        rename (rot_source name n) (rot_name name n)
          (if (st.files (rot_name name n)).isSome = true then remove (rot_name name n) st
            else st)
      else (err, if (st.files (rot_name name n)).isSome = true then
        remove (rot_name name n) st else st)) = some (e, st1) ∧ _
  have hsrc : (if (st.files (rot_name name n)).isSome = true then
      remove (rot_name name n) st else st).files (rot_source name n) =
        st.files (rot_source name n) := by
    split
    · simp [remove, Function.update_noteq hne]
    · rfl
  rw [hsrc]
  by_cases hnew : (st.files (rot_name name n)).isSome = true
  · simp only [hnew, if_true]
    by_cases hold : (st.files (rot_source name n)).isSome = true
    · have hf : (remove (rot_name name n) st).rename_fails (rot_source name n)
          (rot_name name n) = false := hno hold
      simp only [hold, if_true, rename, hf, Bool.false_eq_true, if_false]
      refine ⟨_, _, rfl, le_refl _, ?_, rfl, rfl, rfl, rfl, rfl, rfl,
        [FileOp.remove (rot_name name n),
          FileOp.rename (rot_source name n) (rot_name name n) 0], ?_, ?_⟩
      · intro x
        by_cases hx : x = rot_name name n
        · subst hx
          simp [remove, Function.update_noteq hne]
        · by_cases hx2 : x = rot_source name n
          · subst hx2
            simp [remove, Function.update_noteq hx, hx]
          · simp [remove, Function.update_noteq hx, Function.update_noteq hx2, hx, hx2]
      · simp [remove]
      · intro op hop
        simpa using hop
    · simp only [hold, Bool.false_eq_true, if_false]
      refine ⟨_, _, rfl, herr, ?_, rfl, rfl, rfl, rfl, rfl, rfl,
        [FileOp.remove (rot_name name n)], rfl, ?_⟩
      · intro x
        have hnone : st.files (rot_source name n) = none := by
          cases h : st.files (rot_source name n) with
          | none => rfl
          | some c => rw [h] at hold; simp at hold
        by_cases hx : x = rot_name name n
        · subst hx
          simp [remove, hnone]
        · by_cases hx2 : x = rot_source name n
          · subst hx2
            simp [remove, Function.update_noteq hx, hx, hnone]
          · simp [remove, Function.update_noteq hx, hx, hx2]
      · intro op hop
        left
        simpa using hop
  · simp only [hnew, Bool.false_eq_true, if_false]
    have hnnone : st.files (rot_name name n) = none := by
      cases h : st.files (rot_name name n) with
      | none => rfl
      | some c => rw [h] at hnew; simp at hnew
    by_cases hold : (st.files (rot_source name n)).isSome = true
    · have hf : st.rename_fails (rot_source name n) (rot_name name n) = false := hno hold
      simp only [hold, if_true, rename, hf, Bool.false_eq_true, if_false]
      refine ⟨_, _, rfl, le_refl _, ?_, rfl, rfl, rfl, rfl, rfl, rfl,
        [FileOp.rename (rot_source name n) (rot_name name n) 0], rfl, ?_⟩
      · intro x
        by_cases hx : x = rot_name name n
        · subst hx
          simp
        · by_cases hx2 : x = rot_source name n
          · subst hx2
            simp [Function.update_noteq hx, hx]
          · simp [Function.update_noteq hx, Function.update_noteq hx2, hx, hx2]
      · intro op hop
        right
        simpa using hop
    · simp only [hold, Bool.false_eq_true, if_false]
      have hnone : st.files (rot_source name n) = none := by
        cases h : st.files (rot_source name n) with
        | none => rfl
        | some c => rw [h] at hold; simp at hold
      refine ⟨_, _, rfl, herr, ?_, rfl, rfl, rfl, rfl, rfl, rfl, [], by simp, by simp⟩
      intro x
      by_cases hx : x = rot_name name n
      · subst hx
        simp [hnnone, hnone]
      · by_cases hx2 : x = rot_source name n
        · subst hx2
          simp [hx, hnone]
        · simp [hx, hx2]

theorem rot_source_succ (name : List Nat) (k : Nat) :
    rot_source name (k + 1) = rot_name name k := by
  unfold rot_source
  simp

theorem rot_source_zero (name : List Nat) : rot_source name 0 = cstr name := by
  unfold rot_source
  simp

theorem rot_source_ne_rot (name : List Nat) (R i j : Nat) (hi : i < R) (hj : j < R)
    (hij : i ≠ j + 1)
    (hdist : ∀ i j, i < R → j < R → rot_name name i = rot_name name j → i = j) :
    rot_source name i ≠ rot_name name j := by
  cases i with
  | zero =>
    rw [rot_source_zero]
    exact fun h => rot_name_ne_name name j h.symm
  | succ i =>
    rw [rot_source_succ]
    intro h
    have := hdist i j (by omega) hj h
    omega

theorem rot_source_ne_source (name : List Nat) (R i j : Nat) (hi : i < R) (hj : j < R)
    (hij : i ≠ j)
    (hdist : ∀ i j, i < R → j < R → rot_name name i = rot_name name j → i = j) :
    rot_source name i ≠ rot_source name j := by
  cases j with
  | zero =>
    rw [rot_source_zero]
    cases i with
    | zero => exact absurd rfl hij
    | succ i =>
      rw [rot_source_succ]
      exact rot_name_ne_name name i
  | succ j =>
    rw [rot_source_succ]
    exact rot_source_ne_rot name R i j hi (by omega) hij hdist

/-- The passes of the loop for the indices `k - 1` down to `m`, none of them with a failing
`rename`: the loop goes on from index `m - 1` in a state in which the files with index `m`
to `k - 1` hold what their sources held. -/
theorem rotate_loop_run (name : List Nat) (R m : Nat)
    (hfit : strlen name + SUFFIX_LEN ≤ PATH_SIZE)
    (hdist : ∀ i j, i < R → j < R → rot_name name i = rot_name name j → i = j) :
    ∀ k, m ≤ k → k ≤ R → ∀ (err : Int) (st : file_t), 0 ≤ err →
      (∀ j, m ≤ j → j < k → st.rename_fails (rot_source name j) (rot_name name j) = false) →
      ∃ e st1, 0 ≤ e ∧ rotate_loop name k err st = rotate_loop name m e st1 ∧
        (∀ j, m ≤ j → j < k → st1.files (rot_name name j) = st.files (rot_source name j)) ∧
        (m < k → st1.files (rot_source name m) = none) ∧
        (∀ x, (m < k → x ≠ rot_source name m) → (∀ j, m ≤ j → j < k → x ≠ rot_name name j) →
          st1.files x = st.files x) ∧
        st1.fp = st.fp ∧ st1.name = st.name ∧ st1.max_size = st.max_size ∧
        st1.max_rotate = st.max_rotate ∧ st1.semid = st.semid ∧
        st1.rename_fails = st.rename_fails ∧
        ∃ l, st1.ops = st.ops ++ l ∧ ∀ op ∈ l, ∃ j, m ≤ j ∧ j < k ∧
          (op = FileOp.remove (rot_name name j) ∨
            op = FileOp.rename (rot_source name j) (rot_name name j) 0) := by
  intro k
  induction k with
  | zero =>
    intro hm _ err st herr _
    have hm0 : m = 0 := by omega
    subst hm0
    exact ⟨err, st, herr, rfl, fun j _ hj => absurd hj (by omega),
      fun h => absurd h (by omega), fun x _ _ => rfl, rfl, rfl, rfl, rfl, rfl, rfl, [],
      by simp, by simp⟩
  | succ k ih =>
    intro hm hk err st herr hno
    by_cases hmk : m = k + 1
    · subst hmk
      exact ⟨err, st, herr, rfl, fun j h1 h2 => absurd h2 (by omega),
        fun h => absurd h (by omega), fun x _ _ => rfl, rfl, rfl, rfl, rfl, rfl, rfl, [],
        by simp, by simp⟩
    have hmk1 : m ≤ k := by omega
    obtain ⟨e1, s1, hstep, he1, hfiles1, hfp1, hname1, hms1, hmr1, hsem1, hrf1, l1, hops1, hl1⟩ :=
      rotate_step_ok name k err st hfit herr
        (rot_source_ne name R k (by omega) hdist) (fun _ => hno k hmk1 (by omega))
    obtain ⟨e, st1, he, hrun, ha, hb, hc, hfp, hname, hms, hmr, hsem, hrf, l, hops, hl⟩ :=
      ih hmk1 (by omega) e1 s1 he1
        (fun j h1 h2 => by rw [hrf1]; exact hno j h1 (by omega))
    refine ⟨e, st1, he, ?_, ?_, ?_, ?_, hfp.trans hfp1, hname.trans hname1, hms.trans hms1,
      hmr.trans hmr1, hsem.trans hsem1, hrf.trans hrf1, l1 ++ l, ?_, ?_⟩
    · rw [rotate_loop, hstep]
      simp only [not_lt.mpr he1, if_false]
      exact hrun
    · intro j h1 h2
      by_cases hjk : j = k
      · subst hjk
        rw [hc (rot_name name j)
          (fun _ => (rot_source_ne_rot name R m j (by omega) (by omega) (by omega) hdist).symm)
          (fun i _ hi h => by have := hdist j i (by omega) (by omega) h; omega)]
        rw [hfiles1, if_pos rfl]
      · rw [ha j h1 (by omega), hfiles1,
          if_neg (rot_source_ne_rot name R j k (by omega) (by omega) (by omega) hdist),
          if_neg (rot_source_ne_source name R j k (by omega) (by omega) hjk hdist)]
    · intro _
      by_cases hmk2 : m = k
      · subst hmk2
        rw [hc (rot_source name m) (fun h => absurd h (by omega))
          (fun j h1 h2 => absurd h2 (by omega))]
        rw [hfiles1, if_neg (rot_source_ne name R m (by omega) hdist), if_pos rfl]
      · exact hb (by omega)
    · intro x hx1 hx2
      rw [hc x (fun _ => hx1 (by omega)) (fun j h1 h2 => hx2 j h1 (by omega)), hfiles1,
        if_neg (hx2 k hmk1 (by omega))]
      by_cases hmk2 : m = k
      · subst hmk2
        rw [if_neg (hx1 (by omega))]
      · have hk1 : rot_source name k = rot_name name (k - 1) := by
          obtain ⟨k1, rfl⟩ : ∃ k1, k = k1 + 1 := ⟨k - 1, by omega⟩
          exact rot_source_succ name k1
        rw [if_neg (by rw [hk1]; exact hx2 (k - 1) (by omega) (by omega))]
    · rw [hops, hops1, List.append_assoc]
    · intro op hop
      rcases List.mem_append.mp hop with h | h
      · exact ⟨k, hmk1, by omega, hl1 op h⟩
      · obtain ⟨j, h1, h2, h3⟩ := hl op h
        exact ⟨j, h1, by omega, h3⟩

/-- The pass of the loop body in which `rename` fails. -/
theorem rotate_step_fail (name : List Nat) (n : Nat) (err : Int) (st : file_t)
    (hfit : strlen name + SUFFIX_LEN ≤ PATH_SIZE)
    (hne : rot_source name n ≠ rot_name name n)
    (hex : (st.files (rot_source name n)).isSome = true)
    (hfail : st.rename_fails (rot_source name n) (rot_name name n) = true) :
    ∃ st1, rotate_step name n err st = some (-1, st1) ∧
      (∀ x, x ≠ rot_name name n → st1.files x = st.files x) ∧
      st1.fp = st.fp ∧ st1.name = st.name ∧ st1.max_size = st.max_size ∧
      st1.max_rotate = st.max_rotate ∧ st1.semid = st.semid ∧
      ∃ l, st1.ops = st.ops ++ l ++
          [FileOp.rename (rot_source name n) (rot_name name n) (-1)] ∧
        ∀ op ∈ l, op = FileOp.remove (rot_name name n) := by
  unfold rotate_step
  rw [rotate_path_source _ _ hfit, rotate_path_fits _ _ hfit]
  change ∃ st1, some (if ((if (st.files (rot_name name n)).isSome = true then
      remove (rot_name name n) st else st).files (rot_source name n)).isSome = true then
        rename (rot_source name n) (rot_name name n)
          (if (st.files (rot_name name n)).isSome = true then remove (rot_name name n) st
            else st)
      else (err, if (st.files (rot_name name n)).isSome = true then
        remove (rot_name name n) st else st)) = some (-1, st1) ∧ _
  have hsrc : (if (st.files (rot_name name n)).isSome = true then
      remove (rot_name name n) st else st).files (rot_source name n) =
        st.files (rot_source name n) := by
    split
    · simp [remove, Function.update_noteq hne]
    · rfl
  rw [hsrc]
  simp only [hex, if_true]
  by_cases hnew : (st.files (rot_name name n)).isSome = true
  · have hf : (remove (rot_name name n) st).rename_fails (rot_source name n)
        (rot_name name n) = true := hfail
    simp only [hnew, if_true, rename, hf]
    refine ⟨_, rfl, ?_, rfl, rfl, rfl, rfl, rfl, [FileOp.remove (rot_name name n)], ?_, ?_⟩
    · intro x hx
      simp [remove, Function.update_noteq hx]
    · simp [remove]
    · intro op hop
      simpa using hop
  · simp only [hnew, Bool.false_eq_true, if_false, rename, hfail, if_true]
    exact ⟨_, rfl, fun x _ => rfl, rfl, rfl, rfl, rfl, rfl, [], by simp, by simp⟩

theorem log_file_rotate_eq (st : file_t) (path : List Nat)
    (hfit : strlen st.name + SUFFIX_LEN ≤ PATH_SIZE) (hfp : st.fp = some path) :
    log_file_rotate st =
      (rotate_loop st.name st.max_rotate.toNat 0 (fclose st)).map
        (fun r => (r.1, fopen_append (cstr r.2.name) r.2)) := by
  unfold log_file_rotate
  have h1 : ¬ strlen st.name > PATH_SIZE := by
    have : SUFFIX_LEN = 10 := rfl
    omega
  rw [if_neg h1, hfp]
  simp only []
  split
  · next h =>
    have h2 : rotate_loop st.name st.max_rotate.toNat 0 (fclose st) = none := h
    rw [h2]
    rfl
  · next result s1 h =>
    have h2 : rotate_loop st.name st.max_rotate.toNat 0 (fclose st) = some (result, s1) := h
    rw [h2]
    rfl

/-- C14. With `max_rotate = R >= 1`, an open stream, a name that leaves room for the
suffix, rotated names that differ from one another and no failing `rename`,
`log_file_rotate` returns true and afterwards: the file with index 0 holds what the
active file held; the file with index `n`, `1 <= n < R`, holds what the file with index
`n - 1` held, and is absent when that was absent; the active file exists and is empty;
every other file is as before.  What the file with index `R - 1` held is the content of no
file of the rotation afterwards. -/
theorem log_file_rotate_shifts_files (st : file_t) (R : Nat)
    (hR : st.max_rotate = (R : Int)) (h1 : 1 ≤ R) (hfp : st.fp.isSome = true)
    (hfit : strlen st.name + SUFFIX_LEN ≤ PATH_SIZE)
    (hdiff : ∀ i, i < R → ∀ j, j < R → rot_name st.name i = rot_name st.name j → i = j)
    (hno : ∀ a b, st.rename_fails a b = false) :
    ∃ st1, log_file_rotate st = some (true, st1) ∧
      st1.files (rot_name st.name 0) = st.files (cstr st.name) ∧
      (∀ n, 1 ≤ n → n < R →
        st1.files (rot_name st.name n) = st.files (rot_name st.name (n - 1))) ∧
      st1.files (cstr st.name) = some [] ∧
      (∀ x, x ≠ cstr st.name → (∀ j, j < R → x ≠ rot_name st.name j) →
        st1.files x = st.files x) ∧
      st1.fp = some (cstr st.name) ∧ st1.name = st.name ∧ st1.max_size = st.max_size ∧
      st1.max_rotate = st.max_rotate ∧ st1.semid = st.semid ∧
      st1.rename_fails = st.rename_fails := by
  have hdist : ∀ i j, i < R → j < R → rot_name st.name i = rot_name st.name j → i = j :=
    fun i j hi hj => hdiff i hi j hj
  obtain ⟨path, hpath⟩ := Option.isSome_iff_exists.mp hfp
  obtain ⟨e, s1, _, hrun, ha, hb, hc, _, hname, hms, hmr, hsem, hrf, _⟩ :=
    rotate_loop_run st.name R 0 hfit hdist R (Nat.zero_le _) (le_refl _) 0 (fclose st)
      (le_refl _) (fun j _ _ => hno _ _)
  have hname1 : s1.name = st.name := hname
  have htoNat : st.max_rotate.toNat = R := by rw [hR]; rfl
  refine ⟨fopen_append (cstr st.name) s1, ?_, ?_, ?_, ?_, ?_, rfl, hname, hms, hmr, hsem, hrf⟩
  · rw [log_file_rotate_eq st path hfit hpath, htoNat, hrun]
    simp [rotate_loop, hname1]
  · have := ha 0 (Nat.zero_le _) (by omega)
    rw [rot_source_zero] at this
    simp only [fopen_append, Function.update_noteq (rot_name_ne_name st.name 0)]
    exact this
  · intro n hn1 hn2
    have := ha n (Nat.zero_le _) hn2
    obtain ⟨k, rfl⟩ : ∃ k, n = k + 1 := ⟨n - 1, by omega⟩
    rw [rot_source_succ] at this
    simp only [fopen_append, Function.update_noteq (rot_name_ne_name st.name (k + 1))]
    exact this
  · have := hb (by omega)
    rw [rot_source_zero] at this
    simp [fopen_append, this]
  · intro x hx1 hx2
    simp only [fopen_append, Function.update_noteq hx1]
    exact hc x (fun _ => by rw [rot_source_zero]; exact hx1) (fun j _ hj => hx2 j hj)

/-- C14, for `LOG_FILE_NAME` and `LOG_FILE_MAX_ROTATE` of `log.h`, in a file system that
holds the active file only. -/
theorem log_file_rotate_shifts_files_witness :
    ex_file.max_rotate = ((3 : Nat) : Int) ∧ strlen ex_file.name + SUFFIX_LEN ≤ PATH_SIZE ∧
      ∃ st1, log_file_rotate ex_file = some (true, st1) ∧
        st1.files (rot_name ex_file.name 0) = ex_file.files (cstr ex_file.name) ∧
        st1.files (cstr ex_file.name) = some [] :=
  ⟨rfl, by decide,
    (log_file_rotate_shifts_files ex_file 3 rfl (by decide) rfl (by decide)
      (by decide) (fun _ _ => rfl)).imp (fun _ h => ⟨h.1, h.2.1, h.2.2.2.1⟩)⟩

theorem ops_since_append (st st1 : file_t) (l : List FileOp) (h : st1.ops = st.ops ++ l) :
    ops_since st st1 = l := by
  unfold ops_since
  rw [h]
  simp

/-- The rotation in which the `rename` of index `n` is the first one to fail. -/
theorem rotate_failed (st : file_t) (R n : Nat) (path : List Nat)
    (hR : st.max_rotate = (R : Int)) (hn : n < R) (hfp : st.fp = some path)
    (hfit : strlen st.name + SUFFIX_LEN ≤ PATH_SIZE)
    (hdist : ∀ i j, i < R → j < R → rot_name st.name i = rot_name st.name j → i = j)
    (hex : (st.files (rot_source st.name n)).isSome = true)
    (hfail : st.rename_fails (rot_source st.name n) (rot_name st.name n) = true)
    (hok : ∀ j, n < j → j < R →
      st.rename_fails (rot_source st.name j) (rot_name st.name j) = false) :
    ∃ st1 l, log_file_rotate st = some (false, st1) ∧
      st1.ops = st.ops ++ (FileOp.fclose :: l ++
        [FileOp.rename (rot_source st.name n) (rot_name st.name n) (-1),
          FileOp.fopen_append (cstr st.name)]) ∧
      (∀ op ∈ l, ∃ j, n ≤ j ∧ j < R ∧
        (op = FileOp.remove (rot_name st.name j) ∨
          op = FileOp.rename (rot_source st.name j) (rot_name st.name j) 0)) ∧
      (∀ j, j < n → st1.files (rot_name st.name j) = st.files (rot_name st.name j)) ∧
      st1.files (cstr st.name) = some ((st.files (cstr st.name)).getD []) ∧
      st1.fp = some (cstr st.name) ∧ st1.semid = st.semid := by
  obtain ⟨e, s1, he, hrun, _, _, hc, _, hname, _, _, hsem, hrf, l1, hops1, hl1⟩ :=
    rotate_loop_run st.name R (n + 1) hfit hdist R (by omega) (le_refl _) 0 (fclose st)
      (le_refl _) (fun j h1 h2 => hok j (by omega) h2)
  have hname1 : s1.name = st.name := hname
  have hsrc : s1.files (rot_source st.name n) = st.files (rot_source st.name n) :=
    hc _ (fun _ => rot_source_ne_source st.name R n (n + 1) hn (by omega) (by omega) hdist)
      (fun j h1 h2 => rot_source_ne_rot st.name R n j hn h2 (by omega) hdist)
  obtain ⟨s2, hstep, hfiles2, _, hname2, _, _, hsem2, l2, hops2, hl2⟩ :=
    rotate_step_fail st.name n e s1 hfit (rot_source_ne st.name R n hn hdist)
      (by rw [hsrc]; exact hex) (by rw [hrf]; exact hfail)
  have hname3 : s2.name = st.name := hname2.trans hname1
  have htoNat : st.max_rotate.toNat = R := by rw [hR]; rfl
  have hloop : rotate_loop st.name R 0 (fclose st) = some (false, s2) := by
    rw [hrun, rotate_loop, hstep]
    simp
  refine ⟨fopen_append (cstr st.name) s2, l1 ++ l2, ?_, ?_, ?_, ?_, ?_, rfl, ?_⟩
  · rw [log_file_rotate_eq st path hfit hfp, htoNat, hloop]
    simp [hname3]
  · have h0 : (fclose st).ops = st.ops ++ [FileOp.fclose] := rfl
    simp only [fopen_append, hops2, hops1, h0]
    simp
  · intro op hop
    rcases List.mem_append.mp hop with h | h
    · obtain ⟨j, h1, h2, h3⟩ := hl1 op h
      exact ⟨j, by omega, h2, h3⟩
    · exact ⟨n, le_refl _, hn, Or.inl (hl2 op h)⟩
  · intro j hj
    have hne : rot_name st.name j ≠ rot_name st.name n := fun h => by
      have := hdist j n (by omega) hn h
      omega
    simp only [fopen_append, Function.update_noteq (rot_name_ne_name st.name j)]
    rw [hfiles2 _ hne]
    exact hc _
      (fun _ => (rot_source_ne_rot st.name R (n + 1) j (by omega) (by omega) (by omega)
        hdist).symm)
      (fun i h1 h2 h => by have := hdist j i (by omega) h2 h; omega)
  · simp only [fopen_append, Function.update_same]
    rw [hfiles2 _ (rot_name_ne_name st.name n).symm]
    have : s1.files (cstr st.name) = st.files (cstr st.name) :=
      hc _
        (fun _ => by
          rw [rot_source_succ]
          exact (rot_name_ne_name st.name n).symm)
        (fun j _ _ => (rot_name_ne_name st.name j).symm)
    rw [this]
  · exact hsem2.trans hsem

theorem port_lock_fields (st : file_t) :
    (log_file_port_lock st).name = st.name ∧ (log_file_port_lock st).fp = st.fp ∧
      (log_file_port_lock st).max_size = st.max_size ∧
      (log_file_port_lock st).max_rotate = st.max_rotate ∧
      (log_file_port_lock st).semid = st.semid ∧
      (log_file_port_lock st).files = st.files ∧
      (log_file_port_lock st).rename_fails = st.rename_fails ∧
      (log_file_port_lock st).ops =
        st.ops ++ (if st.semid = -1 then [] else [FileOp.semop_down]) := by
  unfold log_file_port_lock
  split <;> simp

theorem port_unlock_fields (st : file_t) :
    (log_file_port_unlock st).name = st.name ∧ (log_file_port_unlock st).fp = st.fp ∧
      (log_file_port_unlock st).max_size = st.max_size ∧
      (log_file_port_unlock st).max_rotate = st.max_rotate ∧
      (log_file_port_unlock st).semid = st.semid ∧
      (log_file_port_unlock st).files = st.files ∧
      (log_file_port_unlock st).rename_fails = st.rename_fails ∧
      (log_file_port_unlock st).ops =
        st.ops ++ (if st.semid = -1 then [] else [FileOp.semop_up]) := by
  unfold log_file_port_unlock
  split <;> simp

/-- C16. When the `rename` of index `n` is the one that fails (the file to rename exists
and no `rename` of a higher index fails), `log_file_rotate` returns false; its calls are
`fclose`, then removes and renames for indices from `n` up only, the failing `rename` as the
last of them, and last `fopen(name, "a+")`; the files with an index below `n` keep their
content.  `log_file_write` for a file above `max_size` then makes such calls between the
semaphore operations down and up (which it makes unless `semid` is -1), makes no `fwrite`,
and leaves the active file as it was. -/
theorem log_file_rotate_failed_rename (st : file_t) (R n : Nat) (log : List Nat) (size : Nat)
    (hR : st.max_rotate = (R : Int)) (hn : n < R) (hfp : st.fp = some (cstr st.name))
    (hfit : strlen st.name + SUFFIX_LEN ≤ PATH_SIZE)
    (hdiff : ∀ i, i < R → ∀ j, j < R → rot_name st.name i = rot_name st.name j → i = j)
    (hex : (st.files (rot_source st.name n)).isSome = true)
    (hfail : st.rename_fails (rot_source st.name n) (rot_name st.name n) = true)
    (hok : ∀ j, j < R → n < j →
      st.rename_fails (rot_source st.name j) (rot_name st.name j) = false)
    (hbig : ((st.files (cstr st.name)).getD []).length > st.max_size) :
    (∃ st1 l, log_file_rotate st = some (false, st1) ∧
      ops_since st st1 = FileOp.fclose :: l ++
        [FileOp.rename (rot_source st.name n) (rot_name st.name n) (-1),
          FileOp.fopen_append (cstr st.name)] ∧
      (∀ op ∈ l, ∃ j, n ≤ j ∧ j < R ∧
        (op = FileOp.remove (rot_name st.name j) ∨
          op = FileOp.rename (rot_source st.name j) (rot_name st.name j) 0)) ∧
      (∀ j, j < n → st1.files (rot_name st.name j) = st.files (rot_name st.name j)) ∧
      st1.fp = some (cstr st.name)) ∧
    ∃ st2 l, log_file_write log size st = some st2 ∧
      ops_since st st2 =
        (if st.semid = -1 then [] else [FileOp.semop_down]) ++
          (FileOp.fclose :: l ++
            [FileOp.rename (rot_source st.name n) (rot_name st.name n) (-1),
              FileOp.fopen_append (cstr st.name)]) ++
          (if st.semid = -1 then [] else [FileOp.semop_up]) ∧
      (∀ op ∈ l, ∃ j, n ≤ j ∧ j < R ∧
        (op = FileOp.remove (rot_name st.name j) ∨
          op = FileOp.rename (rot_source st.name j) (rot_name st.name j) 0)) ∧
      (∀ bytes, FileOp.fwrite bytes ∉ ops_since st st2) ∧
      st2.files (cstr st.name) = st.files (cstr st.name) ∧
      st2.fp = some (cstr st.name) := by
  have hdist : ∀ i j, i < R → j < R → rot_name st.name i = rot_name st.name j → i = j :=
    fun i j hi hj => hdiff i hi j hj
  have hok1 : ∀ j, n < j → j < R →
      st.rename_fails (rot_source st.name j) (rot_name st.name j) = false :=
    fun j h1 h2 => hok j h2 h1
  constructor
  · obtain ⟨st1, l, hrot, hops, hl, hlow, _, hfp1, _⟩ :=
      rotate_failed st R n _ hR hn hfp hfit hdist hex hfail hok1
    exact ⟨st1, l, hrot, ops_since_append _ _ _ hops, hl, hlow, hfp1⟩
  · obtain ⟨k1, k2, k3, k4, k5, k6, k7, k8⟩ := port_lock_fields st
    have hsome : st.files (cstr st.name) = some ((st.files (cstr st.name)).getD []) := by
      cases h : st.files (cstr st.name) with
      | none =>
        rw [h] at hbig
        simp at hbig
      | some c => rfl
    obtain ⟨st1, l, hrot, hops, hl, _, hact, hfp1, hsem1⟩ :=
      rotate_failed (log_file_port_lock st) R n (cstr st.name) (by rw [k4]; exact hR) hn
        (by rw [k2]; exact hfp) (by rw [k1]; exact hfit) (by rw [k1]; exact hdist)
        (by rw [k1, k6]; exact hex) (by rw [k1, k7]; exact hfail)
        (by rw [k1, k7]; exact hok1)
    rw [k1] at hops hl hact hfp1
    rw [k6] at hact
    rw [k5] at hsem1
    rw [k8] at hops
    obtain ⟨u1, u2, u3, u4, u5, u6, u7, u8⟩ := port_unlock_fields st1
    have hall : (log_file_port_unlock st1).ops = st.ops ++
        ((if st.semid = -1 then [] else [FileOp.semop_down]) ++
          (FileOp.fclose :: l ++
            [FileOp.rename (rot_source st.name n) (rot_name st.name n) (-1),
              FileOp.fopen_append (cstr st.name)]) ++
          (if st.semid = -1 then [] else [FileOp.semop_up])) := by
      rw [u8, hops, hsem1]
      simp only [List.append_assoc]
    refine ⟨log_file_port_unlock st1, l, ?_, ops_since_append _ _ _ hall, hl, ?_, ?_, ?_⟩
    · unfold log_file_write
      have hbig1 : (((log_file_port_lock st).files (cstr st.name)).getD []).length >
          (log_file_port_lock st).max_size := by
        rw [k6, k3]
        exact hbig
      simp only [k2, hfp, hbig1, if_true, hrot]
    · intro bytes hmem
      rw [ops_since_append _ _ _ hall] at hmem
      rcases List.mem_append.mp hmem with h | h
      · rcases List.mem_append.mp h with h | h
        · split at h <;> simp at h
        · rcases List.mem_cons.mp h with h | h
          · cases h
          · rcases List.mem_append.mp h with h | h
            · obtain ⟨j, -, -, h3 | h3⟩ := hl _ h <;> cases h3
            · simp at h
      · split at h <;> simp at h
    · rw [u6, hact]
      exact hsome.symm
    · rw [u2]
      exact hfp1

/-- C16, with three rotated files of `LOG_FILE_NAME` of which the `rename` to index 1
fails: the rotation returns false, and the write makes no `fwrite`. -/
theorem log_file_rotate_failed_rename_witness :
    ex_file_fail.max_rotate = ((3 : Nat) : Int) ∧
      ex_file_fail.rename_fails (rot_source ex_file_fail.name 1)
        (rot_name ex_file_fail.name 1) = true ∧
      (∃ st1 l, log_file_rotate ex_file_fail = some (false, st1) ∧
        ops_since ex_file_fail st1 = FileOp.fclose :: l ++
          [FileOp.rename (rot_source ex_file_fail.name 1) (rot_name ex_file_fail.name 1) (-1),
            FileOp.fopen_append (cstr ex_file_fail.name)]) ∧
      ∃ st2, log_file_write (str "Hello\n") 6 ex_file_fail = some st2 ∧
        (∀ bytes, FileOp.fwrite bytes ∉ ops_since ex_file_fail st2) ∧
        st2.files (cstr ex_file_fail.name) = ex_file_fail.files (cstr ex_file_fail.name) :=
  ⟨rfl, rfl,
    (log_file_rotate_failed_rename ex_file_fail 3 1 (str "Hello\n") 6 rfl (by decide) rfl
      (by decide) (by decide) (by decide) rfl (by decide) (by decide)).1.imp
      (fun _ h => h.imp (fun _ h => ⟨h.1, h.2.1⟩)),
    match (log_file_rotate_failed_rename ex_file_fail 3 1 (str "Hello\n") 6 rfl (by decide)
      rfl (by decide) (by decide) (by decide) rfl (by decide) (by decide)).2 with
    | ⟨st2, _, h⟩ => ⟨st2, h.1, h.2.2.2.1, h.2.2.2.2.1⟩⟩

theorem fwrite_open (w : List Nat) (st : file_t) (path : List Nat) (hfp : st.fp = some path) :
    fwrite w st = some { st with
      files := Function.update st.files path (some ((st.files path).getD [] ++ w)),
      ops := st.ops ++ [FileOp.fwrite w] } := by
  unfold fwrite
  rw [hfp]

theorem fwrite_fields (w : List Nat) (st : file_t) (path : List Nat)
    (hfp : st.fp = some path) :
    ∃ s0, fwrite w st = some s0 ∧ s0.name = st.name ∧ s0.fp = st.fp ∧
      s0.max_rotate = st.max_rotate ∧ s0.rename_fails = st.rename_fails ∧
      s0.files = Function.update st.files path (some ((st.files path).getD [] ++ w)) :=
  ⟨_, fwrite_open w st path hfp, rfl, rfl, rfl, rfl, rfl⟩

/-- The run of `rotations` from a state in which, besides the active file, exactly the
rotated files with an index below `m` exist. -/
theorem rotations_inv (name : List Nat) (R : Nat) (h1 : 1 ≤ R)
    (hfit : strlen name + SUFFIX_LEN ≤ PATH_SIZE)
    (hdist : ∀ i j, i < R → j < R → rot_name name i = rot_name name j → i = j) :
    ∀ (ws : List (List Nat)) (st : file_t) (m : Nat), m ≤ R → st.name = name →
      st.max_rotate = (R : Int) → st.fp = some (cstr name) →
      (∀ a b, st.rename_fails a b = false) →
      (∀ x, x ≠ cstr name →
        ((st.files x).isSome = true ↔ ∃ j, j < m ∧ x = rot_name name j)) →
      ∃ st1, rotations ws st = some st1 ∧ st1.fp = some (cstr name) ∧
        (∀ x, x ≠ cstr name →
          ((st1.files x).isSome = true ↔
            ∃ j, j < min (m + ws.length) R ∧ x = rot_name name j)) ∧
        (ws ≠ [] → st1.files (cstr name) = some []) := by
  intro ws
  induction ws with
  | nil =>
    intro st m hm _ _ hfp _ hinv
    refine ⟨st, rfl, hfp, ?_, fun h => absurd rfl h⟩
    intro x hx
    rw [hinv x hx]
    simp [Nat.min_eq_left hm]
  | cons w ws ih =>
    intro st m hm hname hR hfp hno hinv
    obtain ⟨s0, hw, f1, f2, f3, f4, f5⟩ := fwrite_fields w st (cstr name) hfp
    obtain ⟨s1, hrot, hz, hn, hact, hother, hfp1, hname1, _, hmr1, _, hrf1⟩ :=
      log_file_rotate_shifts_files s0 R (f3.trans hR) h1 (by rw [f2, hfp]; rfl)
        (by rw [f1, hname]; exact hfit)
        (by rw [f1, hname]; exact fun i hi j hj => hdist i j hi hj)
        (by rw [f4]; exact hno)
    rw [f1, hname] at hz hn hact hother hfp1 hname1
    rw [f5] at hz hn hother
    rw [f3] at hmr1
    rw [f4] at hrf1
    have hinv1 : ∀ x, x ≠ cstr name →
        ((s1.files x).isSome = true ↔ ∃ j, j < min (m + 1) R ∧ x = rot_name name j) := by
      intro x hx
      by_cases hxr : ∃ j0, j0 < R ∧ x = rot_name name j0
      · obtain ⟨j0, hj0, rfl⟩ := hxr
        cases j0 with
        | zero =>
          rw [hz]
          simp only [Function.update_same, Option.isSome_some, true_iff]
          exact ⟨0, by omega, rfl⟩
        | succ j0 =>
          rw [hn (j0 + 1) (by omega) hj0]
          change (Function.update st.files (cstr name) _ (rot_name name j0)).isSome = true ↔ _
          rw [Function.update_noteq (rot_name_ne_name name j0)]
          rw [hinv _ (rot_name_ne_name name j0)]
          constructor
          · rintro ⟨j, hj, he⟩
            have := hdist j0 j (by omega) (by omega) he
            exact ⟨j0 + 1, by omega, rfl⟩
          · rintro ⟨j, hj, he⟩
            have := hdist (j0 + 1) j hj0 (by omega) he
            exact ⟨j0, by omega, rfl⟩
      · have hx2 : ∀ j, j < R → x ≠ rot_name name j := fun j hj he => hxr ⟨j, hj, he⟩
        rw [hother x hx hx2]
        simp only [Function.update_noteq hx]
        rw [hinv x hx]
        constructor
        · rintro ⟨j, hj, he⟩
          exact absurd he (hx2 j (by omega))
        · rintro ⟨j, hj, he⟩
          exact absurd he (hx2 j (by omega))
    obtain ⟨st1, hrun, hfp2, hinv2, hact2⟩ :=
      ih s1 (min (m + 1) R) (Nat.min_le_right _ _) hname1 (hmr1.trans hR) hfp1
        (fun a b => by rw [hrf1]; exact hno a b) hinv1
    refine ⟨st1, ?_, hfp2, ?_, ?_⟩
    · rw [rotations, hw]
      simp only []
      rw [hrot]
      exact hrun
    · intro x hx
      rw [hinv2 x hx]
      have : min (min (m + 1) R + ws.length) R = min (m + (w :: ws).length) R := by
        simp only [List.length_cons]
        omega
      rw [this]
    · intro _
      cases ws with
      | nil =>
        simp only [rotations] at hrun
        injection hrun with hrun
        rw [← hrun]
        exact hact
      | cons w2 ws2 => exact hact2 (by simp)

/-- C15. From a file system that holds no file but (at most) the active one, with an open
stream, `max_rotate = R >= 1`, rotated names that differ and no failing `rename`: after
`N` rotations, each of them after any appending to the active file, the files other than
the active one that exist are exactly the rotated files with the indices
`0 .. min(N, R) - 1`; right after the last rotation (so, taking the first `k` steps, after
each one) the active file is empty, and a write then makes its content the bytes
written. -/
theorem rotations_keep_newest (st : file_t) (R : Nat) (ws : List (List Nat))
    (hR : st.max_rotate = (R : Int)) (h1 : 1 ≤ R) (hfp : st.fp = some (cstr st.name))
    (hfit : strlen st.name + SUFFIX_LEN ≤ PATH_SIZE)
    (hdiff : ∀ i, i < R → ∀ j, j < R → rot_name st.name i = rot_name st.name j → i = j)
    (hno : ∀ a b, st.rename_fails a b = false)
    (honly : ∀ x, x ≠ cstr st.name → st.files x = none) :
    ∃ st1, rotations ws st = some st1 ∧
      (∀ x, x ≠ cstr st.name →
        ((st1.files x).isSome = true ↔
          ∃ j, j < min ws.length R ∧ x = rot_name st.name j)) ∧
      (ws ≠ [] → st1.files (cstr st.name) = some [] ∧
        ∀ w, ∃ st2, fwrite w st1 = some st2 ∧ st2.files (cstr st.name) = some w) ∧
      ∀ k, 1 ≤ k → k ≤ ws.length →
        ∃ stk, rotations (ws.take k) st = some stk ∧ stk.files (cstr st.name) = some [] := by
  have hdist : ∀ i j, i < R → j < R → rot_name st.name i = rot_name st.name j → i = j :=
    fun i j hi hj => hdiff i hi j hj
  have hinv0 : ∀ x, x ≠ cstr st.name →
      ((st.files x).isSome = true ↔ ∃ j, j < 0 ∧ x = rot_name st.name j) := by
    intro x hx
    rw [honly x hx]
    simp
  obtain ⟨st1, hrun, hfp1, hinv, hact⟩ :=
    rotations_inv st.name R h1 hfit hdist ws st 0 (Nat.zero_le _) rfl hR hfp hno hinv0
  refine ⟨st1, hrun, ?_, ?_, ?_⟩
  · intro x hx
    rw [hinv x hx, Nat.zero_add]
  · intro hne
    refine ⟨hact hne, fun w => ?_⟩
    rw [fwrite_open w st1 _ hfp1]
    refine ⟨_, rfl, ?_⟩
    simp [hact hne]
  · intro k hk1 hk2
    obtain ⟨stk, hrunk, _, _, hactk⟩ :=
      rotations_inv st.name R h1 hfit hdist (ws.take k) st 0 (Nat.zero_le _) rfl hR hfp hno
        hinv0
    refine ⟨stk, hrunk, hactk ?_⟩
    intro h
    have := congrArg List.length h
    rw [List.length_take, List.length_nil] at this
    omega

theorem ex_file_only (x : List Nat) (hx : x ≠ cstr ex_file.name) : ex_file.files x = none := by
  have h1 : cstr ex_file.name = LOG_FILE_NAME := by decide
  have h2 : ex_file.files = Function.update
      (fun path => if path = LOG_FILE_NAME then some (str "old\n") else none) LOG_FILE_NAME
      (some (str "old\n")) := rfl
  rw [h1] at hx
  rw [h2, Function.update_noteq hx]
  exact if_neg hx

/-- C15, for `LOG_FILE_NAME` and `LOG_FILE_MAX_ROTATE` of `log.h`: after four rotations the
rotated files 0, 1 and 2 exist and the active file is empty. -/
theorem rotations_keep_newest_witness :
    ex_file.max_rotate = ((3 : Nat) : Int) ∧
      (∀ x, x ≠ cstr ex_file.name → ex_file.files x = none) ∧
      ∃ st1, rotations [str "a", str "b", str "c", str "d"] ex_file = some st1 ∧
        (∀ x, x ≠ cstr ex_file.name →
          ((st1.files x).isSome = true ↔ ∃ j, j < 3 ∧ x = rot_name ex_file.name j)) ∧
        st1.files (cstr ex_file.name) = some [] :=
  ⟨rfl, ex_file_only,
    (rotations_keep_newest ex_file 3 [str "a", str "b", str "c", str "d"] rfl (by decide) rfl
      (by decide) (by decide) (fun _ _ => rfl) ex_file_only).imp
      (fun _ h => ⟨h.1, h.2.1, (h.2.2.1 (by decide)).1⟩)⟩

end Sink

theorem strncmp_self_append (a x : List Nat) (h : ∀ c ∈ a, c ≠ 0) :
    strncmp a (a ++ x) a.length = 0 := by
  rw [strncmp_eq_zero_iff, cstr_str_eq a h, cstr_append_of_no_zero a x h,
    List.take_length, List.take_left]

theorem no_zero_of_not_mem (a : List Nat) (h : 0 ∉ a) : ∀ c ∈ a, c ≠ 0 :=
  fun _ hc h0 => h (h0 ▸ hc)

theorem color_output_info_inj (i j : Nat) (hi : i ≤ 5) (hj : j ≤ 5)
    (h : color_output_info i = color_output_info j) : i = j := by
  interval_cases i <;> interval_cases j <;> first | rfl | (exact absurd h (by decide))

theorem color_output_info_length (i : Nat) (hi : i ≤ 5) : (color_output_info i).length = 6 := by
  interval_cases i <;> rfl

theorem strlen_color_output_info (i : Nat) (hi : i ≤ 5) : strlen (color_output_info i) = 6 := by
  interval_cases i <;> rfl

/-- The comparison of `log_find_lvl` at index `i` for a text that starts with the color of
level `L`. -/
theorem strncmp_color (i L : Nat) (x : List Nat) (hi : i ≤ 5) (hL : L ≤ 5) :
    strncmp (color_output_info i) (color_output_info L ++ x)
      (strlen (color_output_info i)) = 0 ↔ i = L := by
  rw [strncmp_eq_zero_iff, strlen_color_output_info i hi,
    cstr_append_of_no_zero _ x (no_zero_of_not_mem _ (zero_not_mem_color_output_info L)),
    cstr_str_eq _ (no_zero_of_not_mem _ (zero_not_mem_color_output_info i))]
  have h1 : (color_output_info i).take 6 = color_output_info i :=
    List.take_of_length_le (by rw [color_output_info_length i hi])
  have h2 : (color_output_info L ++ cstr x).take 6 = color_output_info L := by
    rw [← color_output_info_length L hL, List.take_left]
  rw [h1, h2]
  exact ⟨color_output_info_inj i L hi hL, fun h => by rw [h]⟩

theorem find_lvl_loop_color (L : Nat) (x : List Nat) (hL : L ≤ 5) :
    ∀ k i, i ≤ L → L < i + k → i + k ≤ 6 →
      find_lvl_loop (color_output_info L ++ x) k i = (L : Int) := by
  intro k
  induction k with
  | zero => intro i h1 h2; omega
  | succ k ih =>
    intro i h1 h2 h3
    rw [find_lvl_loop]
    by_cases hiL : i = L
    · rw [if_pos ((strncmp_color i L x (by omega) hL).mpr hiL), hiL]
    · rw [if_neg (fun h => hiL ((strncmp_color i L x (by omega) hL).mp h))]
      exact ih (i + 1) (by omega) (by omega) (by omega)

theorem rendered_starts_with (g : log_t) (p : Port) (level : Nat) (tag file func : List Nat)
    (line : Int) (msg : List Nat) (buf : Mem) (P Z : List Nat)
    (h : header_text g p level tag file func line = P ++ Z) (hP : P.length ≤ 1019) :
    ∃ Y, rendered g p level tag file func line msg buf = P ++ Y := by
  refine ⟨(Z ++ msg).take (1019 - P.length), ?_⟩
  rw [(format_spec g p level tag file func line msg buf).1, h, List.append_assoc,
    List.take_append_eq_append_take, List.take_of_length_le hP]

theorem color_text_on (g : log_t) (level : Nat) (h : g.text_color_enabled = true) :
    color_text g level = CSI_START ++ color_output_info level := by
  unfold color_text
  rw [if_pos h]

/-- C22. With text color enabled and the Level field in the format set of all six levels,
for every level `L` in 0..5 and every record: `log_output` passes nothing to the sinks or
the line `l` that it renders for the record, and `log_find_lvl`, called afterwards on that
line (whatever bytes `rest` follow it in memory), returns `L`. -/
theorem log_find_lvl_recovers_level (p : Port) (L : Nat) (tag file func : List Nat)
    (line : Int) (msg rest : List Nat) (s : Sys) (hL : L ≤ LOG_LVL_VERBOSE)
    (hcol : s.g.text_color_enabled = true)
    (hm : ∀ i, i ≤ LOG_LVL_VERBOSE → s.g.enabled_fmt_set i &&& LOG_FMT_LVL ≠ 0) :
    (console_lines (log_output p L tag file func line msg s).trace = console_lines s.trace ∨
      console_lines (log_output p L tag file func line msg s).trace =
        console_lines s.trace ++
          [rendered s.g p L tag file func line msg s.log_buf ++ CSI_END ++
            LOG_NEWLINE_SIGN]) ∧
      (log_find_lvl p
        (rendered s.g p L tag file func line msg s.log_buf ++ CSI_END ++ LOG_NEWLINE_SIGN ++
          rest)
        (log_output p L tag file func line msg s)).1 = (L : Int) := by
  have hL5 : L ≤ 5 := hL
  constructor
  · have hl : ¬ L > LOG_LVL_VERBOSE := by omega
    unfold log_output
    rw [if_neg hl]
    rcases (body_cases p L tag file func line msg s).1 with ⟨a, _⟩ | ⟨a, _⟩
    · exact Or.inl a
    · right
      rw [a, hcol]
      rfl
  · have hset : (log_output p L tag file func line msg s).g.enabled_fmt_set =
        s.g.enabled_fmt_set := (sameSettings_log_output p L tag file func line msg s).2.1
    obtain ⟨Y, hY⟩ := rendered_starts_with s.g p L tag file func line msg s.log_buf
      (CSI_START ++ color_output_info L)
      (level_text s.g L ++ tag_field s.g L tag ++ time_info_text s.g p L ++
        src_info_text s.g L file func line)
      (by unfold header_text; rw [color_text_on s.g L hcol]; simp only [List.append_assoc])
      (by rw [List.length_append, color_output_info_length L hL5]; decide)
    unfold log_find_lvl
    rw [hset]
    simp only [hm LOG_LVL_ASSERT (by decide), hm LOG_LVL_ERROR (by decide),
      hm LOG_LVL_WARN (by decide), hm LOG_LVL_INFO (by decide), hm LOG_LVL_DEBUG (by decide),
      hm LOG_LVL_VERBOSE (by decide), if_false]
    rw [hY]
    have hdrop : (CSI_START ++ color_output_info L ++ Y ++ CSI_END ++ LOG_NEWLINE_SIGN ++
        rest).drop (strlen CSI_START) =
          color_output_info L ++ (Y ++ CSI_END ++ LOG_NEWLINE_SIGN ++ rest) := by
      simp only [List.append_assoc]
      rfl
    rw [hdrop]
    exact find_lvl_loop_color L _ hL5 6 0 (Nat.zero_le _) (by omega) (le_refl _)

/-- C22, in the state that `log_init` leaves: text color is enabled and every level has the
Level field; the level of a Warn record is found again. -/
theorem log_find_lvl_recovers_level_witness :
    (log_init ex_port start_sys).g.text_color_enabled = true ∧
      (∀ i, i ≤ LOG_LVL_VERBOSE →
        (log_init ex_port start_sys).g.enabled_fmt_set i &&& LOG_FMT_LVL ≠ 0) ∧
      (log_find_lvl ex_port
        (rendered (log_init ex_port start_sys).g ex_port LOG_LVL_WARN (str "main")
            (str "main.c") (str "main") 10 (str "Hello") (log_init ex_port start_sys).log_buf ++
          CSI_END ++ LOG_NEWLINE_SIGN ++ [0])
        (log_output ex_port LOG_LVL_WARN (str "main") (str "main.c") (str "main") 10
          (str "Hello") (log_init ex_port start_sys))).1 = 2 :=
  ⟨rfl, by decide,
    (log_find_lvl_recovers_level ex_port LOG_LVL_WARN (str "main") (str "main.c") (str "main")
      10 (str "Hello") [0] (log_init ex_port start_sys) (by decide) rfl (by decide)).2⟩

/-- C23, the failing input: after `log_init` and `log_set_text_color_enabled(false)` every
level has the Level field and the Warn record "Hello" with tag "main" reaches the console
without color, as a line that starts with "W/main"; `log_find_lvl` returns -1 for this line,
and it returns 0 (Assert) for the line of the Warn record with tag "35;22m". -/
theorem log_find_lvl_without_color_misses_level :
    (log_set_text_color_enabled false (log_init ex_port start_sys)).g.text_color_enabled =
        false ∧
      (∀ i, i ≤ LOG_LVL_VERBOSE →
        (log_set_text_color_enabled false (log_init ex_port start_sys)).g.enabled_fmt_set i &&&
          LOG_FMT_LVL ≠ 0) ∧
      console_lines (log_output ex_port LOG_LVL_WARN (str "main") (str "main.c") (str "main")
          10 (str "Hello")
          (log_set_text_color_enabled false (log_init ex_port start_sys))).trace =
        [str "W/main     [2021-07-28 18:53:39-123] (main.c)Hello\n"] ∧
      (log_find_lvl ex_port (str "W/main     [2021-07-28 18:53:39-123] (main.c)Hello\n")
        (log_set_text_color_enabled false (log_init ex_port start_sys))).1 = -1 ∧
      console_lines (log_output ex_port LOG_LVL_WARN (str "35;22m") (str "main.c")
          (str "main") 10 (str "Hello")
          (log_set_text_color_enabled false (log_init ex_port start_sys))).trace =
        [str "W/35;22m   [2021-07-28 18:53:39-123] (main.c)Hello\n"] ∧
      (log_find_lvl ex_port (str "W/35;22m   [2021-07-28 18:53:39-123] (main.c)Hello\n")
        (log_set_text_color_enabled false (log_init ex_port start_sys))).1 = 0 := by
  refine ⟨rfl, by decide, ?_, ?_, ?_, ?_⟩ <;> decide!

theorem memchr_append (a x : List Nat) (c n : Nat) (h : c ∉ a) (hn : a.length < n) :
    memchr (a ++ c :: x) c n = some a.length := by
  induction a generalizing n with
  | nil =>
    obtain ⟨k, rfl⟩ : ∃ k, n = k + 1 := ⟨n - 1, by simp at hn; omega⟩
    simp [memchr]
  | cons b a ih =>
    obtain ⟨k, rfl⟩ : ∃ k, n = k + 1 := ⟨n - 1, by simp at hn; omega⟩
    have hb : b ≠ c := fun e => h (e ▸ List.mem_cons_self _ _)
    rw [List.cons_append, memchr, if_neg hb,
      ih k (fun hc => h (List.mem_cons_of_mem _ hc)) (by simpa using hn)]
    rfl

theorem memchr_none (a : List Nat) (c n : Nat) (h : c ∉ a.take n) : memchr a c n = none := by
  induction a generalizing n with
  | nil => cases n <;> rfl
  | cons b a ih =>
    cases n with
    | zero => rfl
    | succ k =>
      rw [List.take_succ_cons] at h
      have hb : b ≠ c := fun e => h (e ▸ List.mem_cons_self _ _)
      rw [memchr, if_neg hb, ih k (fun hc => h (List.mem_cons_of_mem _ hc))]
      rfl

theorem level_output_info_length (i : Nat) (hi : i ≤ 5) : (level_output_info i).length = 2 := by
  interval_cases i <;> rfl

theorem strlen_level_output_info (i : Nat) (hi : i ≤ 5) : strlen (level_output_info i) = 2 := by
  interval_cases i <;> rfl

theorem get_fmt_enabled_of_bit (g : log_t) (level set : Nat) (hl : level ≤ LOG_LVL_VERBOSE)
    (h : g.enabled_fmt_set level &&& set ≠ 0) : get_fmt_enabled g level set = true := by
  unfold get_fmt_enabled
  rw [if_neg (by omega)]
  simpa using h

theorem tag_text_eq (tag : List Nat) :
    ∃ Z, tag_text tag = cstr tag ++ 32 :: Z := by
  unfold tag_text
  by_cases h : strlen tag ≤ 8
  · rw [if_pos h]
    cases hk : 8 - strlen tag with
    | zero => exact ⟨[], by simp⟩
    | succ k => exact ⟨List.replicate k 32 ++ [32], by simp [List.replicate_succ]⟩
  · rw [if_neg h]
    exact ⟨[], by simp⟩

/-- The line of a record whose level has the Level and Tag fields, with text color enabled
and a tag of at most 1000 characters: color, level, tag and a space stand at its start. -/
theorem rendered_tag_prefix (g : log_t) (p : Port) (L : Nat) (tag file func : List Nat)
    (line : Int) (msg : List Nat) (buf : Mem) (hL : L ≤ 5) (hcol : g.text_color_enabled = true)
    (hlv : g.enabled_fmt_set L &&& LOG_FMT_LVL ≠ 0)
    (htg : g.enabled_fmt_set L &&& LOG_FMT_TAG ≠ 0) (hlen : strlen tag ≤ 1000) :
    ∃ Y, rendered g p L tag file func line msg buf =
      CSI_START ++ color_output_info L ++ level_output_info L ++ (cstr tag ++ 32 :: Y) := by
  obtain ⟨Z, hZ⟩ := tag_text_eq tag
  obtain ⟨Y, hY⟩ := rendered_starts_with g p L tag file func line msg buf
    (CSI_START ++ color_output_info L ++ level_output_info L ++ (cstr tag ++ [32]))
    (Z ++ time_info_text g p L ++ src_info_text g L file func line)
    (by
      unfold header_text level_text tag_field
      rw [color_text_on g L hcol, get_fmt_enabled_of_bit g L _ hL hlv,
        get_fmt_enabled_of_bit g L _ hL htg, hZ]
      simp only [if_true, List.append_assoc, List.cons_append, List.nil_append])
    (by
      simp only [List.length_append, color_output_info_length L hL,
        level_output_info_length L hL, List.length_singleton]
      have : (cstr tag).length ≤ 1000 := hlen
      have : CSI_START.length = 2 := rfl
      omega)
  exact ⟨Y, by rw [hY]; simp only [List.append_assoc, List.cons_append, List.nil_append]⟩

/-- C24, as stated, fails for a tag of 16 characters: with text color enabled and the
format sets of `log_init`, `log_find_tag` returns NULL for the line of the Warn record with
tag "0123456789abcdef". -/
theorem log_find_tag_misses_tag_of_sixteen :
    strlen (str "0123456789abcdef") = LOG_FILTER_TAG_MAX_LEN ∧
      (32 : Nat) ∉ str "0123456789abcdef" ∧
      (log_init ex_port start_sys).g.text_color_enabled = true ∧
      (∀ i, i ≤ LOG_LVL_VERBOSE →
        (log_init ex_port start_sys).g.enabled_fmt_set i &&& LOG_FMT_LVL ≠ 0 ∧
          (log_init ex_port start_sys).g.enabled_fmt_set i &&& LOG_FMT_TAG ≠ 0) ∧
      console_lines (log_output ex_port LOG_LVL_WARN (str "0123456789abcdef") (str "main.c")
          (str "main") 10 (str "Hello") (log_init ex_port start_sys)).trace =
        [str ("\x1b[33;22mW/0123456789abcdef [2021-07-28 18:53:39-123] (main.c)Hello" ++
          "\x1b[0m\n")] ∧
      (log_find_tag ex_port
        (str ("\x1b[33;22mW/0123456789abcdef [2021-07-28 18:53:39-123] (main.c)Hello" ++
          "\x1b[0m\n"))
        LOG_LVL_WARN (log_init ex_port start_sys)).1 = none := by
  refine ⟨by decide, by decide, rfl, by decide, ?_, ?_⟩ <;> decide!

/-- C24, amended. With text color enabled and the Level and Tag fields in the format set of
the level `L <= 5`, for a tag without a space that is at most 15 characters long: the line
that `log_output` renders for the record starts with the color, the level text, the tag and
a space, and `log_find_tag`, called on that line (whatever bytes `rest` follow it) with
`lvl = L`, returns the pointer to the place where the tag starts and stores the length of the
tag in `*tag_len`. -/
theorem log_find_tag_recovers_tag (p : Port) (L : Nat) (tag file func : List Nat)
    (line : Int) (msg rest : List Nat) (s : Sys) (hL : L ≤ LOG_LVL_VERBOSE)
    (hcol : s.g.text_color_enabled = true)
    (hlv : s.g.enabled_fmt_set L &&& LOG_FMT_LVL ≠ 0)
    (htg : s.g.enabled_fmt_set L &&& LOG_FMT_TAG ≠ 0)
    (hsp : (32 : Nat) ∉ cstr tag) (hlen : strlen tag < LOG_FILTER_TAG_MAX_LEN) :
    (∃ Y, rendered s.g p L tag file func line msg s.log_buf =
        CSI_START ++ color_output_info L ++ level_output_info L ++ (cstr tag ++ 32 :: Y)) ∧
      (log_find_tag p
        (rendered s.g p L tag file func line msg s.log_buf ++ CSI_END ++ LOG_NEWLINE_SIGN ++
          rest)
        L (log_output p L tag file func line msg s)).1 =
        some ((CSI_START ++ color_output_info L ++ level_output_info L).length, strlen tag) := by
  have hL5 : L ≤ 5 := hL
  have h16 : LOG_FILTER_TAG_MAX_LEN = 16 := rfl
  obtain ⟨Y, hY⟩ := rendered_tag_prefix s.g p L tag file func line msg s.log_buf hL5 hcol hlv
    htg (by omega)
  refine ⟨⟨Y, hY⟩, ?_⟩
  have hset : (log_output p L tag file func line msg s).g.enabled_fmt_set =
      s.g.enabled_fmt_set := (sameSettings_log_output p L tag file func line msg s).2.1
  unfold log_find_tag
  have hmax : ¬ L ≥ LOG_LVL_MAX := by
    have : LOG_LVL_MAX = 6 := rfl
    omega
  rw [hset]
  simp only [hmax, htg, if_false]
  have hoff : strlen CSI_START + strlen (color_output_info L) + strlen (level_output_info L) =
      (CSI_START ++ color_output_info L ++ level_output_info L).length := by
    rw [strlen_color_output_info L hL5, strlen_level_output_info L hL5]
    simp only [List.length_append, color_output_info_length L hL5,
      level_output_info_length L hL5]
    rfl
  rw [hoff, hY]
  have hdrop : (CSI_START ++ color_output_info L ++ level_output_info L ++
      (cstr tag ++ 32 :: Y) ++ CSI_END ++ LOG_NEWLINE_SIGN ++ rest).drop
        (CSI_START ++ color_output_info L ++ level_output_info L).length =
      cstr tag ++ 32 :: (Y ++ CSI_END ++ LOG_NEWLINE_SIGN ++ rest) := by
    have e : CSI_START ++ color_output_info L ++ level_output_info L ++
        (cstr tag ++ 32 :: Y) ++ CSI_END ++ LOG_NEWLINE_SIGN ++ rest =
        (CSI_START ++ color_output_info L ++ level_output_info L) ++
          (cstr tag ++ 32 :: (Y ++ CSI_END ++ LOG_NEWLINE_SIGN ++ rest)) := by
      simp only [List.append_assoc, List.cons_append]
    rw [e, List.drop_left]
  rw [hdrop, memchr_append _ _ _ _ hsp hlen]
  rfl

/-- C24, amended, for the Warn record with tag "main" in the state that `log_init`
leaves: the tag is found at offset 10 with length 4. -/
theorem log_find_tag_recovers_tag_witness :
    (32 : Nat) ∉ cstr (str "main") ∧ strlen (str "main") < LOG_FILTER_TAG_MAX_LEN ∧
      (log_find_tag ex_port
        (rendered (log_init ex_port start_sys).g ex_port LOG_LVL_WARN (str "main")
            (str "main.c") (str "main") 10 (str "Hello") (log_init ex_port start_sys).log_buf ++
          CSI_END ++ LOG_NEWLINE_SIGN ++ [0])
        LOG_LVL_WARN
        (log_output ex_port LOG_LVL_WARN (str "main") (str "main.c") (str "main") 10
          (str "Hello") (log_init ex_port start_sys))).1 = some (10, 4) :=
  ⟨by decide, by decide,
    (log_find_tag_recovers_tag ex_port LOG_LVL_WARN (str "main") (str "main.c") (str "main")
      10 (str "Hello") [0] (log_init ex_port start_sys) (by decide) rfl (by decide)
      (by decide) (by decide) (by decide)).2⟩

/-- C25, as stated, fails: after `log_init` and `log_set_fmt(LOG_LVL_ASSERT, LOG_FMT_LVL)`
the Assert level lacks the Tag field, yet `log_find_tag` with `lvl = LOG_LVL_WARN` returns
the tag of the line of a Warn record: offset 10, length 4. -/
theorem log_find_tag_checks_one_level_only :
    (log_set_fmt ex_port LOG_LVL_ASSERT LOG_FMT_LVL
        (log_init ex_port start_sys)).g.enabled_fmt_set LOG_LVL_ASSERT &&& LOG_FMT_TAG = 0 ∧
      console_lines (log_output ex_port LOG_LVL_WARN (str "main") (str "main.c") (str "main")
          10 (str "Hello")
          (log_set_fmt ex_port LOG_LVL_ASSERT LOG_FMT_LVL (log_init ex_port start_sys))).trace =
        [str "\x1b[33;22mW/main     [2021-07-28 18:53:39-123] (main.c)Hello\x1b[0m\n"] ∧
      (log_find_tag ex_port
        (str "\x1b[33;22mW/main     [2021-07-28 18:53:39-123] (main.c)Hello\x1b[0m\n")
        LOG_LVL_WARN
        (log_set_fmt ex_port LOG_LVL_ASSERT LOG_FMT_LVL (log_init ex_port start_sys))).1 =
        some (10, 4) := by
  refine ⟨by decide, ?_, ?_⟩ <;> decide!

/-- C25, amended. When the format set of the level `lvl` lacks the Tag field (or `lvl` is
`LOG_LVL_MAX` or more), `log_find_tag` returns NULL for every line. -/
theorem log_find_tag_needs_tag_field (p : Port) (log : List Nat) (lvl : Nat) (s : Sys)
    (h : lvl ≥ LOG_LVL_MAX ∨ s.g.enabled_fmt_set lvl &&& LOG_FMT_TAG = 0) :
    (log_find_tag p log lvl s).1 = none := by
  unfold log_find_tag
  split
  · rfl
  · rcases h with h | h
    · contradiction
    · rw [if_pos h]

/-- C25, amended, for the Assert level without the Tag field. -/
theorem log_find_tag_needs_tag_field_witness :
    (log_set_fmt ex_port LOG_LVL_ASSERT LOG_FMT_LVL
        (log_init ex_port start_sys)).g.enabled_fmt_set LOG_LVL_ASSERT &&& LOG_FMT_TAG = 0 ∧
      (log_find_tag ex_port (str "\x1b[35;22mA/Hello\x1b[0m\n") LOG_LVL_ASSERT
        (log_set_fmt ex_port LOG_LVL_ASSERT LOG_FMT_LVL (log_init ex_port start_sys))).1 =
        none :=
  ⟨by decide,
    log_find_tag_needs_tag_field ex_port (str "\x1b[35;22mA/Hello\x1b[0m\n") LOG_LVL_ASSERT
      (log_set_fmt ex_port LOG_LVL_ASSERT LOG_FMT_LVL (log_init ex_port start_sys))
      (Or.inr (by decide))⟩

theorem lock_enabled_settings (b : Bool) (s : Sys) :
    (log_output_lock_enabled b s).g.filter = s.g.filter ∧
      (log_output_lock_enabled b s).g.enabled_fmt_set = s.g.enabled_fmt_set ∧
      (log_output_lock_enabled b s).g.init_ok = s.g.init_ok ∧
      (log_output_lock_enabled b s).g.text_color_enabled = s.g.text_color_enabled ∧
      (log_output_lock_enabled b s).g.output_enabled = s.g.output_enabled ∧
      (log_output_lock_enabled b s).log_buf = s.log_buf := by
  unfold log_output_lock_enabled
  simp only []
  split
  · split
    · exact ⟨rfl, rfl, rfl, rfl, rfl, rfl⟩
    · split <;> exact ⟨rfl, rfl, rfl, rfl, rfl, rfl⟩
  · exact ⟨rfl, rfl, rfl, rfl, rfl, rfl⟩

theorem log_set_fmt_valid (p : Port) (level set : Nat) (s : Sys)
    (hl : level ≤ LOG_LVL_VERBOSE) :
    log_set_fmt p level set s =
      { s with g := { s.g with
          enabled_fmt_set := Function.update s.g.enabled_fmt_set level set } } := by
  unfold log_set_fmt
  rw [if_neg (by omega)]

theorem log_set_filter_lvl_valid (p : Port) (level : Nat) (s : Sys)
    (hl : level ≤ LOG_LVL_VERBOSE) :
    log_set_filter_lvl p level s =
      { s with g := { s.g with filter := { s.g.filter with level := level } } } := by
  unfold log_set_filter_lvl
  rw [if_neg (by omega)]

/-- What `log_init` does to an uninitialised logger, field by field. -/
theorem log_init_fields (p : Port) (s : Sys) (h : s.g.init_ok = false) :
    (log_init p s).g.init_ok = true ∧ (log_init p s).g.output_enabled = true ∧
      (log_init p s).g.text_color_enabled = true ∧
      (log_init p s).g.filter.level = LOG_LVL_VERBOSE ∧
      (log_init p s).g.filter.tag = s.g.filter.tag ∧
      (log_init p s).g.filter.keyword = s.g.filter.keyword ∧
      (log_init p s).g.filter.tag_lvl = s.g.filter.tag_lvl := by
  obtain ⟨h1, -, -, -, -, -⟩ := lock_enabled_settings true (log_port_init s)
  unfold log_init
  rw [h]
  simp only [Bool.false_eq_true, if_false]
  rw [log_set_fmt_valid _ LOG_LVL_VERBOSE _ _ (by decide),
    log_set_fmt_valid _ LOG_LVL_DEBUG _ _ (by decide),
    log_set_fmt_valid _ LOG_LVL_INFO _ _ (by decide),
    log_set_fmt_valid _ LOG_LVL_WARN _ _ (by decide),
    log_set_fmt_valid _ LOG_LVL_ERROR _ _ (by decide),
    log_set_fmt_valid _ LOG_LVL_ASSERT _ _ (by decide),
    log_set_filter_lvl_valid _ LOG_LVL_VERBOSE _ (by decide)]
  refine ⟨?_, ?_, ?_, ?_, ?_, ?_, ?_⟩
  · trivial
  · trivial
  · trivial
  · trivial
  · show (log_output_lock_enabled true (log_port_init s)).g.filter.tag = s.g.filter.tag
    rw [h1]
    rfl
  · show (log_output_lock_enabled true (log_port_init s)).g.filter.keyword = s.g.filter.keyword
    rw [h1]
    rfl
  · show (log_output_lock_enabled true (log_port_init s)).g.filter.tag_lvl = s.g.filter.tag_lvl
    rw [h1]
    rfl

/-- C26, as stated, fails for a re-initialisation: after `log_init`, the setters
`log_set_filter_tag("main")`, `log_set_filter_kw("Hello")` and
`log_set_filter_tag_lvl("net", LOG_LVL_WARN)`, then `log_deinit` and `log_init` again, the
logger is initialised and the filter still holds the tag "main", the keyword "Hello" and
the tag level in use in slot 0. -/
theorem reinit_keeps_filter :
    (log_deinit (log_set_filter_tag_lvl ex_port (some (str "net")) LOG_LVL_WARN
      (log_set_filter_kw (str "Hello") (log_set_filter_tag (str "main")
        (log_init ex_port start_sys))))).g.init_ok = false ∧
      (log_init ex_port (log_deinit (log_set_filter_tag_lvl ex_port (some (str "net"))
        LOG_LVL_WARN (log_set_filter_kw (str "Hello") (log_set_filter_tag (str "main")
          (log_init ex_port start_sys)))))).g.init_ok = true ∧
      cstr (log_init ex_port (log_deinit (log_set_filter_tag_lvl ex_port (some (str "net"))
        LOG_LVL_WARN (log_set_filter_kw (str "Hello") (log_set_filter_tag (str "main")
          (log_init ex_port start_sys)))))).g.filter.tag = str "main" ∧
      cstr (log_init ex_port (log_deinit (log_set_filter_tag_lvl ex_port (some (str "net"))
        LOG_LVL_WARN (log_set_filter_kw (str "Hello") (log_set_filter_tag (str "main")
          (log_init ex_port start_sys)))))).g.filter.keyword = str "Hello" ∧
      ((log_init ex_port (log_deinit (log_set_filter_tag_lvl ex_port (some (str "net"))
        LOG_LVL_WARN (log_set_filter_kw (str "Hello") (log_set_filter_tag (str "main")
          (log_init ex_port start_sys)))))).g.filter.tag_lvl 0).tag_use_flag = true := by
  decide!

/-- C26, amended. A `log_init` call on an uninitialised logger makes it initialised, sets
the level of the filter to `LOG_LVL_VERBOSE` and leaves the tag of the filter, the keyword
and the table of tag levels as they were; on the zeroed logger of the program start this
gives the empty filter: empty tag, empty keyword, no slot in use. -/
theorem log_init_keeps_filter (p : Port) (s : Sys) (h : s.g.init_ok = false) :
    ((log_init p s).g.init_ok = true ∧
      (log_init p s).g.filter.level = LOG_LVL_VERBOSE ∧
      (log_init p s).g.filter.tag = s.g.filter.tag ∧
      (log_init p s).g.filter.keyword = s.g.filter.keyword ∧
      (log_init p s).g.filter.tag_lvl = s.g.filter.tag_lvl) ∧
    (log_init p start_sys).g.init_ok = true ∧
      cstr (log_init p start_sys).g.filter.tag = [] ∧
      cstr (log_init p start_sys).g.filter.keyword = [] ∧
      ∀ i, ((log_init p start_sys).g.filter.tag_lvl i).tag_use_flag = false := by
  obtain ⟨a1, -, -, a4, a5, a6, a7⟩ := log_init_fields p s h
  obtain ⟨b1, -, -, -, b5, b6, b7⟩ := log_init_fields p start_sys rfl
  refine ⟨⟨a1, a4, a5, a6, a7⟩, b1, ?_, ?_, ?_⟩
  · rw [b5]
    rfl
  · rw [b6]
    rfl
  · intro i
    rw [b7]
    rfl

/-- C26, amended, for the logger after `log_init`, `log_set_filter_tag("main")` and
`log_deinit`: the next `log_init` leaves the tag "main" in the filter. -/
theorem log_init_keeps_filter_witness :
    (log_deinit (log_set_filter_tag (str "main") (log_init ex_port start_sys))).g.init_ok =
        false ∧
      (log_init ex_port (log_deinit (log_set_filter_tag (str "main")
        (log_init ex_port start_sys)))).g.filter.tag =
        (log_deinit (log_set_filter_tag (str "main")
          (log_init ex_port start_sys))).g.filter.tag ∧
      cstr (log_init ex_port start_sys).g.filter.tag = [] :=
  ⟨rfl,
    (log_init_keeps_filter ex_port
      (log_deinit (log_set_filter_tag (str "main") (log_init ex_port start_sys))) rfl).1.2.2.1,
    (log_init_keeps_filter ex_port
      (log_deinit (log_set_filter_tag (str "main") (log_init ex_port start_sys))) rfl).2.2.1⟩

/-- C29, what the code does: under the comment "disable text color by default" `log_init`
calls `log_set_text_color_enabled(true)`, so after `log_init` on the zeroed logger
`log_get_text_color_enabled()` returns true, and the Error record "Hello" with tag "main"
reaches the console between the escape sequences ESC[31;22m and ESC[0m. -/
theorem log_init_enables_text_color :
    start_sys.g.init_ok = false ∧
      log_get_text_color_enabled (log_init ex_port start_sys) = true ∧
      console_lines (log_output ex_port LOG_LVL_ERROR (str "main") (str "main.c") (str "main")
          10 (str "Hello") (log_init ex_port start_sys)).trace =
        [str "\x1b[31;22mE/main     [2021-07-28 18:53:39-123] (main.c)Hello\x1b[0m\n"] := by
  refine ⟨rfl, rfl, ?_⟩
  decide!

/-- What the call `log_set_text_color_enabled(true)` of `log_init` does in general: right
after `log_init` on an uninitialised logger `log_get_text_color_enabled()` returns true,
and every line that `log_output` passes to the console for a record of level `L <= 5` starts
with ESC, an opening square bracket and the color of the level, and ends with the color
reset and the newline. -/
theorem log_init_text_color_on (p : Port) (s : Sys) (L : Nat) (tag file func : List Nat)
    (line : Int) (msg : List Nat) (h : s.g.init_ok = false) (hL : L ≤ LOG_LVL_VERBOSE) :
    log_get_text_color_enabled (log_init p s) = true ∧
      (console_lines (log_output p L tag file func line msg (log_init p s)).trace =
          console_lines (log_init p s).trace ∨
        ∃ Y, console_lines (log_output p L tag file func line msg (log_init p s)).trace =
          console_lines (log_init p s).trace ++
            [CSI_START ++ color_output_info L ++ Y ++ CSI_END ++ LOG_NEWLINE_SIGN]) := by
  obtain ⟨-, -, hcol, -⟩ := log_init_fields p s h
  refine ⟨hcol, ?_⟩
  have hl : ¬ L > LOG_LVL_VERBOSE := by omega
  have hL5 : L ≤ 5 := hL
  unfold log_output
  rw [if_neg hl]
  rcases (body_cases p L tag file func line msg (log_init p s)).1 with ⟨a, _⟩ | ⟨a, _⟩
  · exact Or.inl a
  · right
    obtain ⟨Y, hY⟩ := rendered_starts_with (log_init p s).g p L tag file func line msg
      (log_init p s).log_buf (CSI_START ++ color_output_info L)
      (level_text (log_init p s).g L ++ tag_field (log_init p s).g L tag ++
        time_info_text (log_init p s).g p L ++ src_info_text (log_init p s).g L file func line)
      (by
        unfold header_text
        rw [color_text_on (log_init p s).g L hcol]
        simp only [List.append_assoc])
      (by rw [List.length_append, color_output_info_length L hL5]; decide)
    refine ⟨Y, ?_⟩
    rw [a, hcol, hY]
    rfl

/-- The same for the zeroed logger of the program start and an Error record. -/
theorem log_init_text_color_on_witness :
    start_sys.g.init_ok = false ∧
      log_get_text_color_enabled (log_init ex_port start_sys) = true :=
  ⟨rfl,
    (log_init_text_color_on ex_port start_sys LOG_LVL_ERROR (str "main") (str "main.c")
      (str "main") 10 (str "Hello") rfl (by decide)).1⟩

/-- The three ways in which the loop of `lock_open` ends, for passes that start at the
call number `i`. -/
theorem lock_open_loop_spec (polls : Nat → Int × Nat) :
    ∀ k i ds,
      ((∀ j, j < k → (polls (i + j)).1 ≠ -1 ∧ (polls (i + j)).2 = 0) →
        lock_open_loop polls k i ds = (some (if k = 0 then ds else 0), i + k)) ∧
      (∀ m, m < k → (∀ j, j < m → (polls (i + j)).1 ≠ -1 ∧ (polls (i + j)).2 = 0) →
        (polls (i + m)).1 = -1 → lock_open_loop polls k i ds = (none, i + m + 1)) ∧
      (∀ m, m < k → (∀ j, j < m → (polls (i + j)).1 ≠ -1 ∧ (polls (i + j)).2 = 0) →
        (polls (i + m)).1 ≠ -1 → (polls (i + m)).2 ≠ 0 →
        lock_open_loop polls k i ds = (some (polls (i + m)).2, i + m + 1)) ∧
      (lock_open_loop polls k i ds).2 ≤ i + k := by
  intro k
  induction k with
  | zero =>
    intro i ds
    refine ⟨fun _ => rfl, fun m hm => absurd hm (by omega), fun m hm => absurd hm (by omega),
      le_refl _⟩
  | succ k ih =>
    intro i ds
    obtain ⟨ih1, ih2, ih3, ih4⟩ := ih (i + 1) (polls i).2
    have hshift : ∀ j, i + 1 + j = i + (j + 1) := fun j => by omega
    refine ⟨?_, ?_, ?_, ?_⟩
    · intro h
      have h0 := h 0 (by omega)
      rw [Nat.add_zero] at h0
      rw [lock_open_loop]
      simp only [h0.1, if_false, h0.2, ne_eq, not_true_eq_false]
      rw [← h0.2, ih1 (fun j hj => by rw [hshift]; exact h (j + 1) (by omega))]
      rw [h0.2]
      congr 1
      · cases k <;> simp
      · omega
    · intro m hm hpre hrc
      rw [lock_open_loop]
      cases m with
      | zero =>
        rw [Nat.add_zero] at hrc
        simp only [hrc, if_true]
      | succ m =>
        have h0 := hpre 0 (by omega)
        rw [Nat.add_zero] at h0
        simp only [h0.1, if_false, h0.2, ne_eq, not_true_eq_false]
        rw [← h0.2, ih2 m (by omega) (fun j hj => by rw [hshift]; exact hpre (j + 1) (by omega))
          (by rw [hshift]; exact hrc)]
        congr 1
        omega
    · intro m hm hpre hrc hot
      rw [lock_open_loop]
      cases m with
      | zero =>
        rw [Nat.add_zero] at hrc hot
        simp only [hrc, if_false, ne_eq, hot, not_false_eq_true, if_true]
        rfl
      | succ m =>
        have h0 := hpre 0 (by omega)
        rw [Nat.add_zero] at h0
        simp only [h0.1, if_false, h0.2, ne_eq, not_true_eq_false]
        rw [← h0.2, ih3 m (by omega) (fun j hj => by rw [hshift]; exact hpre (j + 1) (by omega))
          (by rw [hshift]; exact hrc) (by rw [hshift]; exact hot)]
        rw [hshift]
    · rw [lock_open_loop]
      simp only []
      split
      · simp only []
        omega
      · split
        · simp only []
          omega
        · have := ih4
          omega

/-- C27. For every result of `semget`, every sequence of `semctl` answers and every value
of the uninitialised `ds.sem_otime`, `lock_open` makes at most 10 `semctl` calls and returns
-1 or the id: -1 without a call when `semget` returned -1; -1 when the call number `m` fails
after `m` calls that succeeded with a zero `sem_otime`; -1 when all 10 calls succeed with a
zero `sem_otime`; and the id after `m + 1` calls when the call number `m` (below 10) is the
first to succeed with a non-zero `sem_otime`. -/
theorem lock_open_terminates (id : Int) (polls : Nat → Int × Nat) (ds0 : Nat) :
    (lock_open id polls ds0).2 ≤ 10 ∧
      ((lock_open id polls ds0).1 = -1 ∨ (lock_open id polls ds0).1 = id) ∧
      (id = -1 → lock_open id polls ds0 = (-1, 0)) ∧
      (id ≠ -1 → ∀ m, m < 10 → (∀ j, j < m → (polls j).1 ≠ -1 ∧ (polls j).2 = 0) →
        (polls m).1 = -1 → lock_open id polls ds0 = (-1, m + 1)) ∧
      (id ≠ -1 → (∀ j, j < 10 → (polls j).1 ≠ -1 ∧ (polls j).2 = 0) →
        lock_open id polls ds0 = (-1, 10)) ∧
      (id ≠ -1 → ∀ m, m < 10 → (∀ j, j < m → (polls j).1 ≠ -1 ∧ (polls j).2 = 0) →
        (polls m).1 ≠ -1 → (polls m).2 ≠ 0 → lock_open id polls ds0 = (id, m + 1)) := by
  obtain ⟨h1, h2, h3, h4⟩ := lock_open_loop_spec polls 10 0 ds0
  simp only [Nat.zero_add] at h1 h2 h3 h4
  refine ⟨?_, ?_, ?_, ?_, ?_, ?_⟩
  · unfold lock_open
    split
    · simp
    · split
      · next n hq => rw [hq] at h4; exact h4
      · next ds n hq => rw [hq] at h4; exact h4
  · unfold lock_open
    split
    · exact Or.inl rfl
    · split
      · exact Or.inl rfl
      · simp only []
        split
        · exact Or.inl rfl
        · exact Or.inr rfl
  · intro hid
    unfold lock_open
    rw [if_pos hid]
  · intro hid m hm hpre hrc
    unfold lock_open
    rw [if_neg hid, h2 m hm hpre hrc]
  · intro hid hall
    unfold lock_open
    rw [if_neg hid, h1 hall]
    simp
  · intro hid m hm hpre hrc hot
    unfold lock_open
    rw [if_neg hid, h3 m hm hpre hrc hot]
    simp only [hot, if_false]

/-- C27, for a semaphore with id 7 whose creator signals readiness at the fourth poll, and
for one that never does. -/
theorem lock_open_terminates_witness :
    lock_open 7 (fun i => if i < 3 then (0, 0) else (0, 1627)) 99 = (7, 4) ∧
      lock_open 7 (fun _ => (0, 0)) 99 = (-1, 10) :=
  ⟨(lock_open_terminates 7 (fun i => if i < 3 then (0, 0) else (0, 1627)) 99).2.2.2.2.2
      (by decide) 3 (by decide) (by decide) (by decide) (by decide),
    (lock_open_terminates 7 (fun _ => (0, 0)) 99).2.2.2.2.1 (by decide)
      (fun _ _ => ⟨by decide, rfl⟩)⟩

/-- C30, what the code does: `snprintf` is given the size `LOG_LINE_NUM_MAX_LEN`, so the
line number field never has more than four characters, whatever the line number is: it is
cut after the fourth character of the decimal text.  For the line number 12345 the field is
"1234", as in the line of an Assert record after `log_init`. -/
theorem line_num_field_keeps_four_digits :
    (∀ line : Int, (line_num_text line).length ≤ 4 ∧
      line_num_text line = cstr ((fmt_ld line).take 4)) ∧
      line_num_text 12345 = str "1234" ∧
      get_fmt_enabled (log_init ex_port start_sys).g LOG_LVL_ASSERT LOG_FMT_LINE = true ∧
      console_lines (log_output ex_port LOG_LVL_ASSERT (str "main") (str "main.c")
          (str "main") 12345 (str "Hello") (log_init ex_port start_sys)).trace =
        [str ("\x1b[35;22mA/main     [2021-07-28 18:53:39-123] (main.c:1234 main)Hello" ++
          "\x1b[0m\n")] := by
  refine ⟨?_, by decide!, by decide!, by decide!⟩
  intro line
  have e : line_num_text line = cstr ((fmt_ld line).take 4) := by
    unfold line_num_text
    rw [cstr_snprintf _ _ _ (by decide)]
    rfl
  refine ⟨?_, e⟩
  rw [e]
  unfold cstr
  calc (List.takeWhile (fun c => c != 0) ((fmt_ld line).take 4)).length
      ≤ ((fmt_ld line).take 4).length := (List.takeWhile_prefix _).length_le
    _ ≤ 4 := by
      rw [List.length_take]
      exact Nat.min_le_left _ _

/-! ## Threads that call `log_output`: mutual exclusion -/

namespace Threads

theorem header_text_congr (g1 g2 : log_t) (p : Port) (level : Nat) (tag file func : List Nat)
    (line : Int) (h1 : g1.enabled_fmt_set = g2.enabled_fmt_set)
    (h2 : g1.text_color_enabled = g2.text_color_enabled) :
    header_text g1 p level tag file func line = header_text g2 p level tag file func line := by
  unfold header_text color_text level_text tag_field time_info_text src_info_text
    get_fmt_enabled
  simp only [h1, h2]

theorem buf_ok_of_free (g : log_t) (c : Call) (pc : Pc) (buf : Mem) (len : Nat)
    (h : holds_mutex pc = false) : buf_ok g c pc buf len := by
  cases pc <;> trivial

theorem inv_others_free {calls : Nat → Call} {w0 w : World} (h : Inv calls w0 w) (t : Nat)
    (ht : w.owner = some t ∨ w.owner = none) :
    ∀ u, u ≠ t → holds_mutex (w.pc u) = false := by
  intro u hu
  cases hh : holds_mutex (w.pc u) with
  | false => rfl
  | true =>
    have := h.owner u hh
    rcases ht with ht | ht
    · rw [ht] at this
      injection this with e
      exact absurd e.symm hu
    · rw [ht] at this
      cases this

/-- A step of thread `t` while no other thread is between lock and unlock. -/
theorem inv_of_exclusive {calls : Nat → Call} {w0 w w1 : World} (h : Inv calls w0 w)
    (t : Nat) (pc1 : Pc) (hfree : ∀ u, u ≠ t → holds_mutex (w.pc u) = false)
    (hpc : w1.pc = Function.update w.pc t pc1)
    (hlock : w1.sys.g.output_lock_enabled = true)
    (hfmt : w1.sys.g.enabled_fmt_set = w.sys.g.enabled_fmt_set)
    (hcolor : w1.sys.g.text_color_enabled = w.sys.g.text_color_enabled)
    (hown : holds_mutex pc1 = true → w1.owner = some t)
    (hbuf : buf_ok w0.sys.g (eff (calls t)) pc1 w1.sys.log_buf (w1.log_len t))
    (hout : ∀ l, Event.output l ∈ w1.sys.trace →
      Event.output l ∈ w.sys.trace ∨ l = line_text w0.sys.g (eff (calls t)))
    (hfile : ∀ l, Event.file_write l ∈ w1.sys.trace →
      Event.file_write l ∈ w.sys.trace ∨ l = line_text w0.sys.g (eff (calls t))) :
    Inv calls w0 w1 := by
  refine ⟨hlock, hfmt.trans h.fmt, hcolor.trans h.color, ?_, ?_, ?_, ?_⟩
  · intro u hu
    rw [hpc] at hu
    by_cases hut : u = t
    · subst hut
      rw [Function.update_same] at hu
      exact hown hu
    · rw [Function.update_noteq hut, hfree u hut] at hu
      cases hu
  · intro u
    rw [hpc]
    by_cases hut : u = t
    · subst hut
      rw [Function.update_same]
      exact hbuf
    · rw [Function.update_noteq hut]
      exact buf_ok_of_free _ _ _ _ _ (hfree u hut)
  · intro l hl
    rcases hout l hl with h1 | h1
    · exact h.out l h1
    · exact Or.inr ⟨t, h1⟩
  · intro l hl
    rcases hfile l hl with h1 | h1
    · exact h.file l h1
    · exact Or.inr ⟨t, h1⟩

/-- A step of thread `t` that leaves the mutex, the line buffer, the locals `log_len` and
the trace alone and ends at a place outside lock and unlock. -/
theorem inv_of_quiet {calls : Nat → Call} {w0 w w1 : World} (h : Inv calls w0 w)
    (t : Nat) (pc1 : Pc) (hpc : w1.pc = Function.update w.pc t pc1)
    (hfree1 : holds_mutex pc1 = false)
    (hlock : w1.sys.g.output_lock_enabled = true)
    (hfmt : w1.sys.g.enabled_fmt_set = w.sys.g.enabled_fmt_set)
    (hcolor : w1.sys.g.text_color_enabled = w.sys.g.text_color_enabled)
    (hown : w1.owner = w.owner) (hbuf : w1.sys.log_buf = w.sys.log_buf)
    (hlen : w1.log_len = w.log_len) (htrace : w1.sys.trace = w.sys.trace) :
    Inv calls w0 w1 := by
  refine ⟨hlock, hfmt.trans h.fmt, hcolor.trans h.color, ?_, ?_, ?_, ?_⟩
  · intro u hu
    rw [hpc] at hu
    by_cases hut : u = t
    · subst hut
      rw [Function.update_same, hfree1] at hu
      cases hu
    · rw [Function.update_noteq hut] at hu
      rw [hown]
      exact h.owner u hu
  · intro u
    rw [hpc, hbuf, hlen]
    by_cases hut : u = t
    · subst hut
      rw [Function.update_same]
      exact buf_ok_of_free _ _ _ _ _ hfree1
    · rw [Function.update_noteq hut]
      exact h.buf u
  · intro l hl
    rw [htrace] at hl
    exact h.out l hl
  · intro l hl
    rw [htrace] at hl
    exact h.file l hl

theorem mem_output_append (l : List Nat) (tr : List Event) (e : Event)
    (h : Event.output l ∈ tr ++ [e]) : Event.output l ∈ tr ∨ e = Event.output l := by
  rcases List.mem_append.mp h with h | h
  · exact Or.inl h
  · exact Or.inr (List.mem_singleton.mp h).symm

theorem mem_file_append (l : List Nat) (tr : List Event) (e : Event)
    (h : Event.file_write l ∈ tr ++ [e]) : Event.file_write l ∈ tr ∨ e = Event.file_write l := by
  rcases List.mem_append.mp h with h | h
  · exact Or.inl h
  · exact Or.inr (List.mem_singleton.mp h).symm

/-- Every step of a thread keeps the invariant. -/
theorem step_inv {calls : Nat → Call} {w0 w w1 : World} (h : Inv calls w0 w) (t : Nat)
    (hs : step calls t w = some w1) : Inv calls w0 w1 := by
  have hlock := h.lock_on
  have hhdr : ∀ c : Call, header_text w.sys.g c.p c.level c.tag c.file c.func c.line =
      header_text w0.sys.g c.p c.level c.tag c.file c.func c.line :=
    fun c => header_text_congr _ _ _ _ _ _ _ _ h.fmt h.color
  unfold step at hs
  cases hpc : w.pc t with
  | start =>
    simp only [hpc] at hs
    have key : ∀ pc1, holds_mutex pc1 = false → w1 = goto w t pc1 → Inv calls w0 w1 := by
      intro pc1 hf e
      subst e
      exact inv_of_quiet h t pc1 rfl hf hlock rfl rfl rfl rfl rfl rfl
    split at hs
    · exact key Pc.done rfl (Option.some.inj hs).symm
    · split at hs
      · exact key Pc.done rfl (Option.some.inj hs).symm
      · split at hs
        · exact key Pc.done rfl (Option.some.inj hs).symm
        · exact key Pc.get_lock rfl (Option.some.inj hs).symm
  | get_lock =>
    simp only [hpc] at hs
    split at hs
    · have e := (Option.some.inj hs).symm
      subst e
      exact inv_of_quiet h t _ rfl rfl hlock rfl rfl rfl rfl rfl rfl
    · split at hs
      · cases hs
      · next hown =>
        have e := (Option.some.inj hs).symm
        subst e
        refine inv_of_exclusive h t _ (inv_others_free h t (Or.inr hown)) rfl hlock rfl rfl
          (fun _ => rfl) trivial ?_ ?_
        · intro l hl
          rcases mem_output_append l _ _ hl with h1 | h1
          · exact Or.inl h1
          · cases h1
        · intro l hl
          rcases mem_file_append l _ _ hl with h1 | h1
          · exact Or.inl h1
          · cases h1
  | get_scan =>
    simp only [hpc] at hs
    have hown := h.owner t (by rw [hpc]; rfl)
    have e := (Option.some.inj hs).symm
    subst e
    exact inv_of_exclusive h t _ (inv_others_free h t (Or.inl hown)) rfl hlock rfl rfl
      (fun _ => hown) trivial (fun l hl => Or.inl hl) (fun l hl => Or.inl hl)
  | get_unlock =>
    simp only [hpc, hlock, if_true] at hs
    have hown := h.owner t (by rw [hpc]; rfl)
    have e := (Option.some.inj hs).symm
    subst e
    refine inv_of_exclusive h t _ (inv_others_free h t (Or.inl hown)) rfl hlock rfl rfl
      (fun hh => by cases hh) trivial ?_ ?_
    · intro l hl
      rcases mem_output_append l _ _ hl with h1 | h1
      · exact Or.inl h1
      · cases h1
    · intro l hl
      rcases mem_file_append l _ _ hl with h1 | h1
      · exact Or.inl h1
      · cases h1
  | get_flag =>
    simp only [hpc] at hs
    have e := (Option.some.inj hs).symm
    subst e
    exact inv_of_quiet h t _ rfl rfl hlock rfl rfl rfl rfl rfl rfl
  | filter2 =>
    simp only [hpc] at hs
    have key : ∀ pc1, holds_mutex pc1 = false → w1 = goto w t pc1 → Inv calls w0 w1 := by
      intro pc1 hf e
      subst e
      exact inv_of_quiet h t pc1 rfl hf hlock rfl rfl rfl rfl rfl rfl
    split at hs
    · exact key Pc.done rfl (Option.some.inj hs).symm
    · split at hs
      · exact key Pc.done rfl (Option.some.inj hs).symm
      · exact key Pc.out_lock rfl (Option.some.inj hs).symm
  | out_lock =>
    simp only [hpc, hlock, if_true] at hs
    split at hs
    · cases hs
    · next hown =>
      have e := (Option.some.inj hs).symm
      subst e
      refine inv_of_exclusive h t _ (inv_others_free h t (Or.inr hown)) rfl hlock rfl rfl
        (fun _ => rfl) trivial ?_ ?_
      · intro l hl
        rcases mem_output_append l _ _ hl with h1 | h1
        · exact Or.inl h1
        · cases h1
      · intro l hl
        rcases mem_file_append l _ _ hl with h1 | h1
        · exact Or.inl h1
        · cases h1
  | out_flag =>
    simp only [hpc] at hs
    have hown := h.owner t (by rw [hpc]; rfl)
    have e := (Option.some.inj hs).symm
    subst e
    exact inv_of_exclusive h t _ (inv_others_free h t (Or.inl hown)) rfl hlock rfl rfl
      (fun _ => hown) trivial (fun l hl => Or.inl hl) (fun l hl => Or.inl hl)
  | fmt_header =>
    simp only [hpc] at hs
    have hown := h.owner t (by rw [hpc]; rfl)
    have e := (Option.some.inj hs).symm
    subst e
    refine inv_of_exclusive h t _ (inv_others_free h t (Or.inl hown)) rfl hlock rfl rfl
      (fun _ => hown) ?_ (fun l hl => Or.inl hl) (fun l hl => Or.inl hl)
    have hh := holds_fmt_header w.sys.g (eff (calls t)).p (eff (calls t)).level
      (eff (calls t)).tag (eff (calls t)).file (eff (calls t)).func (eff (calls t)).line
      w.sys.log_buf
    have := hh.1
    rw [hhdr] at this
    simpa [buf_ok, goto] using this
  | fmt_msg =>
    simp only [hpc] at hs
    have hown := h.owner t (by rw [hpc]; rfl)
    have hb := h.buf t
    rw [hpc] at hb
    have e := (Option.some.inj hs).symm
    subst e
    refine inv_of_exclusive h t _ (inv_others_free h t (Or.inl hown)) rfl hlock rfl rfl
      (fun _ => hown) ?_ (fun l hl => Or.inl hl) (fun l hl => Or.inl hl)
    have hH : Holds w.sys.log_buf (w.sys.log_buf, w.log_len t)
        (header_text w0.sys.g (eff (calls t)).p (eff (calls t)).level (eff (calls t)).tag
          (eff (calls t)).file (eff (calls t)).func (eff (calls t)).line) :=
      ⟨hb, fun _ _ => rfl⟩
    obtain ⟨f1, f2, -⟩ := fmt_message_spec hH (eff (calls t)).msg
    have f3 : (fmt_message (w.sys.log_buf, w.log_len t) (eff (calls t)).msg).2 ≤ 1019 := by
      rw [f2]
      exact Nat.min_le_left _ _
    simpa [buf_ok, goto] using And.intro f1 f3
  | kw =>
    simp only [hpc] at hs
    have hown := h.owner t (by rw [hpc]; rfl)
    have hb := h.buf t
    rw [hpc] at hb
    have hb2 : mem_read (Function.update w.sys.log_buf (w.log_len t) 0) (w.log_len t) =
        (header_text w0.sys.g (eff (calls t)).p (eff (calls t)).level (eff (calls t)).tag
          (eff (calls t)).file (eff (calls t)).func (eff (calls t)).line ++
            (eff (calls t)).msg).take 1019 := by
      rw [mem_read_update_ge _ _ _ _ (le_refl _)]
      exact hb.1
    split at hs
    · split at hs
      · have e := (Option.some.inj hs).symm
        subst e
        exact inv_of_exclusive h t _ (inv_others_free h t (Or.inl hown)) rfl hlock rfl rfl
          (fun _ => hown) trivial (fun l hl => Or.inl hl) (fun l hl => Or.inl hl)
      · have e := (Option.some.inj hs).symm
        subst e
        exact inv_of_exclusive h t _ (inv_others_free h t (Or.inl hown)) rfl hlock rfl rfl
          (fun _ => hown) ⟨hb2, hb.2⟩ (fun l hl => Or.inl hl) (fun l hl => Or.inl hl)
    · have e := (Option.some.inj hs).symm
      subst e
      exact inv_of_exclusive h t _ (inv_others_free h t (Or.inl hown)) rfl hlock rfl rfl
        (fun _ => hown) hb (fun l hl => Or.inl hl) (fun l hl => Or.inl hl)
  | tail =>
    simp only [hpc] at hs
    have hown := h.owner t (by rw [hpc]; rfl)
    have hb := h.buf t
    rw [hpc] at hb
    have e := (Option.some.inj hs).symm
    subst e
    refine inv_of_exclusive h t _ (inv_others_free h t (Or.inl hown)) rfl hlock rfl rfl
      (fun _ => hown) ?_ (fun l hl => Or.inl hl) (fun l hl => Or.inl hl)
    have ft := (finish_tail w.sys.g.text_color_enabled (w.sys.log_buf, w.log_len t) hb.2).1
    have hb1 := hb.1
    simp only [] at ft hb1
    rw [hb1] at ft
    unfold buf_ok line_text
    simp only [goto, Function.update_same]
    rw [← h.color]
    exact ft
  | emit_console =>
    simp only [hpc] at hs
    have hown := h.owner t (by rw [hpc]; rfl)
    have hb := h.buf t
    rw [hpc] at hb
    have e := (Option.some.inj hs).symm
    subst e
    refine inv_of_exclusive h t _ (inv_others_free h t (Or.inl hown)) rfl hlock rfl rfl
      (fun _ => hown) hb ?_ ?_
    · intro l hl
      rcases mem_output_append l _ _ hl with h1 | h1
      · exact Or.inl h1
      · right
        injection h1 with h1
        rw [← h1]
        exact hb
    · intro l hl
      rcases mem_file_append l _ _ hl with h1 | h1
      · exact Or.inl h1
      · cases h1
  | emit_file =>
    simp only [hpc] at hs
    have hown := h.owner t (by rw [hpc]; rfl)
    have hb := h.buf t
    rw [hpc] at hb
    have e := (Option.some.inj hs).symm
    subst e
    refine inv_of_exclusive h t _ (inv_others_free h t (Or.inl hown)) rfl hlock rfl rfl
      (fun _ => hown) trivial ?_ ?_
    · intro l hl
      rcases mem_output_append l _ _ hl with h1 | h1
      · exact Or.inl h1
      · cases h1
    · intro l hl
      rcases mem_file_append l _ _ hl with h1 | h1
      · exact Or.inl h1
      · right
        injection h1 with h1
        rw [← h1]
        exact hb
  | unlock =>
    simp only [hpc, hlock, if_true] at hs
    have hown := h.owner t (by rw [hpc]; rfl)
    have e := (Option.some.inj hs).symm
    subst e
    refine inv_of_exclusive h t _ (inv_others_free h t (Or.inl hown)) rfl hlock rfl rfl
      (fun hh => by cases hh) trivial ?_ ?_
    · intro l hl
      rcases mem_output_append l _ _ hl with h1 | h1
      · exact Or.inl h1
      · cases h1
    · intro l hl
      rcases mem_file_append l _ _ hl with h1 | h1
      · exact Or.inl h1
      · cases h1
  | unflag =>
    simp only [hpc] at hs
    have e := (Option.some.inj hs).symm
    subst e
    exact inv_of_quiet h t _ rfl rfl hlock rfl rfl rfl rfl rfl rfl
  | done =>
    simp only [hpc] at hs
    cases hs

theorem run_cons (calls : Nat → Call) (w : World) (t : Nat) (ts : List Nat) :
    run calls w (t :: ts) = run calls ((step calls t w).getD w) ts := rfl

theorem run_append (calls : Nat → Call) (w : World) (a b : List Nat) :
    run calls w (a ++ b) = run calls (run calls w a) b := by
  unfold run
  rw [List.foldl_append]

theorem run_done (calls : Nat → Call) (t : Nat) (n : Nat) :
    ∀ w : World, w.pc t = Pc.done → run calls w (List.replicate n t) = w := by
  induction n with
  | zero => intro w _; rfl
  | succ n ih =>
    intro w h
    rw [List.replicate_succ, run_cons]
    have : step calls t w = none := by
      unfold step
      simp only [h]
    rw [this]
    exact ih w h

theorem reaches_refl (calls : Nat → Call) (t : Nat) (w : World) : reaches calls t 0 w w :=
  ⟨0, le_refl _, rfl⟩

theorem reaches_step {calls : Nat → Call} {t : Nat} {w w1 : World}
    (h : step calls t w = some w1) : reaches calls t 1 w w1 :=
  ⟨1, le_refl _, by rw [List.replicate_one, run_cons, h]; rfl⟩

theorem reaches_trans {calls : Nat → Call} {t a b : Nat} {w w1 w2 : World}
    (h1 : reaches calls t a w w1) (h2 : reaches calls t b w1 w2) :
    reaches calls t (a + b) w w2 := by
  obtain ⟨k1, hk1, e1⟩ := h1
  obtain ⟨k2, hk2, e2⟩ := h2
  refine ⟨k1 + k2, by omega, ?_⟩
  rw [List.replicate_add, run_append, e1, e2]

theorem reaches_mono {calls : Nat → Call} {t a b : Nat} {w w1 : World}
    (h : reaches calls t a w w1) (hab : a ≤ b) : reaches calls t b w w1 := by
  obtain ⟨k, hk, e⟩ := h
  exact ⟨k, by omega, e⟩

/-- A thread that has returned after at most `n` steps is where it was after `n` steps. -/
theorem run_of_reaches_done {calls : Nat → Call} {t n : Nat} {w w1 : World}
    (h : reaches calls t n w w1) (hd : w1.pc t = Pc.done) :
    run calls w (List.replicate n t) = w1 := by
  obtain ⟨k, hk, e⟩ := h
  obtain ⟨m, rfl⟩ : ∃ m, n = k + m := ⟨n - k, by omega⟩
  rw [List.replicate_add, run_append, e, run_done _ _ _ _ hd]

/-- The steps inside `log_get_filter_tag_lvl`. -/
theorem reaches_get (calls : Nat → Call) (t : Nat) (w : World) (hpc : w.pc t = Pc.get_lock)
    (hinit : w.sys.g.init_ok = true) (hown : w.owner = none) :
    ∃ w1, reaches calls t 4 w w1 ∧ w1.pc t = Pc.filter2 ∧
      w1.sys = (log_get_filter_tag_lvl (eff (calls t)).tag w.sys).2 ∧
      w1.level t = (log_get_filter_tag_lvl (eff (calls t)).tag w.sys).1 ∧
      (w1.sys.g.output_lock_enabled = true → w1.owner = none) := by
  obtain ⟨w1, s1, p1, g1⟩ : ∃ w1, step calls t w = some w1 ∧ w1.pc t = Pc.get_scan ∧
      w1.sys = log_port_output_lock w.sys := by
    unfold step
    simp only [hpc, hinit, hown, Bool.not_true, Bool.false_eq_true, if_false]
    exact ⟨_, rfl, by simp [goto], rfl⟩
  obtain ⟨w2, s2, p2, g2, l2⟩ : ∃ w2, step calls t w1 = some w2 ∧ w2.pc t = Pc.get_unlock ∧
      w2.sys = w1.sys ∧ w2.level t = (match find_tag_lvl w1.sys.g (eff (calls t)).tag with
        | some i => ((w1.sys.g.filter.tag_lvl i).level : Int)
        | none => (LOG_FILTER_LVL_ALL : Int)) := by
    unfold step
    simp only [p1]
    refine ⟨_, rfl, by simp [goto], rfl, ?_⟩
    simp only [goto, Function.update_same]
  have hres : (log_get_filter_tag_lvl (eff (calls t)).tag w.sys).1 = w2.level t := by
    unfold log_get_filter_tag_lvl
    simp only [hinit, Bool.not_true, Bool.false_eq_true, if_false]
    rw [l2, g1]
  have hsys : (log_get_filter_tag_lvl (eff (calls t)).tag w.sys).2 =
      log_output_unlock (log_port_output_lock w.sys) := by
    unfold log_get_filter_tag_lvl
    simp only [hinit, Bool.not_true, Bool.false_eq_true, if_false]
  rw [g1] at g2
  cases hl : w.sys.g.output_lock_enabled with
  | false =>
    have hl2 : w2.sys.g.output_lock_enabled = false := by rw [g2]; exact hl
    obtain ⟨w3, s3, p3, g3, l3, o3⟩ : ∃ w3, step calls t w2 = some w3 ∧
        w3.pc t = Pc.filter2 ∧ w3.sys = log_output_unlock w2.sys ∧ w3.level t = w2.level t ∧
        w3.sys.g.output_lock_enabled = false := by
      unfold step
      simp only [p2, hl2, Bool.false_eq_true, if_false]
      refine ⟨_, rfl, by simp [goto], ?_, by simp [goto], by simp [goto, hl2]⟩
      unfold log_output_unlock
      simp [goto, hl2]
    refine ⟨w3, reaches_mono (reaches_trans (reaches_trans (reaches_step s1) (reaches_step s2))
      (reaches_step s3)) (by omega), p3, ?_, ?_, ?_⟩
    · rw [hsys, g3, g2]
    · rw [hres, l3]
    · intro h
      rw [o3] at h
      cases h
  | true =>
    have hl2 : w2.sys.g.output_lock_enabled = true := by rw [g2]; exact hl
    obtain ⟨w3, s3, p3, g3, l3, o3⟩ : ∃ w3, step calls t w2 = some w3 ∧
        w3.pc t = Pc.get_flag ∧ w3.sys = log_port_output_unlock w2.sys ∧
        w3.level t = w2.level t ∧ w3.owner = none := by
      unfold step
      simp only [p2, hl2, if_true]
      exact ⟨_, rfl, by simp [goto], rfl, by simp [goto], rfl⟩
    obtain ⟨w4, s4, p4, g4, l4, o4⟩ : ∃ w4, step calls t w3 = some w4 ∧
        w4.pc t = Pc.filter2 ∧ w4.sys = log_output_unlock w2.sys ∧
        w4.level t = w3.level t ∧ w4.owner = none := by
      unfold step
      simp only [p3]
      refine ⟨_, rfl, by simp [goto], ?_, by simp [goto], by simp [goto, o3]⟩
      unfold log_output_unlock
      simp [goto, hl2, g3]
    refine ⟨w4, reaches_trans (reaches_trans (reaches_trans (reaches_step s1) (reaches_step s2))
      (reaches_step s3)) (reaches_step s4), p4, ?_, ?_, fun _ => o4⟩
    · rw [hsys, g4, g2]
    · rw [hres, l4, l3]

/-- The steps inside `log_output_lock`. -/
theorem reaches_lock (calls : Nat → Call) (t : Nat) (w : World) (hpc : w.pc t = Pc.out_lock)
    (hown : w.sys.g.output_lock_enabled = true → w.owner = none) :
    ∃ w1, reaches calls t 2 w w1 ∧ w1.pc t = Pc.fmt_header ∧
      w1.sys = log_output_lock w.sys := by
  cases hl : w.sys.g.output_lock_enabled with
  | false =>
    obtain ⟨w1, s1, p1, g1⟩ : ∃ w1, step calls t w = some w1 ∧ w1.pc t = Pc.fmt_header ∧
        w1.sys = log_output_lock w.sys := by
      unfold step
      simp only [hpc, hl, Bool.false_eq_true, if_false]
      refine ⟨_, rfl, by simp [goto], ?_⟩
      unfold log_output_lock
      simp [goto, hl]
    exact ⟨w1, reaches_mono (reaches_step s1) (by omega), p1, g1⟩
  | true =>
    have ho := hown hl
    obtain ⟨w1, s1, p1, g1⟩ : ∃ w1, step calls t w = some w1 ∧ w1.pc t = Pc.out_flag ∧
        w1.sys = log_port_output_lock w.sys := by
      unfold step
      simp only [hpc, hl, if_true, ho]
      exact ⟨_, rfl, by simp [goto], rfl⟩
    obtain ⟨w2, s2, p2, g2⟩ : ∃ w2, step calls t w1 = some w2 ∧ w2.pc t = Pc.fmt_header ∧
        w2.sys = log_output_lock w.sys := by
      unfold step
      simp only [p1]
      refine ⟨_, rfl, by simp [goto], ?_⟩
      unfold log_output_lock
      simp [goto, hl, g1]
    exact ⟨w2, reaches_trans (reaches_step s1) (reaches_step s2), p2, g2⟩

/-- The steps that write the header and the message. -/
theorem reaches_format (calls : Nat → Call) (t : Nat) (w : World)
    (hpc : w.pc t = Pc.fmt_header) :
    ∃ w1, reaches calls t 2 w w1 ∧ w1.pc t = Pc.kw ∧ w1.sys.g = w.sys.g ∧
      w1.sys.trace = w.sys.trace ∧ w1.sys.mutex_held = w.sys.mutex_held ∧
      w1.sys.blocked_at = w.sys.blocked_at ∧
      (w1.sys.log_buf, w1.log_len t) =
        log_output_format w.sys.g (eff (calls t)).p (eff (calls t)).level (eff (calls t)).tag
          (eff (calls t)).file (eff (calls t)).func (eff (calls t)).line (eff (calls t)).msg
          w.sys.log_buf := by
  obtain ⟨w1, s1, p1, g1, t1, m1, k1, b1⟩ : ∃ w1, step calls t w = some w1 ∧
      w1.pc t = Pc.fmt_msg ∧
      w1.sys.g = w.sys.g ∧ w1.sys.trace = w.sys.trace ∧
      w1.sys.mutex_held = w.sys.mutex_held ∧ w1.sys.blocked_at = w.sys.blocked_at ∧
      (w1.sys.log_buf, w1.log_len t) =
        fmt_header w.sys.g (eff (calls t)).p (eff (calls t)).level (eff (calls t)).tag
          (eff (calls t)).file (eff (calls t)).func (eff (calls t)).line w.sys.log_buf := by
    unfold step
    simp only [hpc]
    exact ⟨_, rfl, by simp [goto], rfl, rfl, rfl, rfl, by simp [goto]⟩
  obtain ⟨w2, s2, p2, g2, t2, m2, k2, b2⟩ : ∃ w2, step calls t w1 = some w2 ∧
      w2.pc t = Pc.kw ∧
      w2.sys.g = w1.sys.g ∧ w2.sys.trace = w1.sys.trace ∧
      w2.sys.mutex_held = w1.sys.mutex_held ∧ w2.sys.blocked_at = w1.sys.blocked_at ∧
      (w2.sys.log_buf, w2.log_len t) =
        fmt_message (w1.sys.log_buf, w1.log_len t) (eff (calls t)).msg := by
    unfold step
    simp only [p1]
    exact ⟨_, rfl, by simp [goto], rfl, rfl, rfl, rfl, by simp [goto]⟩
  refine ⟨w2, reaches_trans (reaches_step s1) (reaches_step s2), p2, g2.trans g1,
    t2.trans t1, m2.trans m1, k2.trans k1, ?_⟩
  rw [b2, b1]
  rfl

theorem sys_ext (a b : Sys) (h1 : a.g = b.g) (h2 : a.log_buf = b.log_buf)
    (h3 : a.trace = b.trace) (h4 : a.mutex_held = b.mutex_held)
    (h5 : a.blocked_at = b.blocked_at) : a = b := by
  cases a
  cases b
  simp only [Sys.mk.injEq]
  exact ⟨h1, h2, h3, h4, h5⟩

/-- The steps inside `log_output_unlock`. -/
theorem reaches_unlock (calls : Nat → Call) (t : Nat) (w : World) (hpc : w.pc t = Pc.unlock) :
    ∃ w1, reaches calls t 2 w w1 ∧ w1.pc t = Pc.done ∧ w1.sys = log_output_unlock w.sys := by
  cases hl : w.sys.g.output_lock_enabled with
  | false =>
    obtain ⟨w1, s1, p1, g1⟩ : ∃ w1, step calls t w = some w1 ∧ w1.pc t = Pc.done ∧
        w1.sys = log_output_unlock w.sys := by
      unfold step
      simp only [hpc, hl, Bool.false_eq_true, if_false]
      refine ⟨_, rfl, by simp [goto], ?_⟩
      unfold log_output_unlock
      simp [goto, hl]
    exact ⟨w1, reaches_mono (reaches_step s1) (by omega), p1, g1⟩
  | true =>
    obtain ⟨w1, s1, p1, g1⟩ : ∃ w1, step calls t w = some w1 ∧ w1.pc t = Pc.unflag ∧
        w1.sys = log_port_output_unlock w.sys := by
      unfold step
      simp only [hpc, hl, if_true]
      exact ⟨_, rfl, by simp [goto], rfl⟩
    obtain ⟨w2, s2, p2, g2⟩ : ∃ w2, step calls t w1 = some w2 ∧ w2.pc t = Pc.done ∧
        w2.sys = log_output_unlock w.sys := by
      unfold step
      simp only [p1]
      refine ⟨_, rfl, by simp [goto], ?_⟩
      unfold log_output_unlock
      simp [goto, hl, g1]
    exact ⟨w2, reaches_trans (reaches_step s1) (reaches_step s2), p2, g2⟩

/-- The steps from the trailing signs to the return. -/
theorem reaches_tail (calls : Nat → Call) (t : Nat) (w : World) (hpc : w.pc t = Pc.tail) :
    ∃ w1, reaches calls t 5 w w1 ∧ w1.pc t = Pc.done ∧
      w1.sys = log_output_unlock
        (log_file_write
          (log_append (if w.sys.g.text_color_enabled then
            log_append (w.sys.log_buf, w.log_len t) CSI_END
            else (w.sys.log_buf, w.log_len t)) LOG_NEWLINE_SIGN).2
          (log_port_output
            (log_append (if w.sys.g.text_color_enabled then
              log_append (w.sys.log_buf, w.log_len t) CSI_END
              else (w.sys.log_buf, w.log_len t)) LOG_NEWLINE_SIGN).2
            { w.sys with log_buf :=
              (log_append (if w.sys.g.text_color_enabled then
                log_append (w.sys.log_buf, w.log_len t) CSI_END
                else (w.sys.log_buf, w.log_len t)) LOG_NEWLINE_SIGN).1 })) := by
  obtain ⟨st, hst⟩ : ∃ st : Line, st = log_append (if w.sys.g.text_color_enabled then
      log_append (w.sys.log_buf, w.log_len t) CSI_END
      else (w.sys.log_buf, w.log_len t)) LOG_NEWLINE_SIGN := ⟨_, rfl⟩
  rw [← hst]
  obtain ⟨w1, s1, p1, g1, l1⟩ : ∃ w1, step calls t w = some w1 ∧ w1.pc t = Pc.emit_console ∧
      w1.sys = { w.sys with log_buf := st.1 } ∧ w1.log_len t = st.2 := by
    unfold step
    simp only [hpc]
    rw [← hst]
    exact ⟨_, rfl, by simp [goto], rfl, by simp [goto]⟩
  obtain ⟨w2, s2, p2, g2, l2⟩ : ∃ w2, step calls t w1 = some w2 ∧ w2.pc t = Pc.emit_file ∧
      w2.sys = log_port_output st.2 { w.sys with log_buf := st.1 } ∧ w2.log_len t = st.2 := by
    unfold step
    simp only [p1]
    exact ⟨_, rfl, by simp [goto], by simp [goto, g1, l1], by simp [goto, l1]⟩
  obtain ⟨w3, s3, p3, g3⟩ : ∃ w3, step calls t w2 = some w3 ∧ w3.pc t = Pc.unlock ∧
      w3.sys = log_file_write st.2 (log_port_output st.2 { w.sys with log_buf := st.1 }) := by
    unfold step
    simp only [p2]
    exact ⟨_, rfl, by simp [goto], by simp [goto, g2, l2]⟩
  obtain ⟨w4, r4, p4, g4⟩ := reaches_unlock calls t w3 p3
  refine ⟨w4, reaches_trans (reaches_trans (reaches_trans (reaches_step s1) (reaches_step s2))
    (reaches_step s3)) r4, p4, ?_⟩
  rw [g4, g3]

/-- The steps from the keyword filter to the return. -/
theorem reaches_finish (calls : Nat → Call) (t : Nat) (w : World) (hpc : w.pc t = Pc.kw) :
    ∃ w1, reaches calls t 6 w w1 ∧ w1.pc t = Pc.done ∧
      w1.sys = log_output_finish (w.sys.log_buf, w.log_len t) w.sys := by
  by_cases hk : w.sys.g.filter.keyword.headD 0 = 0
  · obtain ⟨w1, s1, p1, g1, l1⟩ : ∃ w1, step calls t w = some w1 ∧ w1.pc t = Pc.tail ∧
        w1.sys = w.sys ∧ w1.log_len t = w.log_len t := by
      unfold step
      simp only [hpc, hk, ne_eq, not_true_eq_false, if_false]
      exact ⟨_, rfl, by simp [goto], rfl, rfl⟩
    obtain ⟨w2, r2, p2, g2⟩ := reaches_tail calls t w1 p1
    refine ⟨w2, reaches_trans (reaches_step s1) r2, p2, ?_⟩
    rw [g2, g1, l1]
    unfold log_output_finish
    simp only [hk, ne_eq, not_true_eq_false, if_false]
  · by_cases hn : (strstr (mem_read (Function.update w.sys.log_buf (w.log_len t) 0)
        LOG_LINE_BUF_SIZE) w.sys.g.filter.keyword).isNone = true
    · obtain ⟨w1, s1, p1, g1⟩ : ∃ w1, step calls t w = some w1 ∧ w1.pc t = Pc.unlock ∧
          w1.sys = { w.sys with log_buf := Function.update w.sys.log_buf (w.log_len t) 0 } := by
        unfold step
        simp only [hpc, hk, ne_eq, not_false_eq_true, if_true, hn]
        exact ⟨_, rfl, by simp [goto], rfl⟩
      obtain ⟨w2, r2, p2, g2⟩ := reaches_unlock calls t w1 p1
      refine ⟨w2, reaches_mono (reaches_trans (reaches_step s1) r2) (by omega), p2, ?_⟩
      rw [g2, g1]
      unfold log_output_finish
      simp only [hk, ne_eq, not_false_eq_true, if_true, hn]
    · obtain ⟨w1, s1, p1, g1, l1⟩ : ∃ w1, step calls t w = some w1 ∧ w1.pc t = Pc.tail ∧
          w1.sys = { w.sys with log_buf := Function.update w.sys.log_buf (w.log_len t) 0 } ∧
          w1.log_len t = w.log_len t := by
        unfold step
        simp only [hpc, hk, ne_eq, not_false_eq_true, if_true, hn, Bool.false_eq_true,
          if_false]
        exact ⟨_, rfl, by simp [goto], rfl, rfl⟩
      obtain ⟨w2, r2, p2, g2⟩ := reaches_tail calls t w1 p1
      refine ⟨w2, reaches_trans (reaches_step s1) r2, p2, ?_⟩
      rw [g2, g1, l1]
      unfold log_output_finish
      simp only [hk, ne_eq, not_false_eq_true, if_true, hn, Bool.false_eq_true, if_false]

theorem finish_buf_irrelevant (st : Line) (s : Sys) (b : Mem) :
    log_output_finish st { s with log_buf := b } = log_output_finish st s := by
  unfold log_output_finish
  rfl

theorem log_output_eq_body_eff (c : Call) (s : Sys) :
    log_output c.p c.level c.tag c.file c.func c.line c.msg s =
      log_output_body (eff c).p (eff c).level (eff c).tag (eff c).file (eff c).func
        (eff c).line (eff c).msg s := by
  unfold log_output eff log_a
  split <;> rfl

/-- A thread that runs alone, with the mutex free when it starts, has returned after at
most 16 steps and has done to `g_log`, the line buffer and the trace what the sequential
`log_output` does for its record. -/
theorem run_alone (calls : Nat → Call) (w : World) (t : Nat)
    (hpc : w.pc t = Pc.start) (hown : w.owner = none) :
    (run calls w (List.replicate 16 t)).pc t = Pc.done ∧
      (run calls w (List.replicate 16 t)).sys =
        log_output (calls t).p (calls t).level (calls t).tag (calls t).file (calls t).func
          (calls t).line (calls t).msg w.sys := by
  rw [log_output_eq_body_eff]
  suffices h : ∃ w1, reaches calls t 16 w w1 ∧ w1.pc t = Pc.done ∧
      w1.sys = log_output_body (eff (calls t)).p (eff (calls t)).level (eff (calls t)).tag
        (eff (calls t)).file (eff (calls t)).func (eff (calls t)).line (eff (calls t)).msg
        w.sys by
    obtain ⟨w1, r, p, g⟩ := h
    rw [run_of_reaches_done r p]
    exact ⟨p, g⟩
  unfold log_output_body
  have quit : ∀ w0 : World, step calls t w = some w0 → w0.pc t = Pc.done →
      w0.sys = w.sys → ∃ w1, reaches calls t 16 w w1 ∧ w1.pc t = Pc.done ∧ w1.sys = w.sys :=
    fun w0 s p g => ⟨w0, reaches_mono (reaches_step s) (by omega), p, g⟩
  by_cases h1 : w.sys.g.init_ok = true
  swap
  · have h1f : w.sys.g.init_ok = false := by simpa using h1
    simp only [h1f, Bool.not_false, if_true]
    apply quit (goto w t Pc.done) _ (by simp [goto]) rfl
    unfold step
    simp [hpc, h1f]
  by_cases h2 : w.sys.g.output_enabled = true
  swap
  · have h2f : w.sys.g.output_enabled = false := by simpa using h2
    simp only [h1, h2f, Bool.not_true, Bool.false_eq_true, if_false, Bool.not_false, if_true]
    apply quit (goto w t Pc.done) _ (by simp [goto]) rfl
    unfold step
    simp [hpc, h1, h2f]
  by_cases h3 : (eff (calls t)).level > w.sys.g.filter.level
  · simp only [h1, h2, h3, Bool.not_true, Bool.false_eq_true, if_false, if_true]
    apply quit (goto w t Pc.done) _ (by simp [goto]) rfl
    unfold step
    simp [hpc, h1, h2, h3]
  simp only [h1, h2, h3, Bool.not_true, Bool.false_eq_true, if_false]
  obtain ⟨w1, s1, p1, g1, o1⟩ : ∃ w1, step calls t w = some w1 ∧ w1.pc t = Pc.get_lock ∧
      w1.sys = w.sys ∧ w1.owner = none := by
    unfold step
    simp only [hpc, h1, h2, h3, Bool.not_true, Bool.false_eq_true, if_false]
    exact ⟨_, rfl, by simp [goto], rfl, hown⟩
  obtain ⟨w2, r2, p2, g2, l2, o2⟩ := reaches_get calls t w1 p1 (by rw [g1]; exact h1) o1
  rw [g1] at g2 l2
  by_cases h5 : ((eff (calls t)).level : Int) >
      (log_get_filter_tag_lvl (eff (calls t)).tag w.sys).1
  · simp only [h5, if_true]
    obtain ⟨w3, s3, p3, g3⟩ : ∃ w3, step calls t w2 = some w3 ∧ w3.pc t = Pc.done ∧
        w3.sys = w2.sys := by
      unfold step
      simp only [p2, l2, h5, if_true]
      exact ⟨_, rfl, by simp [goto], rfl⟩
    exact ⟨w3, reaches_mono (reaches_trans (reaches_trans (reaches_step s1) r2)
      (reaches_step s3)) (by omega), p3, g3.trans g2⟩
  simp only [h5, if_false]
  have hfil : w2.sys.g.filter = w.sys.g.filter := by
    rw [g2]
    exact (quiet_get_filter_tag_lvl _ _).1
  by_cases h6 : (strstr (eff (calls t)).tag
      (log_get_filter_tag_lvl (eff (calls t)).tag w.sys).2.g.filter.tag).isNone = true
  · simp only [h6, if_true]
    obtain ⟨w3, s3, p3, g3⟩ : ∃ w3, step calls t w2 = some w3 ∧ w3.pc t = Pc.done ∧
        w3.sys = w2.sys := by
      unfold step
      simp only [p2, l2, h5, if_false, g2, h6, if_true]
      exact ⟨_, rfl, by simp [goto], g2⟩
    exact ⟨w3, reaches_mono (reaches_trans (reaches_trans (reaches_step s1) r2)
      (reaches_step s3)) (by omega), p3, g3.trans g2⟩
  simp only [h6, Bool.false_eq_true, if_false]
  obtain ⟨w3, s3, p3, g3, o3⟩ : ∃ w3, step calls t w2 = some w3 ∧ w3.pc t = Pc.out_lock ∧
      w3.sys = w2.sys ∧ w3.owner = w2.owner := by
    unfold step
    simp only [p2, l2, h5, if_false, g2, h6, Bool.false_eq_true]
    exact ⟨_, rfl, by simp [goto], g2, rfl⟩
  obtain ⟨w4, r4, p4, g4⟩ := reaches_lock calls t w3 p3
    (fun h => by rw [o3]; exact o2 (by rw [← g3]; exact h))
  obtain ⟨w5, r5, p5, g5, t5, m5, k5, b5⟩ := reaches_format calls t w4 p4
  obtain ⟨w6, r6, p6, g6⟩ := reaches_finish calls t w5 p5
  refine ⟨w6, reaches_trans (reaches_trans (reaches_trans (reaches_trans (reaches_trans
    (reaches_step s1) r2) (reaches_step s3)) r4) r5) r6, p6, ?_⟩
  rw [g6, b5, g4, g3, g2]
  have e : w5.sys = { log_output_lock (log_get_filter_tag_lvl (eff (calls t)).tag w.sys).2 with
      log_buf := w5.sys.log_buf } := by
    apply sys_ext
    · rw [g5, g4, g3, g2]
    · rfl
    · rw [t5, g4, g3, g2]
    · rw [m5, g4, g3, g2]
    · rw [k5, g4, g3, g2]
  rw [e, finish_buf_irrelevant]

theorem run_inv {calls : Nat → Call} {w0 : World} (schedule : List Nat) :
    ∀ w, Inv calls w0 w → Inv calls w0 (run calls w schedule) := by
  induction schedule with
  | nil => exact fun w h => h
  | cons t ts ih =>
    intro w h
    unfold run
    rw [List.foldl_cons]
    apply ih
    cases hs : step calls t w with
    | none => exact h
    | some w1 => exact step_inv h t hs

theorem inv_start (calls : Nat → Call) (w0 : World)
    (hlock : w0.sys.g.output_lock_enabled = true) (hstart : ∀ t, w0.pc t = Pc.start) :
    Inv calls w0 w0 :=
  ⟨hlock, rfl, rfl, fun t ht => (by rw [hstart t] at ht; cases ht),
    fun t => (by rw [hstart t]; trivial), fun _ hl => Or.inl hl, fun _ hl => Or.inl hl⟩

theorem holds_mutex_of_in_section (pc : Pc) (h : in_section pc = true) :
    holds_mutex pc = true := by
  cases pc <;> first | rfl | cases h

/-- The whole line of a record is what the sequential `log_output` passes to the sinks:
the rendered text, the color reset and the newline. -/
theorem line_text_eq_rendered (g : log_t) (c : Call) (buf : Mem) :
    line_text g c =
      rendered g c.p c.level c.tag c.file c.func c.line c.msg buf ++
        (if g.text_color_enabled then CSI_END else []) ++ LOG_NEWLINE_SIGN := by
  unfold line_text
  rw [(format_spec g c.p c.level c.tag c.file c.func c.line c.msg buf).1]

/-- C28. Threads of one process run `log_output`, each for its own record, with the mutex
semantics of `pthread_mutex_lock` (a thread waits while another one holds the mutex), from a
state with locking enabled in which every thread is before its call.  Under every schedule:
at most one thread is at a place from the first store to the line buffer to the last call
of a sink, and that thread holds the mutex; and every line that reaches the console sink or
the file sink is the whole line of one record, the one the sequential `log_output` emits for
it, so bytes of two records never stand in one line. -/
theorem log_output_threads_exclusive (calls : Nat → Call) (w0 : World) (schedule : List Nat)
    (hlock : w0.sys.g.output_lock_enabled = true) (hstart : ∀ t, w0.pc t = Pc.start) :
    (∀ t u, in_section ((run calls w0 schedule).pc t) = true →
        in_section ((run calls w0 schedule).pc u) = true → t = u) ∧
      (∀ t, in_section ((run calls w0 schedule).pc t) = true →
        (run calls w0 schedule).owner = some t) ∧
      (∀ l, Event.output l ∈ (run calls w0 schedule).sys.trace →
        Event.output l ∈ w0.sys.trace ∨
          ∃ t, l = line_text w0.sys.g (eff (calls t)) ∧
            ∀ buf, l = rendered w0.sys.g (eff (calls t)).p (eff (calls t)).level
              (eff (calls t)).tag (eff (calls t)).file (eff (calls t)).func
              (eff (calls t)).line (eff (calls t)).msg buf ++
                (if w0.sys.g.text_color_enabled then CSI_END else []) ++ LOG_NEWLINE_SIGN) ∧
      (∀ l, Event.file_write l ∈ (run calls w0 schedule).sys.trace →
        Event.file_write l ∈ w0.sys.trace ∨
          ∃ t, l = line_text w0.sys.g (eff (calls t))) := by
  have h := run_inv schedule w0 (inv_start calls w0 hlock hstart)
  refine ⟨?_, ?_, ?_, h.file⟩
  · intro t u ht hu
    have h1 := h.owner t (holds_mutex_of_in_section _ ht)
    have h2 := h.owner u (holds_mutex_of_in_section _ hu)
    rw [h1] at h2
    exact Option.some.inj h2
  · intro t ht
    exact h.owner t (holds_mutex_of_in_section _ ht)
  · intro l hl
    rcases h.out l hl with h1 | ⟨t, h1⟩
    · exact Or.inl h1
    · exact Or.inr ⟨t, h1, fun buf => by rw [h1]; exact line_text_eq_rendered _ _ buf⟩

/-- C28, for two threads after `log_init` whose steps alternate: after nine steps each,
thread 0 is in its section, about to format the message, and thread 1 waits for the mutex
at the lock call of `log_output`. -/
theorem log_output_threads_exclusive_witness :
    ex_world.sys.g.output_lock_enabled = true ∧
      (∀ t u, in_section ((run ex_calls ex_world ex_schedule).pc t) = true →
        in_section ((run ex_calls ex_world ex_schedule).pc u) = true → t = u) ∧
      (run ex_calls ex_world ex_schedule).pc 0 = Pc.fmt_msg ∧
      (run ex_calls ex_world ex_schedule).pc 1 = Pc.out_lock ∧
      (run ex_calls ex_world ex_schedule).owner = some 0 :=
  ⟨rfl, (log_output_threads_exclusive ex_calls ex_world ex_schedule rfl (fun _ => rfl)).1,
    by decide!, by decide!, by decide!⟩

end Threads

/-! ## The hex dump: one line per row -/

end Log
